import Mathlib

/-!
The package `monitor_tool`: a shallow embedding of the statistics pipeline.

The Go package `monitor_tool` is embedded as pure functions over explicit state.

* `uint32` / `uint64` fields are natural numbers, every arithmetic result being reduced
  modulo `2^32` / `2^64` exactly where the Go code computes it.
* Go maps are association lists with distinct keys (`mapGet`, `mapSet`); ranging over a
  map visits the list in order, which is one of the orders Go may choose.
* A Go panic (index out of range, integer division by zero, nil dereference, explicit
  `panic`) is the value `none`.
* `float64` quotients of two counters are exact rationals (`floatDiv`); a quotient by
  zero, which Go evaluates to NaN or +Inf, is `none` and compares below nothing.
* The exported fields of `ReportClientConfig` are the immutable configuration
  (`ReportClientConfig`); its unexported fields, which the workers mutate, together with
  the package variable `defaultEntryConfig`, are the state (`ClientState`).
* Handing a value to a callback or a default printer is recorded as a returned
  notification; a channel is the list of the values sent on it, oldest first.
-/

namespace MonitorTool

/-! ## Machine integers, slices and maps -/

/-- Modulus of `uint32`. -/
def u32 : Nat := 2 ^ 32

/-- Modulus of `uint64`. -/
def u64 : Nat := 2 ^ 64

/-- Lookup `m[k]` with the comma-ok result. -/
def mapGet {κ α : Type} [DecidableEq κ] : List (κ × α) → κ → Option α
  | [], _ => none
  | (k, v) :: m, x => if k = x then some v else mapGet m x

/-- Assignment `m[k] = v`: the binding of an existing key is overwritten in place. -/
def mapSet {κ α : Type} [DecidableEq κ] : List (κ × α) → κ → α → List (κ × α)
  | [], x, a => [(x, a)]
  | (k, v) :: m, x, a => if k = x then (k, a) :: m else (k, v) :: mapSet m x a

/-- Allocation `make([]uint32, n)`; a negative length panics. -/
def makeSlice (n : Int) : Option (List Nat) :=
  if n < 0 then none else some (List.replicate n.toNat 0)

/-- Statement `s[i] += 1` on a `[]uint32`; an index outside the slice panics. -/
def sliceIncr (s : List Nat) (i : Int) : Option (List Nat) :=
  if i < 0 ∨ (s.length : Int) ≤ i then none
  else some (s.set i.toNat ((s.getD i.toNat 0 + 1) % u32))

/-- Expression `s[i]` on a `[]uint32`; an index outside the slice panics. -/
def sliceGet (s : List Nat) (i : Int) : Option Nat :=
  if i < 0 ∨ (s.length : Int) ≤ i then none else s.get? i.toNat

/-- Conversion `uint32(i)` of an `int`. -/
def toU32 (i : Int) : Nat := (i % (u32 : Int)).toNat

/-- Quotient `float64(a) / float64(b)` of two counters, as an exact rational;
`none` stands for the NaN or +Inf produced when `b` is zero. -/
def floatDiv (a b : Nat) : Option ℚ :=
  if b = 0 then none else some ((a : ℚ) / (b : ℚ))

/-- Comparison `x < t` of a rate with a threshold; false on NaN and +Inf. -/
def floatLt (x : Option ℚ) (t : ℚ) : Bool :=
  match x with
  | some q => decide (q < t)
  | none => false

/-- Call `strings.Replace(s, old, new, 1)` on character lists: the first occurrence
of `old` is replaced. -/
def replaceFirst (s old new : List Char) : List Char :=
  match s with
  | [] => if old = [] then new else []
  | c :: t =>
    if old.isPrefixOf (c :: t) then new ++ (c :: t).drop old.length
    else c :: replaceFirst t old new

/-! ## Data model (collector.go, analyzer.go, monitor.go, reporter.go) -/

/-- Type `AlertType` with its three constants. -/
inductive AlertType where
  | NONE
  | FAIL
  | SLOW
deriving DecidableEq, Repr

/-- Struct `EntryConfig`. -/
structure EntryConfig where
  FastLessThan : Nat
  TimeConsumingDistributionSplit : Int
  TimeConsumingDistributionMax : Nat
  TimeConsumingDistributionMin : Nat
  timeConsumingRange : Nat
deriving DecidableEq, Repr

/-- Initial value of the package variable `defaultEntryConfig`. -/
def defaultEntryConfig : EntryConfig where
  FastLessThan := 500
  TimeConsumingDistributionSplit := 10
  TimeConsumingDistributionMax := 500
  TimeConsumingDistributionMin := 100
  timeConsumingRange := (500 - 100) / (10 - 2)

/-- Struct `reportData`: the accumulator of one entry, and a window snapshot once copied.
A nil histogram slice is `none`. -/
structure reportData where
  Name : String
  SuccessMsCount : Nat
  MaxMs : Nat
  MinMs : Nat
  SuccessCount : Nat
  FastCount : Nat
  FailCount : Nat
  FailDistribution : List (Int × Nat)
  TimeConsumingDistribution : Option (List Nat)
  Config : EntryConfig
  Time : Nat
deriving DecidableEq, Repr

/-- Struct `reportServer`: one reported request. -/
structure reportServer where
  Name : String
  Ms : Nat
  Code : Int
deriving DecidableEq, Repr

/-- Struct `clearData`: one flush command. -/
structure clearData where
  Name : String
  Time : Nat
deriving DecidableEq, Repr

/-- Struct `CodeFeature`. -/
structure CodeFeature where
  Success : Bool
  Name : String
deriving DecidableEq, Repr

/-- Struct `OutPutData`: the statistics record of one window. -/
structure OutPutData where
  Timestamp : Nat
  ClientName : String
  InterfaceName : String
  Count : Nat
  SuccessCount : Nat
  SuccessRate : Option ℚ
  SuccessMsAver : Nat
  MaxMs : Nat
  MinMs : Nat
  FastCount : Nat
  FastRate : Option ℚ
  FailCount : Nat
  FailDistribution : List (String × Nat)
  TimeConsumingDistribution : List (String × Nat)
deriving DecidableEq

/-- Struct `alertStatus`: the hysteresis memory of one entry and metric. -/
structure alertStatus where
  recentAlertOutput : List OutPutData
  recentRecoverOutput : List OutPutData
  curState : AlertType
deriving DecidableEq

/-- Exported fields of `ReportClientConfig`. A callback field that is only tested
against nil and called is a boolean, true when the callback is set; a nil
`CodeFeatureMap` is `none`. -/
structure ReportClientConfig where
  Name : String
  DefaultFastTime : Nat
  StatisticalCycle : Int
  AlertForBadSuccessRateReachedTimes : Int
  AlertForBadFastRateReachedTimes : Int
  AlertForGreatSuccessRateReachedTimes : Int
  AlertForGreatFastRateReachedTimes : Int
  SuccessRate : ℚ
  FastRate : ℚ
  ChannelCacheCount : Int
  CodeFeatureMap : Option (List (Int × CodeFeature))
  GetCodeFeature : Option (Int → Bool × String)
  DefaultFailDistributionFormat : String
  OutputCaller : Bool
  AlertCaller : Bool
  RecoverCaller : Bool

/-- Unexported fields of `ReportClientConfig` and the package variable
`defaultEntryConfig`, as the workers see and mutate them. -/
structure ClientState where
  defaultEntryConfig : EntryConfig
  entryConfigMap : List (String × EntryConfig)
  recentSuccessRateStatus : List (String × alertStatus)
  recentFastRateStatus : List (String × alertStatus)
  collectDataMap : List (String × reportData)
  statisticsChannel : List reportData

/-- A call of `AlertCaller`, `RecoverCaller`, `defaultAlert` or `defaultRecover`. -/
structure Notification where
  recovery : Bool
  custom : Bool
  clientName : String
  interfaceName : String
  alertType : AlertType
  recentOutputData : List OutPutData
deriving DecidableEq

/-! ## Entry configuration (collector.go) -/

/-- Method `getEntryConfig`. -/
def getEntryConfig (s : ClientState) (name : String) : EntryConfig :=
  match mapGet s.entryConfigMap name with
  | some curEntryConfig => curEntryConfig
  | none => s.defaultEntryConfig

/-- The value `AddEntryConfig` stores, or `none` when it panics. -/
def normalizeEntryConfig (entryConfig : EntryConfig) : Option EntryConfig :=
  let e1 := if entryConfig.FastLessThan ≤ 0 then { entryConfig with FastLessThan := 500 }
    else entryConfig
  let e2 := if e1.TimeConsumingDistributionSplit < 3 ∨ e1.TimeConsumingDistributionSplit > 20
    then { e1 with TimeConsumingDistributionSplit := 10 } else e1
  let e3 := if e2.TimeConsumingDistributionMax ≤ 0
    then { e2 with TimeConsumingDistributionMax := 500 } else e2
  let e4 := if e3.TimeConsumingDistributionMin ≤ 0
    then { e3 with TimeConsumingDistributionMin := 50 } else e3
  if e4.TimeConsumingDistributionMax ≤ e4.TimeConsumingDistributionMin then none
  else some { e4 with
    timeConsumingRange :=
      (e4.TimeConsumingDistributionMax - e4.TimeConsumingDistributionMin) /
        toU32 (e4.TimeConsumingDistributionSplit - 2) }

/-- Method `AddEntryConfig`. -/
def AddEntryConfig (s : ClientState) (name : String) (entryConfig : EntryConfig) :
    Option ClientState :=
  match normalizeEntryConfig entryConfig with
  | none => none
  | some e => some { s with entryConfigMap := mapSet s.entryConfigMap name e }

/-! ## Collector (collector.go) -/

/-- The struct literal of `serverTask` that creates the accumulator of a new entry.
`Config` is the value `getEntryConfig` points to at that time; a later write of
`Register` to the package variable through that pointer is not followed. -/
def newReportData (s : ClientState) (name : String) : reportData where
  Name := name
  SuccessMsCount := 0
  MaxMs := 0
  MinMs := 0
  SuccessCount := 0
  FastCount := 0
  FailCount := 0
  FailDistribution := []
  TimeConsumingDistribution := none
  Config := getEntryConfig s name
  Time := 0

/-- The classification of a status code in `serverTask`: the callable takes
precedence over the table, and an unknown code is a failure. -/
def codeSuccess (c : ReportClientConfig) (code : Int) : Bool :=
  match c.GetCodeFeature with
  | some f => (f code).1
  | none =>
    match mapGet (c.CodeFeatureMap.getD []) code with
    | some s => s.Success
    | none => false

/-- Statement `m[code]++` on the failure distribution. -/
def failIncr (m : List (Int × Nat)) (code : Int) : List (Int × Nat) :=
  mapSet m code (((mapGet m code).getD 0 + 1) % u32)

/-- The histogram index `serverTask` increments for a successful latency, or `none`
when computing it divides by zero. -/
def bucketIndex (cfg : EntryConfig) (ms : Nat) : Option Int :=
  if ms < cfg.TimeConsumingDistributionMin then some 0
  else if ms ≥ cfg.TimeConsumingDistributionMax then
    some (cfg.TimeConsumingDistributionSplit - 1)
  else if cfg.timeConsumingRange = 0 then none
  else some ((((ms - cfg.TimeConsumingDistributionMin) / cfg.timeConsumingRange + 1) % u32 : Nat) : Int)

/-- The histogram `serverTask` works on: the stored slice, or a new one when it is nil. -/
def histStart (cur : reportData) : Option (List Nat) :=
  match cur.TimeConsumingDistribution with
  | none => makeSlice cur.Config.TimeConsumingDistributionSplit
  | some h => some h

/-- The body of `serverTask` on the accumulator `cur` of the reported entry. -/
def recordReport (c : ReportClientConfig) (cur : reportData) (r : reportServer) :
    Option reportData :=
  match histStart cur with
  | none => none
  | some hist =>
    if codeSuccess c r.Code then
      match bucketIndex cur.Config r.Ms with
      | none => none
      | some i =>
        match sliceIncr hist i with
        | none => none
        | some hist1 =>
          some { cur with
            SuccessCount := (cur.SuccessCount + 1) % u32
            MinMs := if cur.MinMs = 0 then r.Ms
              else if r.Ms < cur.MinMs then r.Ms else cur.MinMs
            MaxMs := if cur.MaxMs = 0 then r.Ms
              else if r.Ms > cur.MaxMs then r.Ms else cur.MaxMs
            SuccessMsCount := (cur.SuccessMsCount + r.Ms) % u64
            TimeConsumingDistribution := some hist1
            FastCount := if r.Ms ≤ cur.Config.FastLessThan then (cur.FastCount + 1) % u32
              else cur.FastCount }
    else
      some { cur with
        TimeConsumingDistribution := some hist
        FailCount := (cur.FailCount + 1) % u32
        FailDistribution := failIncr cur.FailDistribution r.Code }

/-- Method `serverTask`: the accumulator is created on the first report of an entry. -/
def serverTask (c : ReportClientConfig) (s : ClientState) (r : reportServer) :
    Option ClientState :=
  let cur := match mapGet s.collectDataMap r.Name with
    | none => newReportData s r.Name
    | some d => d
  match recordReport c cur r with
  | none => none
  | some d => some { s with collectDataMap := mapSet s.collectDataMap r.Name d }

/-- The accumulator `clearTask` leaves behind after it has sent a snapshot. -/
def resetReportData (cur : reportData) : Option reportData :=
  match makeSlice cur.Config.TimeConsumingDistributionSplit with
  | none => none
  | some hist =>
    some { cur with
      MinMs := 0
      MaxMs := 0
      FailCount := 0
      SuccessCount := 0
      SuccessMsCount := 0
      FastCount := 0
      FailDistribution := []
      TimeConsumingDistribution := some hist }

/-- Method `clearTask`; flushing an entry that has no accumulator dereferences nil. -/
def clearTask (s : ClientState) (curClearData : clearData) : Option ClientState :=
  match mapGet s.collectDataMap curClearData.Name with
  | none => none
  | some curCollectData =>
    if curCollectData.SuccessCount ≠ 0 ∨ curCollectData.FailCount ≠ 0 then
      let collectedData := { curCollectData with Time := curClearData.Time }
      match resetReportData curCollectData with
      | none => none
      | some d =>
        some { s with
          statisticsChannel := s.statisticsChannel ++ [collectedData]
          collectDataMap := mapSet s.collectDataMap curClearData.Name d }
    else some s

/-- A command of the task channel: `SERVER` carries a report, `CLEAR` a flush. -/
inductive taskQueue where
  | SERVER (data : reportServer)
  | CLEAR (data : clearData)
deriving DecidableEq, Repr

/-- One iteration of the loop of `collect`. -/
def collectStep (c : ReportClientConfig) (s : ClientState) (t : taskQueue) :
    Option ClientState :=
  match t with
  | .SERVER d => serverTask c s d
  | .CLEAR d => clearTask s d

/-- Method `collect` on the commands received so far. -/
def collect (c : ReportClientConfig) (s : ClientState) : List taskQueue → Option ClientState
  | [] => some s
  | t :: ts =>
    match collectStep c s t with
    | none => none
    | some s1 => collect c s1 ts

/-! ## Analyzer (analyzer.go) -/

/-- Difference `a - b` of two `uint32` values. -/
def subU32 (a b : Nat) : Nat := (a + u32 - b % u32) % u32

/-- Call `strconv.FormatUint(uint64(n), 10)`, and `strconv.Itoa` on a non-negative value. -/
def FormatUint (n : Nat) : String := toString n

/-- Call `strconv.Itoa(i)`. -/
def Itoa (i : Int) : String := toString i

/-- The label of the middle bucket `i` written by the relabeling loop of `statistics`. -/
def rangeLabel (cfg : EntryConfig) (scope i : Nat) : String :=
  let start := (cfg.TimeConsumingDistributionMin + (i - 1) % u32 * scope % u32) % u32
  let stop := if (i : Int) = cfg.TimeConsumingDistributionSplit - 1
    then cfg.TimeConsumingDistributionMax
    else (cfg.TimeConsumingDistributionMin + i % u32 * scope % u32) % u32
  FormatUint start ++ "~" ++ FormatUint stop

/-- The relabeling loop of `statistics` over the indices still to visit. -/
def labelLoop (cfg : EntryConfig) (scope : Nat) (hist : List Nat) :
    List Nat → List (String × Nat) → Option (List (String × Nat))
  | [], m => some m
  | i :: rest, m =>
    match sliceGet hist i with
    | none => none
    | some v => labelLoop cfg scope hist rest (mapSet m (rangeLabel cfg scope i) v)

/-- The latency histogram of `statistics`, relabeled; `none` on a panic. -/
def labelDistribution (cfg : EntryConfig) (dist : Option (List Nat)) :
    Option (List (String × Nat)) := do
  let d := toU32 (cfg.TimeConsumingDistributionSplit - 2)
  if d = 0 then none
  else
    let scope := subU32 cfg.TimeConsumingDistributionMax cfg.TimeConsumingDistributionMin / d
    let hist ← dist
    let first ← sliceGet hist 0
    let m1 := mapSet [] ("<" ++ FormatUint cfg.TimeConsumingDistributionMin) first
    let last ← sliceGet hist (cfg.TimeConsumingDistributionSplit - 1)
    let m2 := mapSet m1 (">" ++ FormatUint cfg.TimeConsumingDistributionMax) last
    labelLoop cfg scope hist
      (List.range' 1 ((cfg.TimeConsumingDistributionSplit - 1).toNat - 1)) m2

/-- The label `statistics` gives a failure code. -/
def failLabel (c : ReportClientConfig) (status : Int) : String :=
  let name := match c.GetCodeFeature with
    | some f => (f status).2
    | none =>
      match mapGet (c.CodeFeatureMap.getD []) status with
      | some s => if s.Name ≠ "" then s.Name else ""
      | none => ""
  if name ≠ "" then name
  else String.mk (replaceFirst c.DefaultFailDistributionFormat.data "%code".data (Itoa status).data)

/-- The failure distribution loop of `statistics`. -/
def labelFailures (c : ReportClientConfig) :
    List (Int × Nat) → List (String × Nat) → List (String × Nat)
  | [], m => m
  | (status, count) :: rest, m => labelFailures c rest (mapSet m (failLabel c status) count)

/-- The statistics record `statistics` derives from one snapshot; `none` on a panic.
The average latency is the truncated quotient of the two counters, which is what the
`float64` quotient converts to while the latency sum is below `2^53` and the count is
not zero. -/
def statisticsRecord (c : ReportClientConfig) (collectedData : reportData) :
    Option OutPutData := do
  let count := (collectedData.FailCount + collectedData.SuccessCount) % u32
  let dist ← labelDistribution collectedData.Config collectedData.TimeConsumingDistribution
  pure {
    Timestamp := collectedData.Time
    ClientName := c.Name
    InterfaceName := collectedData.Name
    Count := count
    SuccessCount := collectedData.SuccessCount
    SuccessRate := floatDiv collectedData.SuccessCount count
    SuccessMsAver := (collectedData.SuccessMsCount / count) % u32
    MaxMs := collectedData.MaxMs
    MinMs := collectedData.MinMs
    FastCount := collectedData.FastCount
    FastRate := floatDiv collectedData.FastCount count
    FailCount := collectedData.FailCount
    FailDistribution := labelFailures c collectedData.FailDistribution []
    TimeConsumingDistribution := dist }

/-- The initial `alertStatus` that `alertAnalyze` creates for a new entry. -/
def newAlertStatus : alertStatus := ⟨[], [], AlertType.NONE⟩

/-- One of the two halves of `alertAnalyze`, which differ only in the test `bad`, the
alert type `kind` and the thresholds `n` (alert) and `m` (recovery). -/
def metricStep (c : ReportClientConfig) (entryName : String) (kind : AlertType)
    (n m : Int) (bad : Bool) (outputData : OutPutData) (cur : alertStatus) :
    alertStatus × List Notification :=
  if bad then
    let recover := if cur.recentRecoverOutput.length > 0 then [] else cur.recentRecoverOutput
    let alert := cur.recentAlertOutput ++ [outputData]
    if cur.curState = AlertType.NONE ∧ (alert.length : Int) ≥ n then
      (⟨[], recover, kind⟩, [⟨false, c.AlertCaller, c.Name, entryName, kind, alert⟩])
    else (⟨alert, recover, cur.curState⟩, [])
  else
    if cur.curState = kind then
      let recover := cur.recentRecoverOutput ++ [outputData]
      if (recover.length : Int) ≥ m then
        (⟨[], recover, AlertType.NONE⟩,
          [⟨true, c.RecoverCaller, c.Name, entryName, kind, recover⟩])
      else (⟨[], recover, cur.curState⟩, [])
    else (⟨[], cur.recentRecoverOutput, cur.curState⟩, [])

/-- Method `alertAnalyze`: the latency half, then the success-rate half. -/
def alertAnalyze (c : ReportClientConfig) (s : ClientState) (entryName : String)
    (outputData : OutPutData) : ClientState × List Notification :=
  let curFastRateStatus := (mapGet s.recentFastRateStatus entryName).getD newAlertStatus
  let curSuccessRateStatus := (mapGet s.recentSuccessRateStatus entryName).getD newAlertStatus
  let fast := metricStep c entryName AlertType.SLOW c.AlertForBadFastRateReachedTimes
    c.AlertForGreatFastRateReachedTimes
    (decide (outputData.SuccessCount > 0) && floatLt outputData.FastRate c.FastRate)
    outputData curFastRateStatus
  let succ := metricStep c entryName AlertType.FAIL c.AlertForBadSuccessRateReachedTimes
    c.AlertForGreatSuccessRateReachedTimes
    (floatLt outputData.SuccessRate c.SuccessRate)
    outputData curSuccessRateStatus
  ({ s with
      recentFastRateStatus := mapSet s.recentFastRateStatus entryName fast.1
      recentSuccessRateStatus := mapSet s.recentSuccessRateStatus entryName succ.1 },
    fast.2 ++ succ.2)

/-- Method `alertAnalyze` on successive windows of one entry: the final state and the
notifications of each window, in order. -/
def alertAnalyzeAll (c : ReportClientConfig) (entryName : String) :
    ClientState → List OutPutData → ClientState × List (List Notification)
  | s, [] => (s, [])
  | s, o :: os =>
    let r := alertAnalyze c s entryName o
    let t := alertAnalyzeAll c entryName r.1 os
    (t.1, r.2 :: t.2)

/-- A call of `OutputCaller` (custom) or of `defaultOutputCaller` with a record. -/
structure Output where
  custom : Bool
  outputData : OutPutData
deriving DecidableEq

/-- One iteration of the loop of `statistics` on a snapshot: the record is derived, then
handed to `alertAnalyze`, to `OutputCaller` when it is set, and to
`defaultOutputCaller`; `none` on a panic. -/
def statistics (c : ReportClientConfig) (s : ClientState) (collectedData : reportData) :
    Option (ClientState × List Notification × List Output) :=
  match statisticsRecord c collectedData with
  | none => none
  | some outputData =>
    let r := alertAnalyze c s collectedData.Name outputData
    some (r.1, r.2,
      (if c.OutputCaller then [(⟨true, outputData⟩ : Output)] else []) ++
        [⟨false, outputData⟩])

/-! ## Registration (monitor.go) -/

/-- Function `Register`, up to the start of the workers: the defaulted configuration and
the initial state, given the current value of the package variable `defaultEntryConfig`;
`none` when it panics. -/
def Register (c : ReportClientConfig) (pkgDefault : EntryConfig) :
    Option (ReportClientConfig × ClientState) :=
  if c.Name = "" then none
  else
    let c1 := if c.StatisticalCycle ≤ 0 ∨ c.StatisticalCycle > 300000
      then { c with StatisticalCycle := 60000 } else c
    let c2 := if c1.AlertForBadFastRateReachedTimes < 3
      then { c1 with AlertForBadFastRateReachedTimes := 3 } else c1
    let c3 := if c2.AlertForGreatFastRateReachedTimes < 3
      then { c2 with AlertForGreatFastRateReachedTimes := 3 } else c2
    let c4 := if c3.AlertForBadSuccessRateReachedTimes < 3
      then { c3 with AlertForBadSuccessRateReachedTimes := 3 } else c3
    let c5 := if c4.AlertForGreatSuccessRateReachedTimes < 3
      then { c4 with AlertForGreatSuccessRateReachedTimes := 3 } else c4
    let c6 := if c5.SuccessRate = 0 then { c5 with SuccessRate := 95 / 100 } else c5
    let c7 := if c6.FastRate = 0 then { c6 with FastRate := 8 / 10 } else c6
    let c8 := if c7.ChannelCacheCount ≤ 0 then { c7 with ChannelCacheCount := 100 } else c7
    let d := if c8.DefaultFastTime > 0 then { pkgDefault with FastLessThan := c8.DefaultFastTime }
      else pkgDefault
    let c9 := if c8.DefaultFailDistributionFormat = ""
      then { c8 with DefaultFailDistributionFormat := "code[%code]" } else c8
    let c10 := if c9.GetCodeFeature.isNone ∧ c9.CodeFeatureMap.isNone
      then { c9 with CodeFeatureMap := some [(200, ⟨true, ""⟩)] } else c9
    some (c10, {
      defaultEntryConfig := d
      entryConfigMap := []
      recentSuccessRateStatus := []
      recentFastRateStatus := []
      collectDataMap := []
      statisticsChannel := [] })

/-! ## Auxiliary definitions for the statements -/

/-- The success-rate alert state of an entry, as `alertAnalyze` reads it. -/
def successStatus (s : ClientState) (entryName : String) : alertStatus :=
  (mapGet s.recentSuccessRateStatus entryName).getD newAlertStatus

/-- The latency alert state of an entry, as `alertAnalyze` reads it. -/
def fastStatus (s : ClientState) (entryName : String) : alertStatus :=
  (mapGet s.recentFastRateStatus entryName).getD newAlertStatus

/-- The notifications of one alert type among those of a window. -/
def notesOf (kind : AlertType) (l : List Notification) : List Notification :=
  l.filter (fun x => decide (x.alertType = kind))

/-- The success-rate half of `alertAnalyze` as a step on the entry's state. -/
def successStep (c : ReportClientConfig) (entryName : String) (o : OutPutData)
    (cur : alertStatus) : alertStatus × List Notification :=
  metricStep c entryName AlertType.FAIL c.AlertForBadSuccessRateReachedTimes
    c.AlertForGreatSuccessRateReachedTimes (floatLt o.SuccessRate c.SuccessRate) o cur

/-- The success-rate half of `alertAnalyze` on successive windows. -/
def successRun (c : ReportClientConfig) (entryName : String) :
    alertStatus → List OutPutData → alertStatus × List (List Notification)
  | cur, [] => (cur, [])
  | cur, o :: os =>
    let r := successStep c entryName o cur
    let t := successRun c entryName r.1 os
    (t.1, r.2 :: t.2)

/-- Windows of the examples: a record with the given counts and rates. -/
def exampleWindow (t success fail : Nat) : OutPutData where
  Timestamp := t
  ClientName := "client"
  InterfaceName := "GET /users"
  Count := (fail + success) % u32
  SuccessCount := success
  SuccessRate := floatDiv success ((fail + success) % u32)
  SuccessMsAver := 0
  MaxMs := 0
  MinMs := 0
  FastCount := success
  FastRate := floatDiv success ((fail + success) % u32)
  FailCount := fail
  FailDistribution := []
  TimeConsumingDistribution := []

/-- Configuration of the examples, as `Register` defaults it from a name alone. -/
def exampleClient : ReportClientConfig where
  Name := "client"
  DefaultFastTime := 0
  StatisticalCycle := 60000
  AlertForBadSuccessRateReachedTimes := 3
  AlertForBadFastRateReachedTimes := 3
  AlertForGreatSuccessRateReachedTimes := 3
  AlertForGreatFastRateReachedTimes := 3
  SuccessRate := 95 / 100
  FastRate := 8 / 10
  ChannelCacheCount := 100
  CodeFeatureMap := some [(200, ⟨true, ""⟩)]
  GetCodeFeature := none
  DefaultFailDistributionFormat := "code[%code]"
  OutputCaller := false
  AlertCaller := false
  RecoverCaller := false

/-- Initial state of the examples, as `Register` builds it. -/
def exampleState : ClientState where
  defaultEntryConfig := defaultEntryConfig
  entryConfigMap := []
  recentSuccessRateStatus := []
  recentFastRateStatus := []
  collectDataMap := []
  statisticsChannel := []

/-- State of the examples after two consecutive windows with success rate 1/2. -/
def exampleDegraded : ClientState :=
  { exampleState with
    recentSuccessRateStatus :=
      [("GET /users", ⟨[exampleWindow 1 1 1, exampleWindow 2 1 1], [], AlertType.NONE⟩)]
    recentFastRateStatus := [("GET /users", ⟨[], [], AlertType.NONE⟩)] }

/-- State of the examples once `AddEntryConfig` has stored, for the entry `GET /users`,
a configuration with minimum 1, maximum 20 and 10 buckets. -/
def exampleNarrow : Option ClientState :=
  AddEntryConfig exampleState "GET /users" ⟨500, 10, 20, 1, 0⟩

/-- The body of `serverTask` on successive reports of one entry. -/
def recordReports (c : ReportClientConfig) : reportData → List reportServer → Option reportData
  | d, [] => some d
  | d, r :: rs =>
    match recordReport c d r with
    | none => none
    | some d1 => recordReports c d1 rs

/-- The accumulator `serverTask` works on for an entry: the stored one, or a new one. -/
def entryStart (s : ClientState) (name : String) : reportData :=
  (mapGet s.collectDataMap name).getD (newReportData s name)

/-- An accumulator at the start of a window: as `serverTask` creates it, or as
`clearTask` resets it. -/
def IsReset (d : reportData) : Prop :=
  d.SuccessCount = 0 ∧ d.FailCount = 0 ∧ d.FastCount = 0 ∧ d.MinMs = 0 ∧ d.MaxMs = 0 ∧
    d.SuccessMsCount = 0 ∧ d.FailDistribution = [] ∧
    (d.TimeConsumingDistribution = none ∨
      (0 ≤ d.Config.TimeConsumingDistributionSplit ∧
        d.TimeConsumingDistribution =
          some (List.replicate d.Config.TimeConsumingDistributionSplit.toNat 0)))

/-- The reports of a list that `serverTask` classifies as successes. -/
def successes (c : ReportClientConfig) (rs : List reportServer) : List reportServer :=
  rs.filter (fun r => codeSuccess c r.Code)

/-- The reports of a list that `serverTask` classifies as failures. -/
def failures (c : ReportClientConfig) (rs : List reportServer) : List reportServer :=
  rs.filter (fun r => !codeSuccess c r.Code)

/-- The sum of the counts of a labeled distribution. -/
def labeledTotal (m : List (String × Nat)) : Nat := (m.map (fun p => p.2)).sum

/-- The latencies of the reports of a list that `serverTask` classifies as successes. -/
def successMs (c : ReportClientConfig) (rs : List reportServer) : List Nat :=
  (successes c rs).map (fun r => r.Ms)

/-- The successes of a list whose latency is at most the fast threshold. -/
def fastSuccesses (c : ReportClientConfig) (cfg : EntryConfig) (rs : List reportServer) :
    List reportServer :=
  (successes c rs).filter (fun r => decide (r.Ms ≤ cfg.FastLessThan))

/-- Reports of the examples: one success of 90 ms and one failure with code 500. -/
def exampleReports : List reportServer :=
  [⟨"GET /users", 90, 200⟩, ⟨"GET /users", 600, 500⟩]

/-- The snapshot `clearTask` sends at time 7 after `exampleReports`. -/
def exampleSnapshot : reportData where
  Name := "GET /users"
  SuccessMsCount := 90
  MaxMs := 90
  MinMs := 90
  SuccessCount := 1
  FastCount := 1
  FailCount := 1
  FailDistribution := [(500, 1)]
  TimeConsumingDistribution := some [1, 0, 0, 0, 0, 0, 0, 0, 0, 0]
  Config := defaultEntryConfig
  Time := 7

/-- The state of the examples after `exampleReports` and a flush at time 7. -/
def exampleFlushed : ClientState :=
  { exampleState with
    statisticsChannel := [exampleSnapshot]
    collectDataMap := [("GET /users",
      { exampleSnapshot with
        SuccessMsCount := 0, MaxMs := 0, MinMs := 0, SuccessCount := 0, FastCount := 0,
        FailCount := 0, FailDistribution := [],
        TimeConsumingDistribution := some [0, 0, 0, 0, 0, 0, 0, 0, 0, 0], Time := 0 })] }

/-- The statistics record of `exampleSnapshot`. -/
def exampleRecord : OutPutData where
  Timestamp := 7
  ClientName := "client"
  InterfaceName := "GET /users"
  Count := 2
  SuccessCount := 1
  SuccessRate := floatDiv 1 2
  SuccessMsAver := 45
  MaxMs := 90
  MinMs := 90
  FastCount := 1
  FastRate := floatDiv 1 2
  FailCount := 1
  FailDistribution := [("code[500]", 1)]
  TimeConsumingDistribution := [("<100", 1), (">500", 0), ("100~150", 0), ("150~200", 0),
    ("200~250", 0), ("250~300", 0), ("300~350", 0), ("350~400", 0), ("400~450", 0),
    ("450~500", 0)]

/-- Configuration of the examples with a table that gives the failure codes 500 and 502
the same name. -/
def exampleNamedClient : ReportClientConfig :=
  { exampleClient with
    CodeFeatureMap := some [(200, ⟨true, ""⟩), (500, ⟨false, "server error"⟩),
      (502, ⟨false, "server error"⟩)] }

/-- Commands of the examples: two failures with code 500, three with code 502, a flush. -/
def exampleFailureCommands : List taskQueue :=
  [taskQueue.SERVER ⟨"GET /users", 10, 500⟩, taskQueue.SERVER ⟨"GET /users", 10, 500⟩,
    taskQueue.SERVER ⟨"GET /users", 10, 502⟩, taskQueue.SERVER ⟨"GET /users", 10, 502⟩,
    taskQueue.SERVER ⟨"GET /users", 10, 502⟩, taskQueue.CLEAR ⟨"GET /users", 7⟩]

/-- Commands of the examples: successes of 0 ms and of 5 ms, then a flush. -/
def exampleZeroCommands : List taskQueue :=
  [taskQueue.SERVER ⟨"GET /users", 0, 200⟩, taskQueue.SERVER ⟨"GET /users", 5, 200⟩,
    taskQueue.CLEAR ⟨"GET /users", 7⟩]

/-- State of the examples holding the accumulator of `exampleReports` before its flush. -/
def exampleCollected : ClientState :=
  { exampleState with collectDataMap := [("GET /users", { exampleSnapshot with Time := 0 })] }

/-- The entry configurations the code can hold, the default one and those
`AddEntryConfig` stores: 3 to 20 buckets, a minimum below the maximum, and the bucket
width derived from them. -/
def ValidConfig (cfg : EntryConfig) : Prop :=
  3 ≤ cfg.TimeConsumingDistributionSplit ∧ cfg.TimeConsumingDistributionSplit ≤ 20 ∧
    cfg.TimeConsumingDistributionMin < cfg.TimeConsumingDistributionMax ∧
    cfg.TimeConsumingDistributionMax < u32 ∧
    cfg.timeConsumingRange =
      (cfg.TimeConsumingDistributionMax - cfg.TimeConsumingDistributionMin) /
        (cfg.TimeConsumingDistributionSplit - 2).toNat

/-- Reports of the examples: successes of 0 ms and of 5 ms. -/
def exampleZeroReports : List reportServer :=
  [⟨"GET /users", 0, 200⟩, ⟨"GET /users", 5, 200⟩]

/-- The state of the examples after `exampleZeroReports` and a flush at time 7. -/
def exampleZeroFlushed : ClientState :=
  { exampleState with
    statisticsChannel := [⟨"GET /users", 5, 5, 5, 2, 2, 0, [],
      some [2, 0, 0, 0, 0, 0, 0, 0, 0, 0], defaultEntryConfig, 7⟩]
    collectDataMap := [("GET /users", ⟨"GET /users", 0, 0, 0, 0, 0, 0, [],
      some [0, 0, 0, 0, 0, 0, 0, 0, 0, 0], defaultEntryConfig, 0⟩)] }
/-- The test of `alertAnalyze` that makes a window bad for a metric: a fast rate below
the threshold in a window with a success (SLOW), a success rate below the threshold
(FAIL). -/
def badWindow (c : ReportClientConfig) (kind : AlertType) (o : OutPutData) : Bool :=
  if kind = AlertType.SLOW then
    decide (o.SuccessCount > 0) && floatLt o.FastRate c.FastRate
  else floatLt o.SuccessRate c.SuccessRate

/-- The number of bad windows that fires the Alert of a metric. -/
def alertTimes (c : ReportClientConfig) (kind : AlertType) : Int :=
  if kind = AlertType.SLOW then c.AlertForBadFastRateReachedTimes
  else c.AlertForBadSuccessRateReachedTimes

/-- The number of good windows that fires the Recovery of a metric. -/
def recoverTimes (c : ReportClientConfig) (kind : AlertType) : Int :=
  if kind = AlertType.SLOW then c.AlertForGreatFastRateReachedTimes
  else c.AlertForGreatSuccessRateReachedTimes

/-- The alert state of an entry for a metric, as `alertAnalyze` reads it. -/
def kindStatus (s : ClientState) (kind : AlertType) (entryName : String) : alertStatus :=
  if kind = AlertType.SLOW then fastStatus s entryName else successStatus s entryName

/-- The half of `alertAnalyze` of one metric as a step on the entry's state. -/
def kindStep (c : ReportClientConfig) (entryName : String) (kind : AlertType)
    (o : OutPutData) (cur : alertStatus) : alertStatus × List Notification :=
  metricStep c entryName kind (alertTimes c kind) (recoverTimes c kind) (badWindow c kind o)
    o cur

/-- The half of `alertAnalyze` of one metric on successive windows. -/
def kindRun (c : ReportClientConfig) (entryName : String) (kind : AlertType) :
    alertStatus → List OutPutData → alertStatus × List (List Notification)
  | cur, [] => (cur, [])
  | cur, o :: os =>
    let r := kindStep c entryName kind o cur
    let t := kindRun c entryName kind r.1 os
    (t.1, r.2 :: t.2)

/-- What the state of a metric records about the windows `seen` so far, in runs from the
initial state: the bad-window buffer is the trailing run of bad windows and is short of
the alert threshold while Healthy; the good-window buffer is, while Alerting, the
trailing run of good windows and short of the recovery threshold. -/
def Tracks (c : ReportClientConfig) (kind : AlertType) (seen : List OutPutData)
    (cur : alertStatus) : Prop :=
  (cur.curState = AlertType.NONE ∨ cur.curState = kind) ∧
    List.IsSuffix cur.recentAlertOutput seen ∧
    (∀ w ∈ cur.recentAlertOutput, badWindow c kind w = true) ∧
    (cur.curState = AlertType.NONE → (cur.recentAlertOutput.length : Int) < alertTimes c kind) ∧
    (cur.curState = kind →
      List.IsSuffix cur.recentRecoverOutput seen ∧
      (∀ w ∈ cur.recentRecoverOutput, badWindow c kind w = false) ∧
      (cur.recentRecoverOutput.length : Int) < recoverTimes c kind)

/-- The payload of a notification fired when the windows `seen` have arrived: the most
recent windows, in arrival order; as many as the alert threshold and all bad for an
Alert, as many as the recovery threshold and none bad for a Recovery. -/
def Payload (c : ReportClientConfig) (seen : List OutPutData) (x : Notification) : Prop :=
  List.IsSuffix x.recentOutputData seen ∧
    (x.recovery = false →
      (x.recentOutputData.length : Int) = alertTimes c x.alertType ∧
      ∀ w ∈ x.recentOutputData, badWindow c x.alertType w = true) ∧
    (x.recovery = true →
      (x.recentOutputData.length : Int) = recoverTimes c x.alertType ∧
      ∀ w ∈ x.recentOutputData, badWindow c x.alertType w = false)

/-- State of the examples whose latency metric is Alerting with two good windows. -/
def exampleSlow : ClientState :=
  { exampleState with
    recentFastRateStatus :=
      [("GET /users", ⟨[], [exampleWindow 4 1 0, exampleWindow 5 1 0], AlertType.SLOW⟩)] }

/-- Configuration of the examples with a custom `OutputCaller`. -/
def exampleCustomOutput : ReportClientConfig :=
  { exampleClient with OutputCaller := true }

/-- A call of the client: a command taken from the task channel by `collect`, or a
call of `AddEntryConfig`. -/
inductive clientCall where
  | TASK (t : taskQueue)
  | CONFIG (name : String) (entryConfig : EntryConfig)
deriving DecidableEq, Repr

/-- The effect of one call on the state; `none` on a panic. -/
def callStep (c : ReportClientConfig) (s : ClientState) : clientCall → Option ClientState
  | .TASK t => collectStep c s t
  | .CONFIG name entryConfig => AddEntryConfig s name entryConfig

/-- The effect of successive calls on the state. -/
def runCalls (c : ReportClientConfig) (s : ClientState) : List clientCall → Option ClientState
  | [] => some s
  | x :: xs =>
    match callStep c s x with
    | none => none
    | some s1 => runCalls c s1 xs

/-- The calls of a list other than the calls of `AddEntryConfig` for the entry `name`. -/
def withoutConfig (name : String) (calls : List clientCall) : List clientCall :=
  calls.filter (fun x =>
    match x with
    | .TASK _ => true
    | .CONFIG n _ => decide (n ≠ name))

/-- Commands of the examples: successes of 90, 500 and 150 ms, then a flush. -/
def exampleBucketCommands : List taskQueue :=
  [taskQueue.SERVER ⟨"GET /users", 90, 200⟩, taskQueue.SERVER ⟨"GET /users", 500, 200⟩,
    taskQueue.SERVER ⟨"GET /users", 150, 200⟩, taskQueue.CLEAR ⟨"GET /users", 7⟩]

/-- Calls of the examples: a configuration for an entry that already has an
accumulator, then a success of 150 ms and a flush. -/
def exampleCalls : List clientCall :=
  [clientCall.CONFIG "GET /users" ⟨100, 5, 1000, 10, 0⟩,
    clientCall.TASK (taskQueue.SERVER ⟨"GET /users", 150, 200⟩),
    clientCall.TASK (taskQueue.CLEAR ⟨"GET /users", 7⟩)]

/-- A notification of the reference hysteresis machine: an Alert or a Recovery, with the
records it carries. -/
inductive referenceEvent where
  | Alert (records : List OutPutData)
  | Recovery (records : List OutPutData)
deriving DecidableEq

/-- The state of the reference hysteresis machine for one entry and metric: Healthy or
Alerting, the buffer of bad windows and the buffer of good windows. -/
structure referenceState where
  alerting : Bool
  badBuffer : List OutPutData
  goodBuffer : List OutPutData
deriving DecidableEq

/-- The reference hysteresis machine, written from the transition rule of the
specification and not from `alertAnalyze`. On a bad window it clears the good buffer and
appends the window to the bad buffer; when Healthy with at least `n` entries it fires the
Alert with that buffer, becomes Alerting and clears the bad buffer. Otherwise it clears the
bad buffer and, when Alerting, appends the window to the good buffer; on reaching `m`
entries it fires the Recovery with that buffer, becomes Healthy and clears both buffers. -/
def referenceStep (n m : Int) (bad : Bool) (w : OutPutData) (r : referenceState) :
    referenceState × List referenceEvent :=
  if bad then
    if r.alerting = false ∧ ((r.badBuffer ++ [w]).length : Int) ≥ n then
      (⟨true, [], []⟩, [referenceEvent.Alert (r.badBuffer ++ [w])])
    else (⟨r.alerting, r.badBuffer ++ [w], []⟩, [])
  else
    if r.alerting = true then
      if ((r.goodBuffer ++ [w]).length : Int) ≥ m then
        (⟨false, [], []⟩, [referenceEvent.Recovery (r.goodBuffer ++ [w])])
      else (⟨true, [], r.goodBuffer ++ [w]⟩, [])
    else (⟨false, [], r.goodBuffer⟩, [])

/-- The reference hysteresis machine on successive windows: the events of each window. -/
def referenceRun (n m : Int) (bad : OutPutData → Bool) :
    referenceState → List OutPutData → List (List referenceEvent)
  | _, [] => []
  | r, w :: ws =>
    (referenceStep n m (bad w) w r).2 ::
      referenceRun n m bad (referenceStep n m (bad w) w r).1 ws

/-- The initial state of the reference machine: Healthy, with both buffers empty. -/
def referenceInit : referenceState := ⟨false, [], []⟩

/-- The kind and the carried records of a notification of `alertAnalyze`. -/
def eventOf (x : Notification) : referenceEvent :=
  if x.recovery then referenceEvent.Recovery x.recentOutputData
  else referenceEvent.Alert x.recentOutputData

/-- The state of a metric in `alertAnalyze` matches a state of the reference machine: same
status, same bad-window buffer and, while Alerting, same good-window buffer. -/
def Matches (kind : AlertType) (cur : alertStatus) (r : referenceState) : Prop :=
  (cur.curState = AlertType.NONE ∨ cur.curState = kind) ∧
    r.alerting = decide (cur.curState = kind) ∧
    r.badBuffer = cur.recentAlertOutput ∧
    (cur.curState = kind → r.goodBuffer = cur.recentRecoverOutput)

/-- The label `statistics` gives bucket `i` of the latency histogram of a snapshot:
the first bucket, the last bucket, or a middle bucket of the relabeling loop. -/
def bucketLabel (cfg : EntryConfig) (i : Nat) : String :=
  if i = 0 then "<" ++ FormatUint cfg.TimeConsumingDistributionMin
  else if (i : Int) = cfg.TimeConsumingDistributionSplit - 1 then
    ">" ++ FormatUint cfg.TimeConsumingDistributionMax
  else
    rangeLabel cfg
      (subU32 cfg.TimeConsumingDistributionMax cfg.TimeConsumingDistributionMin /
        toU32 (cfg.TimeConsumingDistributionSplit - 2)) i

/-! ## Maps -/

theorem mapGet_mapSet_self {κ α : Type} [DecidableEq κ] (m : List (κ × α)) (k : κ) (v : α) :
    mapGet (mapSet m k v) k = some v := by
  induction m with
  | nil => simp [mapSet, mapGet]
  | cons p m ih =>
    obtain ⟨a, b⟩ := p
    by_cases h : a = k
    · simp [mapSet, mapGet, h]
    · simp [mapSet, mapGet, h, ih]

theorem mapGet_mapSet_ne {κ α : Type} [DecidableEq κ] (m : List (κ × α)) (k x : κ) (v : α)
    (h : k ≠ x) : mapGet (mapSet m k v) x = mapGet m x := by
  induction m with
  | nil => simp [mapSet, mapGet, h]
  | cons p m ih =>
    obtain ⟨a, b⟩ := p
    by_cases h1 : a = k
    · subst h1; simp [mapSet, mapGet, h]
    · by_cases h2 : a = x
      · subst h2; simp [mapSet, mapGet, h1]
      · simp [mapSet, mapGet, h1, h2, ih]


/-! ## The alert state machine, one metric at a time -/

theorem metricStep_alertType (c : ReportClientConfig) (e : String) (kind : AlertType)
    (n m : Int) (bad : Bool) (o : OutPutData) (cur : alertStatus) :
    ∀ x ∈ (metricStep c e kind n m bad o cur).2, x.alertType = kind := by
  intro x hx
  simp only [metricStep] at hx
  split_ifs at hx <;> simp_all

theorem notesOf_eq_self (kind : AlertType) (l : List Notification)
    (h : ∀ x ∈ l, x.alertType = kind) : notesOf kind l = l := by
  unfold notesOf
  rw [List.filter_eq_self]
  intro x hx
  simp [h x hx]

theorem notesOf_eq_nil (kind k2 : AlertType) (l : List Notification)
    (h : ∀ x ∈ l, x.alertType = k2) (hne : k2 ≠ kind) : notesOf kind l = [] := by
  unfold notesOf
  rw [List.filter_eq_nil_iff]
  intro x hx
  simp [h x hx, hne]

theorem alertAnalyze_successStatus (c : ReportClientConfig) (s : ClientState) (e : String)
    (o : OutPutData) :
    successStatus (alertAnalyze c s e o).1 e = (successStep c e o (successStatus s e)).1 := by
  simp [alertAnalyze, successStatus, successStep, mapGet_mapSet_self]

theorem alertAnalyze_notesOf_fail (c : ReportClientConfig) (s : ClientState) (e : String)
    (o : OutPutData) :
    notesOf AlertType.FAIL (alertAnalyze c s e o).2 = (successStep c e o (successStatus s e)).2 := by
  simp only [alertAnalyze, successStatus, successStep]
  unfold notesOf
  rw [List.filter_append]
  have h1 := notesOf_eq_nil AlertType.FAIL AlertType.SLOW _
    (metricStep_alertType c e AlertType.SLOW c.AlertForBadFastRateReachedTimes
      c.AlertForGreatFastRateReachedTimes
      (decide (o.SuccessCount > 0) && floatLt o.FastRate c.FastRate) o
      ((mapGet s.recentFastRateStatus e).getD newAlertStatus)) (by decide)
  have h2 := notesOf_eq_self AlertType.FAIL _
    (metricStep_alertType c e AlertType.FAIL c.AlertForBadSuccessRateReachedTimes
      c.AlertForGreatSuccessRateReachedTimes
      (floatLt o.SuccessRate c.SuccessRate) o
      ((mapGet s.recentSuccessRateStatus e).getD newAlertStatus))
  unfold notesOf at h1 h2
  rw [h1, h2]; rfl

theorem alertAnalyzeAll_success (c : ReportClientConfig) (e : String) (ws : List OutPutData) :
    ∀ s : ClientState,
      successStatus (alertAnalyzeAll c e s ws).1 e = (successRun c e (successStatus s e) ws).1 ∧
      (alertAnalyzeAll c e s ws).2.map (notesOf AlertType.FAIL) =
        (successRun c e (successStatus s e) ws).2 := by
  induction ws with
  | nil => intro s; simp [alertAnalyzeAll, successRun]
  | cons o os ih =>
    intro s
    have h := ih (alertAnalyze c s e o).1
    simp only [alertAnalyzeAll, successRun, List.map_cons]
    rw [alertAnalyze_successStatus] at h
    rw [alertAnalyze_notesOf_fail]
    exact ⟨h.1, by rw [h.2]⟩

theorem successStep_bad_alerting (c : ReportClientConfig) (e : String) (o : OutPutData)
    (cur : alertStatus) (hs : cur.curState = AlertType.FAIL)
    (hb : floatLt o.SuccessRate c.SuccessRate = true) :
    successStep c e o cur = (⟨cur.recentAlertOutput ++ [o], [], AlertType.FAIL⟩, []) := by
  simp only [successStep, metricStep, hb, hs]
  cases h : cur.recentRecoverOutput <;> simp

theorem successRun_bad_alerting (c : ReportClientConfig) (e : String) (ws : List OutPutData) :
    ∀ cur : alertStatus, cur.curState = AlertType.FAIL →
      (∀ w ∈ ws, floatLt w.SuccessRate c.SuccessRate = true) →
      (successRun c e cur ws).2 = List.replicate ws.length [] ∧
      (successRun c e cur ws).1.curState = AlertType.FAIL := by
  induction ws with
  | nil => intro cur hs _; simp [successRun, hs]
  | cons w ws ih =>
    intro cur hs hb
    have hw := hb w (List.mem_cons_self _ _)
    have h := ih ⟨cur.recentAlertOutput ++ [w], [], AlertType.FAIL⟩ rfl
      (fun x hx => hb x (List.mem_cons_of_mem _ hx))
    simp only [successRun, successStep_bad_alerting c e w cur hs hw, List.length_cons,
      List.replicate_succ]
    exact ⟨by rw [h.1], h.2⟩

theorem successRun_bad_healthy (c : ReportClientConfig) (e : String) (n : Nat)
    (hn : c.AlertForBadSuccessRateReachedTimes = (n : Int)) (ws : List OutPutData) :
    ∀ cur : alertStatus, cur.curState = AlertType.NONE →
      cur.recentAlertOutput.length < n →
      (∀ w ∈ ws, floatLt w.SuccessRate c.SuccessRate = true) →
      n ≤ cur.recentAlertOutput.length + ws.length →
      (successRun c e cur ws).2 =
        List.replicate (n - 1 - cur.recentAlertOutput.length) [] ++
          [[⟨false, c.AlertCaller, c.Name, e, AlertType.FAIL,
            cur.recentAlertOutput ++ ws.take (n - cur.recentAlertOutput.length)⟩]] ++
          List.replicate (cur.recentAlertOutput.length + ws.length - n) [] ∧
      (successRun c e cur ws).1.curState = AlertType.FAIL := by
  induction ws with
  | nil => intro cur _ h1 _ h2; simp at h2; omega
  | cons w ws ih =>
    intro cur hs hlt hb hle
    have hw := hb w (List.mem_cons_self _ _)
    have hrest : ∀ x ∈ ws, floatLt x.SuccessRate c.SuccessRate = true :=
      fun x hx => hb x (List.mem_cons_of_mem _ hx)
    simp only [List.length_cons] at hle
    by_cases hfire : n ≤ cur.recentAlertOutput.length + 1
    · have hstep : successStep c e w cur =
          (⟨[], if cur.recentRecoverOutput.length > 0 then [] else cur.recentRecoverOutput,
              AlertType.FAIL⟩,
            [⟨false, c.AlertCaller, c.Name, e, AlertType.FAIL, cur.recentAlertOutput ++ [w]⟩]) := by
        have : (n : Int) ≤ (cur.recentAlertOutput.length : Int) + 1 := by exact_mod_cast hfire
        simp [successStep, metricStep, hw, hs, hn, this]
      have h := successRun_bad_alerting c e ws
        ⟨[], if cur.recentRecoverOutput.length > 0 then [] else cur.recentRecoverOutput,
          AlertType.FAIL⟩ rfl hrest
      have e1 : n - 1 - cur.recentAlertOutput.length = 0 := by omega
      have e2 : n - cur.recentAlertOutput.length = 1 := by omega
      have e3 : cur.recentAlertOutput.length + (ws.length + 1) - n = ws.length := by omega
      simp only [successRun, hstep, List.length_cons, e1, e2, e3]
      refine ⟨?_, h.2⟩
      rw [h.1]; simp
    · have hstep : successStep c e w cur =
          (⟨cur.recentAlertOutput ++ [w],
              if cur.recentRecoverOutput.length > 0 then [] else cur.recentRecoverOutput,
              AlertType.NONE⟩, []) := by
        have : ¬ (n : Int) ≤ (cur.recentAlertOutput.length : Int) + 1 := by
          intro h; exact hfire (by exact_mod_cast h)
        simp [successStep, metricStep, hw, hs, hn, this]
      have h := ih ⟨cur.recentAlertOutput ++ [w],
          if cur.recentRecoverOutput.length > 0 then [] else cur.recentRecoverOutput,
          AlertType.NONE⟩ rfl (by simp; omega) hrest (by simp; omega)
      simp only [List.length_append, List.length_singleton] at h
      have e1 : n - 1 - cur.recentAlertOutput.length =
          (n - 1 - (cur.recentAlertOutput.length + 1)) + 1 := by omega
      have e2 : n - cur.recentAlertOutput.length =
          (n - (cur.recentAlertOutput.length + 1)) + 1 := by omega
      have e3 : cur.recentAlertOutput.length + (ws.length + 1) - n =
          cur.recentAlertOutput.length + 1 + ws.length - n := by omega
      simp only [successRun, hstep, List.length_cons]
      refine ⟨?_, h.2⟩
      rw [h.1, e1, e2, e3, List.replicate_succ, List.take_succ_cons]
      simp

theorem successRun_bad_below (c : ReportClientConfig) (e : String) (n : Nat)
    (hn : c.AlertForBadSuccessRateReachedTimes = (n : Int)) (ws : List OutPutData) :
    ∀ cur : alertStatus, cur.curState = AlertType.NONE →
      (∀ w ∈ ws, floatLt w.SuccessRate c.SuccessRate = true) →
      cur.recentAlertOutput.length + ws.length < n →
      (successRun c e cur ws).2 = List.replicate ws.length [] ∧
      (successRun c e cur ws).1.curState = AlertType.NONE := by
  induction ws with
  | nil => intro cur hs _ _; simp [successRun, hs]
  | cons w ws ih =>
    intro cur hs hb hlt
    have hw := hb w (List.mem_cons_self _ _)
    simp only [List.length_cons] at hlt
    have hstep : successStep c e w cur =
        (⟨cur.recentAlertOutput ++ [w],
            if cur.recentRecoverOutput.length > 0 then [] else cur.recentRecoverOutput,
            AlertType.NONE⟩, []) := by
      have : ¬ (n : Int) ≤ (cur.recentAlertOutput.length : Int) + 1 := by
        intro h
        have : n ≤ cur.recentAlertOutput.length + 1 := by exact_mod_cast h
        omega
      simp [successStep, metricStep, hw, hs, hn, this]
    have h := ih ⟨cur.recentAlertOutput ++ [w],
        if cur.recentRecoverOutput.length > 0 then [] else cur.recentRecoverOutput,
        AlertType.NONE⟩ rfl (fun x hx => hb x (List.mem_cons_of_mem _ hx)) (by simp; omega)
    simp only [successRun, hstep, List.length_cons, List.replicate_succ]
    exact ⟨by rw [h.1], h.2⟩

theorem successRun_append (c : ReportClientConfig) (e : String) (xs ys : List OutPutData) :
    ∀ cur : alertStatus,
      successRun c e cur (xs ++ ys) =
        ((successRun c e (successRun c e cur xs).1 ys).1,
          (successRun c e cur xs).2 ++ (successRun c e (successRun c e cur xs).1 ys).2) := by
  induction xs with
  | nil => intro cur; simp [successRun]
  | cons x xs ih => intro cur; simp [successRun, ih]

theorem successStep_fired_alert (c : ReportClientConfig) (e : String) (o : OutPutData)
    (cur : alertStatus)
    (h : ∃ x ∈ (successStep c e o cur).2, x.recovery = false) :
    (successStep c e o cur).1 = ⟨[], [], AlertType.FAIL⟩ := by
  obtain ⟨x, hx, hr⟩ := h
  simp only [successStep, metricStep] at hx ⊢
  split_ifs at hx ⊢ <;> simp_all

theorem successRun_good_below (c : ReportClientConfig) (e : String) (m : Nat)
    (hm : c.AlertForGreatSuccessRateReachedTimes = (m : Int)) (ws : List OutPutData) :
    ∀ cur : alertStatus, cur.curState = AlertType.FAIL →
      (∀ w ∈ ws, floatLt w.SuccessRate c.SuccessRate = false) →
      cur.recentRecoverOutput.length + ws.length < m →
      (successRun c e cur ws).2 = List.replicate ws.length [] ∧
      (successRun c e cur ws).1.curState = AlertType.FAIL ∧
      (successRun c e cur ws).1.recentRecoverOutput = cur.recentRecoverOutput ++ ws := by
  induction ws with
  | nil => intro cur hs _ _; simp [successRun, hs]
  | cons w ws ih =>
    intro cur hs hg hlt
    have hw := hg w (List.mem_cons_self _ _)
    simp only [List.length_cons] at hlt
    have hstep : successStep c e w cur =
        (⟨[], cur.recentRecoverOutput ++ [w], AlertType.FAIL⟩, []) := by
      have : ¬ (m : Int) ≤ (cur.recentRecoverOutput.length : Int) + 1 := by
        intro h
        have : m ≤ cur.recentRecoverOutput.length + 1 := by exact_mod_cast h
        omega
      simp [successStep, metricStep, hw, hs, hm, this]
    have h := ih ⟨[], cur.recentRecoverOutput ++ [w], AlertType.FAIL⟩ rfl
      (fun x hx => hg x (List.mem_cons_of_mem _ hx)) (by simp; omega)
    simp only [successRun, hstep, List.length_cons, List.replicate_succ]
    refine ⟨by rw [h.1], h.2.1, ?_⟩
    rw [h.2.2]; simp

theorem successRun_good_reach (c : ReportClientConfig) (e : String) (m : Nat)
    (hm : c.AlertForGreatSuccessRateReachedTimes = (m : Int)) (ws : List OutPutData)
    (cur : alertStatus) (hs : cur.curState = AlertType.FAIL)
    (hg : ∀ w ∈ ws, floatLt w.SuccessRate c.SuccessRate = false)
    (hne : ws ≠ [])
    (hlen : cur.recentRecoverOutput.length + ws.length = m) :
    (successRun c e cur ws).2 =
      List.replicate (ws.length - 1) [] ++
        [[⟨true, c.RecoverCaller, c.Name, e, AlertType.FAIL, cur.recentRecoverOutput ++ ws⟩]] ∧
    (successRun c e cur ws).1.curState = AlertType.NONE := by
  obtain ⟨pre, w, rfl⟩ : ∃ pre w, ws = pre ++ [w] :=
    ⟨ws.dropLast, ws.getLast hne, (List.dropLast_append_getLast hne).symm⟩
  simp only [List.length_append, List.length_singleton] at hlen
  have hpre := successRun_good_below c e m hm pre cur hs
    (fun x hx => hg x (List.mem_append_left _ hx)) (by omega)
  have hw := hg w (by simp)
  have hstep : successStep c e w (successRun c e cur pre).1 =
      (⟨[], cur.recentRecoverOutput ++ pre ++ [w], AlertType.NONE⟩,
        [⟨true, c.RecoverCaller, c.Name, e, AlertType.FAIL,
          cur.recentRecoverOutput ++ pre ++ [w]⟩]) := by
    have : (m : Int) ≤ (cur.recentRecoverOutput.length : Int) + ((pre.length : Int) + 1) := by
      exact_mod_cast hlen.ge
    simp [successStep, metricStep, hw, hpre.2.1, hpre.2.2, hm, this]
  rw [successRun_append]
  simp only [successRun, hstep, hpre.1, List.length_append, List.length_singleton,
    Nat.add_sub_cancel, List.append_assoc]
  exact ⟨trivial, trivial⟩

theorem successRun_interrupted (c : ReportClientConfig) (e : String) (m : Nat)
    (hm : c.AlertForGreatSuccessRateReachedTimes = (m : Int)) (pre : List OutPutData)
    (b : OutPutData) (cur : alertStatus) (hs : cur.curState = AlertType.FAIL)
    (hg : ∀ w ∈ pre, floatLt w.SuccessRate c.SuccessRate = false)
    (hlt : cur.recentRecoverOutput.length + pre.length < m)
    (hb : floatLt b.SuccessRate c.SuccessRate = true) :
    (successRun c e cur (pre ++ [b])).2 = List.replicate (pre.length + 1) [] ∧
    (successRun c e cur (pre ++ [b])).1.curState = AlertType.FAIL ∧
    (successRun c e cur (pre ++ [b])).1.recentRecoverOutput = [] := by
  have hpre := successRun_good_below c e m hm pre cur hs hg hlt
  rw [successRun_append]
  simp only [successRun, successStep_bad_alerting c e b _ hpre.2.1 hb, hpre.1]
  refine ⟨?_, trivial, trivial⟩
  rw [List.replicate_succ']

theorem alertAnalyze_fired_alert (c : ReportClientConfig) (s : ClientState) (e : String)
    (o : OutPutData)
    (h : ∃ x ∈ notesOf AlertType.FAIL (alertAnalyze c s e o).2, x.recovery = false) :
    successStatus (alertAnalyze c s e o).1 e = ⟨[], [], AlertType.FAIL⟩ := by
  rw [alertAnalyze_notesOf_fail] at h
  rw [alertAnalyze_successStatus]
  exact successStep_fired_alert c e o _ h

/-! ## The collector, one entry at a time -/

theorem mapSet_mapSet {κ α : Type} [DecidableEq κ] (m : List (κ × α)) (k : κ) (a b : α) :
    mapSet (mapSet m k a) k b = mapSet m k b := by
  induction m with
  | nil => simp [mapSet]
  | cons p m ih =>
    obtain ⟨x, y⟩ := p
    by_cases h : x = k
    · simp [mapSet, h]
    · simp [mapSet, h, ih]

theorem recordReports_append (c : ReportClientConfig) (xs ys : List reportServer) :
    ∀ d : reportData,
      recordReports c d (xs ++ ys) = (recordReports c d xs).bind (fun d1 => recordReports c d1 ys) := by
  induction xs with
  | nil => intro d; simp [recordReports]
  | cons x xs ih =>
    intro d
    simp only [List.cons_append, recordReports]
    cases recordReport c d x with
    | none => simp
    | some d1 => simp [ih]

theorem serverTask_eq (c : ReportClientConfig) (s : ClientState) (r : reportServer) :
    serverTask c s r =
      (recordReport c (entryStart s r.Name) r).map
        (fun d => { s with collectDataMap := mapSet s.collectDataMap r.Name d }) := by
  unfold serverTask entryStart
  cases h : mapGet s.collectDataMap r.Name <;> simp <;>
    cases recordReport c _ r <;> simp

theorem collect_server (c : ReportClientConfig) (name : String) (rs : List reportServer) :
    ∀ s : ClientState, (∀ r ∈ rs, r.Name = name) → rs ≠ [] →
      collect c s (rs.map taskQueue.SERVER) =
        (recordReports c (entryStart s name) rs).map
          (fun d => { s with collectDataMap := mapSet s.collectDataMap name d }) := by
  induction rs with
  | nil => intro s _ h; exact absurd rfl h
  | cons r rs ih =>
    intro s hname _
    have hr : r.Name = name := hname r (List.mem_cons_self _ _)
    simp only [List.map_cons, collect, collectStep, recordReports, serverTask_eq, hr]
    cases h : recordReport c (entryStart s name) r with
    | none => simp
    | some d1 =>
      simp only [Option.map_some']
      by_cases hrs : rs = []
      · subst hrs; simp [collect, recordReports]
      · rw [ih _ (fun x hx => hname x (List.mem_cons_of_mem _ hx)) hrs]
        simp [entryStart, mapGet_mapSet_self, mapSet_mapSet]

theorem recordReport_success (c : ReportClientConfig) (cur d : reportData) (r : reportServer)
    (hs : codeSuccess c r.Code = true) (h : recordReport c cur r = some d) :
    ∃ hist i hist1, histStart cur = some hist ∧ bucketIndex cur.Config r.Ms = some i ∧
      sliceIncr hist i = some hist1 ∧
      d = { cur with
        SuccessCount := (cur.SuccessCount + 1) % u32
        MinMs := if cur.MinMs = 0 then r.Ms else if r.Ms < cur.MinMs then r.Ms else cur.MinMs
        MaxMs := if cur.MaxMs = 0 then r.Ms else if r.Ms > cur.MaxMs then r.Ms else cur.MaxMs
        SuccessMsCount := (cur.SuccessMsCount + r.Ms) % u64
        TimeConsumingDistribution := some hist1
        FastCount := if r.Ms ≤ cur.Config.FastLessThan then (cur.FastCount + 1) % u32
          else cur.FastCount } := by
  unfold recordReport at h
  cases hh : histStart cur with
  | none => rw [hh] at h; simp at h
  | some hist =>
    rw [hh] at h
    simp only [hs, if_true] at h
    cases hi : bucketIndex cur.Config r.Ms with
    | none => rw [hi] at h; simp at h
    | some i =>
      rw [hi] at h
      simp only at h
      cases hj : sliceIncr hist i with
      | none => rw [hj] at h; simp at h
      | some hist1 =>
        rw [hj] at h
        simp only [Option.some.injEq] at h
        exact ⟨hist, i, hist1, rfl, rfl, hj, h.symm⟩

theorem recordReport_failure (c : ReportClientConfig) (cur d : reportData) (r : reportServer)
    (hs : codeSuccess c r.Code = false) (h : recordReport c cur r = some d) :
    ∃ hist, histStart cur = some hist ∧
      d = { cur with
        TimeConsumingDistribution := some hist
        FailCount := (cur.FailCount + 1) % u32
        FailDistribution := failIncr cur.FailDistribution r.Code } := by
  unfold recordReport at h
  cases hh : histStart cur with
  | none => rw [hh] at h; simp at h
  | some hist =>
    rw [hh] at h
    simp only [hs, Bool.false_eq_true, if_false, Option.some.injEq] at h
    exact ⟨hist, rfl, h.symm⟩

theorem successes_snoc (c : ReportClientConfig) (rs : List reportServer) (r : reportServer) :
    successes c (rs ++ [r]) = successes c rs ++ (if codeSuccess c r.Code then [r] else []) := by
  unfold successes
  rw [List.filter_append]
  cases h : codeSuccess c r.Code <;> simp [h]

theorem failures_snoc (c : ReportClientConfig) (rs : List reportServer) (r : reportServer) :
    failures c (rs ++ [r]) = failures c rs ++ (if codeSuccess c r.Code then [] else [r]) := by
  unfold failures
  rw [List.filter_append]
  cases h : codeSuccess c r.Code <;> simp [h]

theorem successes_failures_length (c : ReportClientConfig) (rs : List reportServer) :
    (successes c rs).length + (failures c rs).length = rs.length := by
  induction rs with
  | nil => simp [successes, failures]
  | cons r rs ih =>
    unfold successes failures at ih ⊢
    cases h : codeSuccess c r.Code <;> simp [List.filter_cons, h] <;> omega

theorem recordReports_snoc (c : ReportClientConfig) (d0 d : reportData)
    (rs : List reportServer) (r : reportServer)
    (h : recordReports c d0 (rs ++ [r]) = some d) :
    ∃ d1, recordReports c d0 rs = some d1 ∧ recordReport c d1 r = some d := by
  rw [recordReports_append] at h
  cases h1 : recordReports c d0 rs with
  | none => rw [h1] at h; simp at h
  | some d1 =>
    rw [h1] at h
    simp only [Option.some_bind, recordReports] at h
    refine ⟨d1, rfl, ?_⟩
    cases h2 : recordReport c d1 r with
    | none => rw [h2] at h; simp at h
    | some d2 => rw [h2] at h; simpa using h

theorem recordReports_counts (c : ReportClientConfig) (d0 : reportData) (h0 : IsReset d0)
    (rs : List reportServer) :
    ∀ d, recordReports c d0 rs = some d →
      d.SuccessCount = (successes c rs).length % u32 ∧
      d.FailCount = (failures c rs).length % u32 ∧
      d.FastCount = (fastSuccesses c d0.Config rs).length % u32 ∧
      d.MaxMs = (successMs c rs).foldl max 0 ∧
      d.SuccessMsCount = (successMs c rs).sum % u64 ∧
      d.Config = d0.Config ∧ d.Name = d0.Name ∧ d.Time = d0.Time := by
  induction rs using List.reverseRecOn with
  | nil =>
    intro d h
    simp only [recordReports, Option.some.injEq] at h
    subst h
    obtain ⟨a1, a2, a3, _, a5, a6, _, _⟩ := h0
    simp [successes, failures, fastSuccesses, successMs, a1, a2, a3, a5, a6]
  | append_singleton rs r ih =>
    intro d h
    obtain ⟨d1, h1, h2⟩ := recordReports_snoc c d0 d rs r h
    obtain ⟨i1, i2, i3, i4, i5, i6, i7, i8⟩ := ih d1 h1
    cases hs : codeSuccess c r.Code with
    | true =>
      obtain ⟨hist, i, hist1, _, _, _, hd⟩ := recordReport_success c d1 d r hs h2
      subst hd
      simp only [successes_snoc, failures_snoc, fastSuccesses, successMs, hs, if_true,
        List.length_append, List.length_singleton, List.append_nil, List.map_append,
        List.map_cons, List.map_nil, List.foldl_append, List.foldl_cons, List.foldl_nil,
        List.sum_append, List.sum_cons, List.sum_nil, List.filter_append]
      refine ⟨?_, i2, ?_, ?_, ?_, i6, i7, i8⟩
      · rw [i1]; simp [Nat.add_mod]
      · rw [i3, i6]
        unfold fastSuccesses
        by_cases hf : r.Ms ≤ d0.Config.FastLessThan
        · simp [hf, List.filter_cons, Nat.add_mod]
        · simp [hf, List.filter_cons]
      · rw [i4]
        unfold successMs
        by_cases hz : List.foldl max 0 (List.map (fun r => r.Ms) (successes c rs)) = 0
        · simp [hz]
        · simp only [hz, if_false]
          by_cases hg : r.Ms > List.foldl max 0 (List.map (fun r => r.Ms) (successes c rs))
          · simp [hg]; omega
          · simp [hg]; omega
      · rw [i5]; unfold successMs; simp [Nat.add_mod]
    | false =>
      obtain ⟨hist, _, hd⟩ := recordReport_failure c d1 d r hs h2
      subst hd
      simp only [successes_snoc, failures_snoc, fastSuccesses, successMs, hs,
        Bool.false_eq_true, if_false, List.append_nil, List.length_append,
        List.length_singleton]
      refine ⟨i1, ?_, i3, i4, i5, i6, i7, i8⟩
      rw [i2]; simp [Nat.add_mod]

theorem sum_set_add (l : List Nat) (i v : Nat) (h : i < l.length) :
    (l.set i v).sum + l.getD i 0 = l.sum + v := by
  induction l generalizing i with
  | nil => simp at h
  | cons a l ih =>
    cases i with
    | zero => simp; omega
    | succ i =>
      simp only [List.length_cons, Nat.succ_lt_succ_iff] at h
      have := ih i h
      simp only [List.set_cons_succ, List.sum_cons, List.getD_cons_succ]
      omega

theorem getD_le_sum (l : List Nat) (i : Nat) : l.getD i 0 ≤ l.sum := by
  induction l generalizing i with
  | nil => simp
  | cons a l ih =>
    cases i with
    | zero => simp
    | succ i =>
      have := ih i
      simp only [List.getD_cons_succ, List.sum_cons]
      omega

theorem sliceIncr_length (h h1 : List Nat) (i : Int) (hi : sliceIncr h i = some h1) :
    h1.length = h.length := by
  unfold sliceIncr at hi
  split_ifs at hi
  simp only [Option.some.injEq] at hi
  subst hi
  simp

theorem sliceIncr_sum (h h1 : List Nat) (i : Int) (hi : sliceIncr h i = some h1)
    (hb : h.sum + 1 < u32) : h1.sum = h.sum + 1 := by
  unfold sliceIncr at hi
  split_ifs at hi with hc
  simp only [Option.some.injEq] at hi
  subst hi
  have hlt : i.toNat < h.length := by omega
  have hle := getD_le_sum h i.toNat
  have hs := sum_set_add h i.toNat ((h.getD i.toNat 0 + 1) % u32) hlt
  rw [Nat.mod_eq_of_lt (by omega)] at hs ⊢
  omega

theorem histStart_of_some (d : reportData) (h : List Nat)
    (hd : d.TimeConsumingDistribution = some h) : histStart d = some h := by
  simp [histStart, hd]

theorem recordReport_hist (c : ReportClientConfig) (d1 d : reportData) (r : reportServer)
    (h : recordReport c d1 r = some d) :
    ∃ hist hist1, histStart d1 = some hist ∧ d.TimeConsumingDistribution = some hist1 ∧
      d.Config = d1.Config ∧
      ((codeSuccess c r.Code = false ∧ hist1 = hist) ∨
        (codeSuccess c r.Code = true ∧ ∃ i, bucketIndex d1.Config r.Ms = some i ∧
          sliceIncr hist i = some hist1)) := by
  cases hs : codeSuccess c r.Code with
  | true =>
    obtain ⟨hist, i, hist1, a, b, e, hd⟩ := recordReport_success c d1 d r hs h
    subst hd
    exact ⟨hist, hist1, a, rfl, rfl, Or.inr ⟨rfl, i, b, e⟩⟩
  | false =>
    obtain ⟨hist, a, hd⟩ := recordReport_failure c d1 d r hs h
    subst hd
    exact ⟨hist, hist, a, rfl, rfl, Or.inl ⟨rfl, rfl⟩⟩

theorem histStart_reset (d0 : reportData) (h0 : IsReset d0) (h : List Nat)
    (hh : histStart d0 = some h) :
    0 ≤ d0.Config.TimeConsumingDistributionSplit ∧
      h = List.replicate d0.Config.TimeConsumingDistributionSplit.toNat 0 := by
  obtain ⟨_, _, _, _, _, _, _, hd⟩ := h0
  rcases hd with hd | ⟨hp, hd⟩
  · simp only [histStart, hd, makeSlice] at hh
    split_ifs at hh with hneg
    simp only [Option.some.injEq] at hh
    exact ⟨by omega, hh.symm⟩
  · simp only [histStart, hd, Option.some.injEq] at hh
    exact ⟨hp, hh.symm⟩

theorem recordReports_hist (c : ReportClientConfig) (d0 : reportData) (h0 : IsReset d0)
    (rs : List reportServer) :
    ∀ d, recordReports c d0 rs = some d → ∀ h, histStart d = some h →
      0 ≤ d0.Config.TimeConsumingDistributionSplit ∧
      h.length = d0.Config.TimeConsumingDistributionSplit.toNat ∧
      ((successes c rs).length < u32 → h.sum = (successes c rs).length) := by
  induction rs using List.reverseRecOn with
  | nil =>
    intro d hd h hh
    simp only [recordReports, Option.some.injEq] at hd
    subst hd
    obtain ⟨hp, rfl⟩ := histStart_reset d0 h0 h hh
    simp [successes, hp]
  | append_singleton rs r ih =>
    intro d hd h hh
    obtain ⟨d1, h1, h2⟩ := recordReports_snoc c d0 d rs r hd
    obtain ⟨hist, hist1, a, b, _, hcase⟩ := recordReport_hist c d1 d r h2
    have hh1 : h = hist1 := by
      rw [histStart_of_some d hist1 b] at hh
      exact (Option.some.inj hh).symm
    subst hh1
    obtain ⟨p, q, e⟩ := ih d1 h1 hist a
    rcases hcase with ⟨hs, rfl⟩ | ⟨hs, i, _, hi⟩
    · refine ⟨p, q, ?_⟩
      simpa [successes_snoc, hs] using e
    · refine ⟨p, by rw [sliceIncr_length hist h i hi, q], ?_⟩
      intro hlt
      simp only [successes_snoc, hs, if_true, List.length_append, List.length_singleton]
        at hlt ⊢
      have e1 := e (by omega)
      rw [sliceIncr_sum hist h i hi (by omega), e1]

theorem collect_append (c : ReportClientConfig) (xs ys : List taskQueue) :
    ∀ s : ClientState,
      collect c s (xs ++ ys) = (collect c s xs).bind (fun s1 => collect c s1 ys) := by
  induction xs with
  | nil => intro s; simp [collect]
  | cons x xs ih =>
    intro s
    simp only [List.cons_append, collect]
    cases collectStep c s x with
    | none => simp
    | some s1 => simp [ih]

theorem clearTask_known (s : ClientState) (name : String) (t : Nat) (d : reportData)
    (h : mapGet s.collectDataMap name = some d) :
    clearTask s ⟨name, t⟩ =
      if d.SuccessCount ≠ 0 ∨ d.FailCount ≠ 0 then
        (resetReportData d).map (fun d1 =>
          { s with
            statisticsChannel := s.statisticsChannel ++ [{ d with Time := t }]
            collectDataMap := mapSet s.collectDataMap name d1 })
      else some s := by
  simp only [clearTask, h]
  split_ifs
  · cases resetReportData d <;> simp
  · rfl

theorem window_flush (c : ReportClientConfig) (s s2 : ClientState) (name : String)
    (rs : List reportServer) (t : Nat) (hname : ∀ r ∈ rs, r.Name = name)
    (hrun : collect c s (rs.map taskQueue.SERVER ++ [taskQueue.CLEAR ⟨name, t⟩]) = some s2) :
    ∃ d, recordReports c (entryStart s name) rs = some d ∧
      ((d.SuccessCount ≠ 0 ∨ d.FailCount ≠ 0) →
        s2.statisticsChannel = s.statisticsChannel ++ [{ d with Time := t }] ∧
        ∃ d1, resetReportData d = some d1 ∧ mapGet s2.collectDataMap name = some d1) ∧
      (¬ (d.SuccessCount ≠ 0 ∨ d.FailCount ≠ 0) →
        s2.statisticsChannel = s.statisticsChannel ∧
        mapGet s2.collectDataMap name = some d) := by
  have key : ∀ (s1 : ClientState) (d : reportData),
      mapGet s1.collectDataMap name = some d →
      s1.statisticsChannel = s.statisticsChannel →
      clearTask s1 ⟨name, t⟩ = some s2 →
      ((d.SuccessCount ≠ 0 ∨ d.FailCount ≠ 0) →
        s2.statisticsChannel = s.statisticsChannel ++ [{ d with Time := t }] ∧
        ∃ d1, resetReportData d = some d1 ∧ mapGet s2.collectDataMap name = some d1) ∧
      (¬ (d.SuccessCount ≠ 0 ∨ d.FailCount ≠ 0) →
        s2.statisticsChannel = s.statisticsChannel ∧
        mapGet s2.collectDataMap name = some d) := by
    intro s1 d hd hch hc
    rw [clearTask_known s1 name t d hd] at hc
    constructor
    · intro hnz
      rw [if_pos hnz] at hc
      cases hr : resetReportData d with
      | none => rw [hr] at hc; simp at hc
      | some d1 =>
        rw [hr] at hc
        simp only [Option.map_some', Option.some.injEq] at hc
        subst hc
        exact ⟨by simp [hch], d1, rfl, by simp [mapGet_mapSet_self]⟩
    · intro hz
      rw [if_neg hz] at hc
      simp only [Option.some.injEq] at hc
      subst hc
      exact ⟨hch, hd⟩
  by_cases hrs : rs = []
  · subst hrs
    simp only [List.map_nil, List.nil_append, collect, collectStep] at hrun
    cases hs2 : clearTask s ⟨name, t⟩ with
    | none => rw [hs2] at hrun; simp at hrun
    | some s3 =>
      rw [hs2] at hrun
      simp only [Option.some.injEq] at hrun
      subst hrun
      cases hd : mapGet s.collectDataMap name with
      | none => simp [clearTask, hd] at hs2
      | some d =>
        refine ⟨d, by simp [recordReports, entryStart, hd], ?_⟩
        exact key s d hd rfl hs2
  · rw [collect_append, collect_server c name rs s hname hrs] at hrun
    cases hd : recordReports c (entryStart s name) rs with
    | none => rw [hd] at hrun; simp at hrun
    | some d =>
      rw [hd] at hrun
      simp only [Option.map_some', Option.some_bind, collect, collectStep] at hrun
      refine ⟨d, rfl, ?_⟩
      cases hs2 : clearTask { s with collectDataMap := mapSet s.collectDataMap name d }
          ⟨name, t⟩ with
      | none => rw [hs2] at hrun; simp at hrun
      | some s3 =>
        rw [hs2] at hrun
        simp only [Option.some.injEq] at hrun
        subst hrun
        exact key { s with collectDataMap := mapSet s.collectDataMap name d } d
          (by simp [mapGet_mapSet_self]) rfl hs2

theorem statisticsRecord_some (c : ReportClientConfig) (snap : reportData) (o : OutPutData)
    (h : statisticsRecord c snap = some o) :
    ∃ dist, labelDistribution snap.Config snap.TimeConsumingDistribution = some dist ∧
      o = {
        Timestamp := snap.Time
        ClientName := c.Name
        InterfaceName := snap.Name
        Count := (snap.FailCount + snap.SuccessCount) % u32
        SuccessCount := snap.SuccessCount
        SuccessRate := floatDiv snap.SuccessCount ((snap.FailCount + snap.SuccessCount) % u32)
        SuccessMsAver := (snap.SuccessMsCount / ((snap.FailCount + snap.SuccessCount) % u32)) % u32
        MaxMs := snap.MaxMs
        MinMs := snap.MinMs
        FastCount := snap.FastCount
        FastRate := floatDiv snap.FastCount ((snap.FailCount + snap.SuccessCount) % u32)
        FailCount := snap.FailCount
        FailDistribution := labelFailures c snap.FailDistribution []
        TimeConsumingDistribution := dist } := by
  unfold statisticsRecord at h
  cases hd : labelDistribution snap.Config snap.TimeConsumingDistribution with
  | none => rw [hd] at h; simp at h
  | some dist =>
    rw [hd] at h
    simp only [Option.bind_eq_bind, Option.some_bind, pure, Option.some.injEq] at h
    exact ⟨dist, rfl, h.symm⟩

theorem fastSuccesses_length_le (c : ReportClientConfig) (cfg : EntryConfig)
    (rs : List reportServer) : (fastSuccesses c cfg rs).length ≤ (successes c rs).length :=
  List.length_filter_le _ _

theorem foldl_max_ge (l : List Nat) : ∀ a : Nat,
    a ≤ l.foldl max a ∧ (∀ m ∈ l, m ≤ l.foldl max a) ∧ (l.foldl max a = a ∨ l.foldl max a ∈ l) := by
  induction l with
  | nil => intro a; simp
  | cons x l ih =>
    intro a
    obtain ⟨h1, h2, h3⟩ := ih (max a x)
    simp only [List.foldl_cons, List.mem_cons]
    refine ⟨le_trans (le_max_left a x) h1, ?_, ?_⟩
    · intro m hm
      rcases hm with rfl | hm
      · exact le_trans (le_max_right a m) h1
      · exact h2 m hm
    · rcases h3 with h3 | h3
      · rcases le_total a x with hax | hax
        · right; left; rw [h3]; exact max_eq_right hax
        · left; rw [h3]; exact max_eq_left hax
      · right; right; exact h3

theorem foldl_max_mem (l : List Nat) (hne : l ≠ []) : l.foldl max 0 ∈ l := by
  obtain ⟨_, h2, h3⟩ := foldl_max_ge l 0
  rcases h3 with h3 | h3
  · cases l with
    | nil => exact absurd rfl hne
    | cons x l =>
      have hx := h2 x (List.mem_cons_self _ _)
      rw [h3] at hx ⊢
      have : x = 0 := by omega
      subst this
      exact List.mem_cons_self _ _
  · exact h3

theorem recordReports_hist_some (c : ReportClientConfig) (d0 d : reportData)
    (rs : List reportServer) (hne : rs ≠ []) (h : recordReports c d0 rs = some d) :
    ∃ hist, d.TimeConsumingDistribution = some hist := by
  obtain ⟨pre, r, rfl⟩ : ∃ pre r, rs = pre ++ [r] :=
    ⟨rs.dropLast, rs.getLast hne, (List.dropLast_append_getLast hne).symm⟩
  obtain ⟨d1, _, h2⟩ := recordReports_snoc c d0 d pre r h
  obtain ⟨_, hist1, _, b, _, _⟩ := recordReport_hist c d1 d r h2
  exact ⟨hist1, b⟩

theorem resetReportData_some (d : reportData)
    (hsplit : 0 ≤ d.Config.TimeConsumingDistributionSplit) :
    resetReportData d = some { d with
      MinMs := 0, MaxMs := 0, FailCount := 0, SuccessCount := 0, SuccessMsCount := 0,
      FastCount := 0, FailDistribution := [],
      TimeConsumingDistribution :=
        some (List.replicate d.Config.TimeConsumingDistributionSplit.toNat 0) } := by
  simp [resetReportData, makeSlice, not_lt.mpr hsplit]

theorem set_getD_self (l : List Nat) (i : Nat) (h : i < l.length) : l.set i (l.getD i 0) = l := by
  induction l generalizing i with
  | nil => simp
  | cons a l ih =>
    cases i with
    | zero => simp
    | succ i =>
      simp only [List.length_cons, Nat.succ_lt_succ_iff] at h
      simp only [List.getD_cons_succ, List.set_cons_succ, ih i h]

theorem getD_set_self (l : List Nat) (i v : Nat) (h : i < l.length) :
    (l.set i v).getD i 0 = v := by
  induction l generalizing i with
  | nil => simp at h
  | cons a l ih =>
    cases i with
    | zero => simp
    | succ i =>
      simp only [List.length_cons, Nat.succ_lt_succ_iff] at h
      simp only [List.getD_cons_succ, List.set_cons_succ, ih i h]

theorem sliceIncr_nat (h : List Nat) (i : Nat) (hi : i < h.length) :
    sliceIncr h (i : Int) = some (h.set i ((h.getD i 0 + 1) % u32)) := by
  have : ¬ ((i : Int) < 0 ∨ (h.length : Int) ≤ (i : Int)) := by omega
  simp only [sliceIncr, this, if_false, Int.toNat_ofNat]

theorem recordReports_replicate (c : ReportClientConfig) (r : reportServer) (i : Nat)
    (hs : codeSuccess c r.Code = true) (n : Nat) :
    ∀ (d : reportData) (h : List Nat), histStart d = some h → i < h.length →
      bucketIndex d.Config r.Ms = some (i : Int) →
      d.SuccessCount < u32 → h.getD i 0 < u32 →
      ∃ d1, recordReports c d (List.replicate n r) = some d1 ∧
        histStart d1 = some (h.set i ((h.getD i 0 + n) % u32)) ∧
        d1.SuccessCount = (d.SuccessCount + n) % u32 ∧
        d1.FailCount = d.FailCount ∧ d1.Config = d.Config ∧ d1.Name = d.Name := by
  induction n with
  | zero =>
    intro d h hh hi _ hsc hv
    refine ⟨d, rfl, ?_, ?_, rfl, rfl, rfl⟩
    · rw [Nat.add_zero, Nat.mod_eq_of_lt hv, set_getD_self h i hi]; exact hh
    · rw [Nat.add_zero, Nat.mod_eq_of_lt hsc]
  | succ n ih =>
    intro d h hh hi hb hsc hv
    have hstep : recordReport c d r = some { d with
        SuccessCount := (d.SuccessCount + 1) % u32
        MinMs := if d.MinMs = 0 then r.Ms else if r.Ms < d.MinMs then r.Ms else d.MinMs
        MaxMs := if d.MaxMs = 0 then r.Ms else if r.Ms > d.MaxMs then r.Ms else d.MaxMs
        SuccessMsCount := (d.SuccessMsCount + r.Ms) % u64
        TimeConsumingDistribution := some (h.set i ((h.getD i 0 + 1) % u32))
        FastCount := if r.Ms ≤ d.Config.FastLessThan then (d.FastCount + 1) % u32
          else d.FastCount } := by
      simp only [recordReport, hh, hs, if_true, hb, sliceIncr_nat h i hi]
    have hpos : 0 < u32 := by unfold u32; positivity
    obtain ⟨d1, h1, h2, h3, h4, h5, h6⟩ := ih { d with
        SuccessCount := (d.SuccessCount + 1) % u32
        MinMs := if d.MinMs = 0 then r.Ms else if r.Ms < d.MinMs then r.Ms else d.MinMs
        MaxMs := if d.MaxMs = 0 then r.Ms else if r.Ms > d.MaxMs then r.Ms else d.MaxMs
        SuccessMsCount := (d.SuccessMsCount + r.Ms) % u64
        TimeConsumingDistribution := some (h.set i ((h.getD i 0 + 1) % u32))
        FastCount := if r.Ms ≤ d.Config.FastLessThan then (d.FastCount + 1) % u32
          else d.FastCount } (h.set i ((h.getD i 0 + 1) % u32))
      (histStart_of_some _ _ rfl) (by rw [List.length_set]; exact hi) hb
      (Nat.mod_lt _ hpos)
      (by rw [getD_set_self h i _ hi]; exact Nat.mod_lt _ hpos)
    refine ⟨d1, ?_, ?_, ?_, h4, h5, h6⟩
    · simp only [List.replicate_succ, recordReports, hstep]
      exact h1
    · rw [h2, getD_set_self h i _ hi, List.set_set]
      congr 2
      rw [Nat.mod_add_mod]
      congr 1
      omega
    · rw [h3]
      show ((d.SuccessCount + 1) % u32 + n) % u32 = (d.SuccessCount + (n + 1)) % u32
      rw [Nat.mod_add_mod]
      congr 1
      omega

theorem mem_replicate_name (n : Nat) (r : reportServer) :
    ∀ x ∈ List.replicate n r, x.Name = r.Name := by
  intro x hx
  rw [List.eq_of_mem_replicate hx]

theorem replicate_ne_nil (n : Nat) (r : reportServer) (hn : 0 < n) :
    List.replicate n r ≠ [] := by
  cases n with
  | zero => omega
  | succ n => simp [List.replicate_succ]

/-- Runs of `n` successful reports of 90 ms on the new entry of the examples. -/
theorem example_run_fast (n : Nat) (hn : 0 < n) :
    ∃ d, collect exampleClient exampleState
          ((List.replicate n (⟨"GET /users", 90, 200⟩ : reportServer)).map taskQueue.SERVER) =
        some { exampleState with collectDataMap := [("GET /users", d)] } ∧
      histStart d = some [n % u32, 0, 0, 0, 0, 0, 0, 0, 0, 0] ∧
      d.SuccessCount = n % u32 ∧ d.FailCount = 0 ∧ d.Config = defaultEntryConfig ∧
      d.Name = "GET /users" := by
  obtain ⟨d, h1, h2, h3, h4, h5, h6⟩ := recordReports_replicate exampleClient
    ⟨"GET /users", 90, 200⟩ 0 (by rfl) n (entryStart exampleState "GET /users")
    [0, 0, 0, 0, 0, 0, 0, 0, 0, 0] (by rfl) (by decide) (by rfl) (by decide) (by decide)
  refine ⟨d, ?_, ?_, ?_, h4, h5, h6⟩
  · rw [collect_server exampleClient "GET /users" _ exampleState
      (mem_replicate_name n _) (replicate_ne_nil n _ hn), h1]
    rfl
  · rw [h2]; simp
  · rw [h3]
    show (0 + n) % u32 = n % u32
    rw [Nat.zero_add]

theorem example_wraparound (n : Nat) (hn : 0 < n) (hmod : n % u32 = 0) :
    (collect exampleClient exampleState
        ((List.replicate n (⟨"GET /users", 90, 200⟩ : reportServer)).map taskQueue.SERVER ++
          [taskQueue.CLEAR ⟨"GET /users", 7⟩])).map (fun s => s.statisticsChannel) =
      some [] := by
  obtain ⟨d, h1, _, h3, h4, _, _⟩ := example_run_fast n hn
  rw [collect_append, h1]
  simp only [Option.some_bind, collect, collectStep]
  rw [clearTask_known _ "GET /users" 7 d (by simp [mapGet]), if_neg (by rw [h3, h4, hmod]; simp)]
  rfl

/-! ## Decimal rendering and labels -/

theorem digitChar_toNat (k : Nat) (h : k < 10) : (Nat.digitChar k).toNat - 48 = k := by
  interval_cases k <;> rfl

theorem digitChar_ne_tilde (k : Nat) (h : k < 10) : Nat.digitChar k ≠ '~' := by
  interval_cases k <;> decide

theorem toDigitsCore_decode (fuel : Nat) : ∀ (n : Nat) (ds : List Char), n < fuel →
    (Nat.toDigitsCore 10 fuel n ds).foldl (fun a ch => 10 * a + (ch.toNat - 48)) 0 =
      ds.foldl (fun a ch => 10 * a + (ch.toNat - 48)) n := by
  induction fuel with
  | zero => intro n ds h; omega
  | succ fuel ih =>
    intro n ds h
    unfold Nat.toDigitsCore
    by_cases hz : n / 10 = 0
    · have hlt : n < 10 := by omega
      simp only [hz, if_true, List.foldl_cons, Nat.mul_zero, Nat.zero_add]
      rw [digitChar_toNat _ (Nat.mod_lt _ (by norm_num)), Nat.mod_eq_of_lt hlt]
    · simp only [hz, if_false]
      rw [ih (n / 10) _ (by omega)]
      simp only [List.foldl_cons]
      rw [digitChar_toNat _ (Nat.mod_lt _ (by norm_num)), Nat.div_add_mod]

theorem toDigitsCore_no_tilde (fuel : Nat) : ∀ (n : Nat) (ds : List Char), '~' ∉ ds →
    '~' ∉ Nat.toDigitsCore 10 fuel n ds := by
  induction fuel with
  | zero => intro n ds h; simpa [Nat.toDigitsCore] using h
  | succ fuel ih =>
    intro n ds h
    unfold Nat.toDigitsCore
    have hd : '~' ∉ Nat.digitChar (n % 10) :: ds := by
      simp only [List.mem_cons, not_or]
      exact ⟨fun e => digitChar_ne_tilde _ (Nat.mod_lt _ (by norm_num)) e.symm, h⟩
    by_cases hz : n / 10 = 0
    · simpa only [hz, if_true] using hd
    · simp only [hz, if_false]
      exact ih _ _ hd

theorem FormatUint_data (n : Nat) : (FormatUint n).data = Nat.toDigits 10 n := rfl

theorem FormatUint_injective (a b : Nat) (h : FormatUint a = FormatUint b) : a = b := by
  have hd : Nat.toDigits 10 a = Nat.toDigits 10 b := by
    rw [← FormatUint_data, ← FormatUint_data, h]
  have ha := toDigitsCore_decode (a + 1) a [] (by omega)
  have hb := toDigitsCore_decode (b + 1) b [] (by omega)
  unfold Nat.toDigits at hd
  rw [hd] at ha
  rw [ha] at hb
  simpa using hb

theorem FormatUint_no_tilde (n : Nat) : '~' ∉ (FormatUint n).data := by
  rw [FormatUint_data]
  exact toDigitsCore_no_tilde _ _ _ (by simp)

theorem split_at_tilde : ∀ (l1 l2 t1 t2 : List Char), '~' ∉ l1 → '~' ∉ l2 →
    l1 ++ '~' :: t1 = l2 ++ '~' :: t2 → l1 = l2 := by
  intro l1
  induction l1 with
  | nil =>
    intro l2 t1 t2 _ h2 h
    cases l2 with
    | nil => rfl
    | cons b l2 =>
      simp only [List.nil_append, List.cons_append, List.cons.injEq] at h
      exact absurd (h.1 ▸ List.mem_cons_self _ _) h2
  | cons a l1 ih =>
    intro l2 t1 t2 h1 h2 h
    cases l2 with
    | nil =>
      simp only [List.nil_append, List.cons_append, List.cons.injEq] at h
      exact absurd (h.1 ▸ List.mem_cons_self _ _) h1
    | cons b l2 =>
      simp only [List.cons_append, List.cons.injEq] at h
      rw [h.1, ih l2 t1 t2 (fun m => h1 (List.mem_cons_of_mem _ m))
        (fun m => h2 (List.mem_cons_of_mem _ m)) h.2]

theorem rangeLabel_data (cfg : EntryConfig) (scope i : Nat) :
    ∃ a b : Nat, a = (cfg.TimeConsumingDistributionMin + (i - 1) % u32 * scope % u32) % u32 ∧
      (rangeLabel cfg scope i).data = (FormatUint a).data ++ '~' :: (FormatUint b).data := by
  refine ⟨_, if (i : Int) = cfg.TimeConsumingDistributionSplit - 1
    then cfg.TimeConsumingDistributionMax
    else (cfg.TimeConsumingDistributionMin + i % u32 * scope % u32) % u32, rfl, ?_⟩
  unfold rangeLabel
  simp only [String.data_append]
  simp

theorem rangeLabel_start_eq (cfg : EntryConfig) (scope i j : Nat)
    (h : rangeLabel cfg scope i = rangeLabel cfg scope j) :
    (cfg.TimeConsumingDistributionMin + (i - 1) % u32 * scope % u32) % u32 =
      (cfg.TimeConsumingDistributionMin + (j - 1) % u32 * scope % u32) % u32 := by
  obtain ⟨a, b, ha, hi⟩ := rangeLabel_data cfg scope i
  obtain ⟨a2, b2, ha2, hj⟩ := rangeLabel_data cfg scope j
  rw [h, hj] at hi
  have := split_at_tilde _ _ _ _ (FormatUint_no_tilde a2) (FormatUint_no_tilde a) hi
  have e : a2 = a := FormatUint_injective _ _ (String.ext this)
  rw [← ha, ← ha2, e]

theorem rangeLabel_ne_bound (cfg : EntryConfig) (scope i n : Nat) (ch : Char)
    (hc : ch ≠ '~') : rangeLabel cfg scope i ≠ String.singleton ch ++ FormatUint n := by
  intro h
  obtain ⟨a, b, _, hi⟩ := rangeLabel_data cfg scope i
  have hmem : '~' ∈ (rangeLabel cfg scope i).data := by rw [hi]; simp
  rw [h] at hmem
  simp only [String.data_append, List.mem_append] at hmem
  rcases hmem with hm | hm
  · simp [String.singleton] at hm
    exact hc hm.symm
  · exact FormatUint_no_tilde n hm

theorem labeledTotal_mapSet (m : List (String × Nat)) (k : String) (v : Nat) :
    labeledTotal (mapSet m k v) + (mapGet m k).getD 0 = labeledTotal m + v := by
  induction m with
  | nil => simp [mapSet, mapGet, labeledTotal]
  | cons p m ih =>
    obtain ⟨a, b⟩ := p
    by_cases h : a = k
    · simp [mapSet, mapGet, labeledTotal, h]; omega
    · simp only [mapSet, mapGet, h, if_false, labeledTotal, List.map_cons, List.sum_cons]
        at ih ⊢
      omega

theorem sliceGet_nat (h : List Nat) (i : Nat) (hi : i < h.length) :
    sliceGet h (i : Int) = some (h.getD i 0) := by
  have : ¬ ((i : Int) < 0 ∨ (h.length : Int) ≤ (i : Int)) := by omega
  simp only [sliceGet, this, if_false, Int.toNat_ofNat]
  rw [List.getD_eq_getElem?_getD, List.get?_eq_getElem?, List.getElem?_eq_getElem hi]
  rfl

theorem labelLoop_total (cfg : EntryConfig) (scope : Nat) (h : List Nat) :
    ∀ (is : List Nat) (m : List (String × Nat)), (∀ i ∈ is, i < h.length) →
      (∀ i ∈ is, (mapGet m (rangeLabel cfg scope i)).getD 0 = 0) →
      is.Pairwise (fun i j =>
        rangeLabel cfg scope i = rangeLabel cfg scope j → h.getD i 0 = 0) →
      ∃ m1, labelLoop cfg scope h is m = some m1 ∧
        labeledTotal m1 = labeledTotal m + (is.map (fun i => h.getD i 0)).sum := by
  intro is
  induction is with
  | nil => intro m _ _ _; exact ⟨m, rfl, by simp⟩
  | cons i rest ih =>
    intro m hlt hzero hpair
    have hi := hlt i (List.mem_cons_self _ _)
    rw [List.pairwise_cons] at hpair
    have htot := labeledTotal_mapSet m (rangeLabel cfg scope i) (h.getD i 0)
    rw [hzero i (List.mem_cons_self _ _)] at htot
    obtain ⟨m1, h1, h2⟩ := ih (mapSet m (rangeLabel cfg scope i) (h.getD i 0))
      (fun j hj => hlt j (List.mem_cons_of_mem _ hj))
      (by
        intro j hj
        by_cases he : rangeLabel cfg scope i = rangeLabel cfg scope j
        · rw [← he, mapGet_mapSet_self]
          exact hpair.1 j hj he
        · rw [mapGet_mapSet_ne _ _ _ _ he]
          exact hzero j (List.mem_cons_of_mem _ hj))
      hpair.2
    refine ⟨m1, ?_, ?_⟩
    · simp only [labelLoop, sliceGet_nat h i hi]
      exact h1
    · rw [h2, List.map_cons, List.sum_cons]
      omega

theorem map_getD_range' (mid rest : List Nat) : ∀ pre : List Nat,
    (List.range' pre.length mid.length).map (fun i => (pre ++ (mid ++ rest)).getD i 0) = mid := by
  induction mid with
  | nil => intro pre; simp
  | cons x mid ih =>
    intro pre
    have h := ih (pre ++ [x])
    simp only [List.length_append, List.length_singleton, List.append_assoc,
      List.singleton_append] at h
    simp only [List.length_cons, List.range'_succ, List.map_cons, List.cons_append]
    rw [h]
    congr 1
    rw [List.getD_eq_getElem?_getD, List.getElem?_append_right (le_refl _)]
    simp

theorem sum_eq_ends (h : List Nat) (hn : 2 ≤ h.length) :
    h.sum = h.getD 0 0 + h.getD (h.length - 1) 0 +
      ((List.range' 1 (h.length - 2)).map (fun i => h.getD i 0)).sum := by
  cases h with
  | nil => simp at hn
  | cons a t =>
    have hne : t ≠ [] := by
      intro e; subst e; simp at hn
    obtain ⟨mid, z, rfl⟩ : ∃ mid z, t = mid ++ [z] :=
      ⟨t.dropLast, t.getLast hne, (List.dropLast_append_getLast hne).symm⟩
    have hm := map_getD_range' mid [z] [a]
    simp only [List.length_singleton, List.singleton_append] at hm
    have hl : (a :: (mid ++ [z])).length - 2 = mid.length := by simp
    have hlast : (a :: (mid ++ [z])).getD ((a :: (mid ++ [z])).length - 1) 0 = z := by
      have : (a :: (mid ++ [z])).length - 1 = (a :: mid).length := by simp
      rw [this, List.getD_eq_getElem?_getD]
      rw [show a :: (mid ++ [z]) = (a :: mid) ++ [z] from rfl,
        List.getElem?_append_right (le_refl _)]
      simp
    rw [hl, hm, hlast]
    simp only [List.sum_cons, List.sum_append, List.sum_nil, List.getD_cons_zero]
    omega

theorem labelDistribution_total (cfg : EntryConfig) (h : List Nat) (hv : ValidConfig cfg)
    (hlen : h.length = cfg.TimeConsumingDistributionSplit.toNat)
    (hz : cfg.timeConsumingRange = 0 → ∀ i, 1 ≤ i → i + 1 < h.length → h.getD i 0 = 0) :
    ∃ dist, labelDistribution cfg (some h) = some dist ∧ labeledTotal dist = h.sum := by
  obtain ⟨v1, v2, v3, v4, v5⟩ := hv
  obtain ⟨n, hn⟩ : ∃ n : Nat, cfg.TimeConsumingDistributionSplit = (n : Int) :=
    ⟨cfg.TimeConsumingDistributionSplit.toNat, (Int.toNat_of_nonneg (by omega)).symm⟩
  rw [hn] at v1 v2 v5 hlen
  simp only [Int.toNat_ofNat] at hlen
  have hn3 : 3 ≤ n := by omega
  have hn20 : n ≤ 20 := by omega
  have hu : u32 = 4294967296 := by norm_num [u32]
  have hd : toU32 ((n : Int) - 2) = n - 2 := by
    unfold toU32
    rw [hu]
    omega
  have hsub : subU32 cfg.TimeConsumingDistributionMax cfg.TimeConsumingDistributionMin =
      cfg.TimeConsumingDistributionMax - cfg.TimeConsumingDistributionMin := by
    unfold subU32
    rw [hu] at v4 ⊢
    omega
  have hr : ((n : Int) - 2).toNat = n - 2 := by omega
  rw [hr] at v5
  have hlast : ((n : Int) - 1) = ((n - 1 : Nat) : Int) := by omega
  have hcnt : ((n : Int) - 1).toNat - 1 = n - 2 := by omega
  have hmul : cfg.timeConsumingRange * (n - 2) ≤
      cfg.TimeConsumingDistributionMax - cfg.TimeConsumingDistributionMin := by
    rw [v5]; exact Nat.div_mul_le_self _ _
  have hloop := labelLoop_total cfg cfg.timeConsumingRange h (List.range' 1 (n - 2))
    [("<" ++ FormatUint cfg.TimeConsumingDistributionMin, h.getD 0 0),
      (">" ++ FormatUint cfg.TimeConsumingDistributionMax, h.getD (n - 1) 0)]
    (by
      intro i hi
      rw [List.mem_range'_1] at hi
      omega)
    (by
      intro i _
      have h1 := rangeLabel_ne_bound cfg cfg.timeConsumingRange i
        cfg.TimeConsumingDistributionMin '<' (by decide)
      have h2 := rangeLabel_ne_bound cfg cfg.timeConsumingRange i
        cfg.TimeConsumingDistributionMax '>' (by decide)
      have e1 : String.singleton '<' = "<" := rfl
      have e2 : String.singleton '>' = ">" := rfl
      rw [e1] at h1
      rw [e2] at h2
      simp [mapGet, Ne.symm h1, Ne.symm h2])
    (by
      refine List.Pairwise.imp_of_mem ?_ (List.pairwise_lt_range' 1 (n - 2))
      intro i j hi hj hij he
      rw [List.mem_range'_1] at hi hj
      have hs := rangeLabel_start_eq cfg cfg.timeConsumingRange i j he
      have b1 : (i - 1) * cfg.timeConsumingRange ≤ cfg.timeConsumingRange * (n - 2) := by
        rw [Nat.mul_comm]; exact Nat.mul_le_mul_left _ (by omega)
      have b2 : (j - 1) * cfg.timeConsumingRange ≤ cfg.timeConsumingRange * (n - 2) := by
        rw [Nat.mul_comm]; exact Nat.mul_le_mul_left _ (by omega)
      rw [hu] at hs v4
      rw [Nat.mod_eq_of_lt (show i - 1 < 4294967296 by omega),
        Nat.mod_eq_of_lt (show j - 1 < 4294967296 by omega),
        Nat.mod_eq_of_lt (show (i - 1) * cfg.timeConsumingRange < 4294967296 by omega),
        Nat.mod_eq_of_lt (show (j - 1) * cfg.timeConsumingRange < 4294967296 by omega),
        Nat.mod_eq_of_lt (by omega), Nat.mod_eq_of_lt (by omega)] at hs
      have hzero : cfg.timeConsumingRange = 0 := by
        by_contra hne
        have hpos : 0 < cfg.timeConsumingRange := Nat.pos_of_ne_zero hne
        have : (i - 1) * cfg.timeConsumingRange < (j - 1) * cfg.timeConsumingRange :=
          Nat.mul_lt_mul_of_pos_right (by omega) hpos
        omega
      exact hz hzero i (by omega) (by omega))
  obtain ⟨m1, hm1, hm2⟩ := hloop
  refine ⟨m1, ?_, ?_⟩
  · unfold labelDistribution
    simp only [hn, hd, hsub, ← v5, hcnt]
    rw [if_neg (by omega)]
    have g0 : sliceGet h 0 = some (h.getD 0 0) := sliceGet_nat h 0 (by omega)
    have g1 : sliceGet h ((n : Int) - 1) = some (h.getD (n - 1) 0) := by
      rw [hlast]; exact sliceGet_nat h (n - 1) (by omega)
    have hne : ¬ ("<" ++ FormatUint cfg.TimeConsumingDistributionMin =
        ">" ++ FormatUint cfg.TimeConsumingDistributionMax) := by
      intro e
      have := congrArg String.data e
      simp only [String.data_append] at this
      have h2 := congrArg List.head? this
      simp at h2
    simp only [Option.bind_eq_bind, Option.some_bind, g0, g1, mapSet, hne, if_false]
    exact hm1
  · rw [hm2, sum_eq_ends h (by omega), hlen]
    simp [labeledTotal]

theorem getD_set_ne (l : List Nat) (i j v : Nat) (h : i ≠ j) :
    (l.set i v).getD j 0 = l.getD j 0 := by
  rw [List.getD_eq_getElem?_getD, List.getD_eq_getElem?_getD, List.getElem?_set_ne h]

theorem bucketIndex_range_zero (cfg : EntryConfig) (ms : Nat) (idx : Int)
    (hz : cfg.timeConsumingRange = 0) (hb : bucketIndex cfg ms = some idx) :
    idx = 0 ∨ idx = cfg.TimeConsumingDistributionSplit - 1 := by
  unfold bucketIndex at hb
  split_ifs at hb with h1 h2
  · left; exact (Option.some.inj hb).symm
  · right; exact (Option.some.inj hb).symm

theorem recordReports_middle_zero (c : ReportClientConfig) (d0 : reportData)
    (h0 : IsReset d0) (hz : d0.Config.timeConsumingRange = 0) (rs : List reportServer) :
    ∀ d, recordReports c d0 rs = some d → ∀ h, histStart d = some h →
      ∀ i : Nat, 1 ≤ i → (i : Int) < d0.Config.TimeConsumingDistributionSplit - 1 →
        h.getD i 0 = 0 := by
  induction rs using List.reverseRecOn with
  | nil =>
    intro d hd h hh i _ _
    simp only [recordReports, Option.some.injEq] at hd
    subst hd
    obtain ⟨_, rfl⟩ := histStart_reset d0 h0 h hh
    rw [List.getD_eq_getElem?_getD, List.getElem?_replicate]
    split_ifs <;> rfl
  | append_singleton rs r ih =>
    intro d hd h hh i hi1 hi2
    obtain ⟨d1, h1, h2⟩ := recordReports_snoc c d0 d rs r hd
    obtain ⟨hist, hist1, a, b, _, hcase⟩ := recordReport_hist c d1 d r h2
    have hh1 : h = hist1 := by
      rw [histStart_of_some d hist1 b] at hh
      exact (Option.some.inj hh).symm
    subst hh1
    have hprev := ih d1 h1 hist a i hi1 hi2
    obtain ⟨_, _, _, _, _, i6, _, _⟩ := recordReports_counts c d0 h0 rs d1 h1
    rcases hcase with ⟨_, rfl⟩ | ⟨_, idx, hb, hi⟩
    · exact hprev
    · rw [i6] at hb
      have hidx := bucketIndex_range_zero d0.Config r.Ms idx hz hb
      unfold sliceIncr at hi
      split_ifs at hi with hc
      simp only [Option.some.injEq] at hi
      subst hi
      rw [getD_set_ne _ _ _ _ (by rcases hidx with e | e <;> omega)]
      exact hprev

theorem successes_take_le (c : ReportClientConfig) (rs : List reportServer) (k : Nat) :
    (successes c (rs.take k)).length ≤ (successes c rs).length := by
  have h : successes c rs = successes c (rs.take k) ++ successes c (rs.drop k) := by
    unfold successes
    rw [← List.filter_append, List.take_append_drop]
  rw [h, List.length_append]
  omega

theorem recordReports_take (c : ReportClientConfig) (d0 d : reportData)
    (rs : List reportServer) (k : Nat) (h : recordReports c d0 rs = some d) :
    ∃ dk, recordReports c d0 (rs.take k) = some dk := by
  rw [← List.take_append_drop k rs, recordReports_append] at h
  cases hk : recordReports c d0 (rs.take k) with
  | none => rw [hk] at h; simp at h
  | some dk => exact ⟨dk, rfl⟩

theorem statisticsRecord_of_dist (c : ReportClientConfig) (snap : reportData)
    (dist : List (String × Nat))
    (h : labelDistribution snap.Config snap.TimeConsumingDistribution = some dist) :
    ∃ o, statisticsRecord c snap = some o ∧ o.TimeConsumingDistribution = dist ∧
      o.SuccessCount = snap.SuccessCount := by
  cases ho : statisticsRecord c snap with
  | none =>
    unfold statisticsRecord at ho
    rw [h] at ho
    simp at ho
  | some o =>
    obtain ⟨dist1, h1, h2⟩ := statisticsRecord_some c snap o ho
    rw [h] at h1
    simp only [Option.some.injEq] at h1
    subst h1
    subst h2
    exact ⟨_, rfl, rfl, rfl⟩

/-- Runs of `n1` successes of 90 ms, then `n2` successes of 600 ms, then a flush, on the
new entry of the examples. -/
theorem example_run_mixed (n1 n2 : Nat) (hn2 : 0 < n2)
    (hnz : (n1 % u32 + n2) % u32 ≠ 0) :
    ((collect exampleClient exampleState
        ((List.replicate n1 (⟨"GET /users", 90, 200⟩ : reportServer) ++
            List.replicate n2 (⟨"GET /users", 600, 200⟩ : reportServer)).map taskQueue.SERVER ++
          [taskQueue.CLEAR ⟨"GET /users", 7⟩])).bind
        (fun s => s.statisticsChannel.head?.bind (statisticsRecord exampleClient))).map
        (fun o => (o.SuccessCount, labeledTotal o.TimeConsumingDistribution)) =
      some ((n1 % u32 + n2) % u32, n1 % u32 + n2 % u32) := by
  obtain ⟨d1, a1, a2, a3, a4, a5, a6⟩ := recordReports_replicate exampleClient
    ⟨"GET /users", 90, 200⟩ 0 (by rfl) n1 (entryStart exampleState "GET /users")
    [0, 0, 0, 0, 0, 0, 0, 0, 0, 0] (by rfl) (by decide) (by rfl) (by decide) (by decide)
  have hpos : 0 < u32 := by unfold u32; positivity
  have e1 : (entryStart exampleState "GET /users").Config = defaultEntryConfig := rfl
  have e0 : (entryStart exampleState "GET /users").SuccessCount = 0 := rfl
  have ef : (entryStart exampleState "GET /users").FailCount = 0 := rfl
  rw [e1] at a5
  rw [e0, Nat.zero_add] at a3
  have a2' : histStart d1 = some [n1 % u32, 0, 0, 0, 0, 0, 0, 0, 0, 0] := by
    rw [a2]; simp
  obtain ⟨d2, b1, b2, b3, b4, b5, b6⟩ := recordReports_replicate exampleClient
    ⟨"GET /users", 600, 200⟩ 9 (by rfl) n2 d1 [n1 % u32, 0, 0, 0, 0, 0, 0, 0, 0, 0] a2'
    (by simp) (by rw [a5]; rfl) (by rw [a3]; exact Nat.mod_lt _ hpos) (by simp [hpos])
  have b2' : histStart d2 = some [n1 % u32, 0, 0, 0, 0, 0, 0, 0, 0, n2 % u32] := by
    rw [b2]; simp
  have hrun : recordReports exampleClient (entryStart exampleState "GET /users")
      (List.replicate n1 (⟨"GET /users", 90, 200⟩ : reportServer) ++
        List.replicate n2 (⟨"GET /users", 600, 200⟩ : reportServer)) = some d2 := by
    rw [recordReports_append, a1]
    exact b1
  obtain ⟨hist, hh⟩ := recordReports_hist_some exampleClient d1 d2 _
    (replicate_ne_nil n2 _ hn2) b1
  have hhist : d2.TimeConsumingDistribution =
      some [n1 % u32, 0, 0, 0, 0, 0, 0, 0, 0, n2 % u32] := by
    rw [histStart_of_some d2 hist hh] at b2'
    rw [hh, b2']
  have hc : d2.Config = defaultEntryConfig := by rw [b5, a5]
  have hsc : d2.SuccessCount = (n1 % u32 + n2) % u32 := by rw [b3, a3]
  have hname : ∀ r ∈ List.replicate n1 (⟨"GET /users", 90, 200⟩ : reportServer) ++
      List.replicate n2 (⟨"GET /users", 600, 200⟩ : reportServer), r.Name = "GET /users" := by
    intro r hr
    rcases List.mem_append.mp hr with h | h
    · exact mem_replicate_name n1 _ r h
    · exact mem_replicate_name n2 _ r h
  have hne : List.replicate n1 (⟨"GET /users", 90, 200⟩ : reportServer) ++
      List.replicate n2 (⟨"GET /users", 600, 200⟩ : reportServer) ≠ [] := by
    intro e
    exact replicate_ne_nil n2 _ hn2 (List.append_eq_nil.mp e).2
  obtain ⟨o, ho, ho1, ho2⟩ := statisticsRecord_of_dist exampleClient { d2 with Time := 7 }
    [("<100", n1 % u32), (">500", n2 % u32), ("100~150", 0), ("150~200", 0), ("200~250", 0),
      ("250~300", 0), ("300~350", 0), ("350~400", 0), ("400~450", 0), ("450~500", 0)]
    (by
      show labelDistribution d2.Config d2.TimeConsumingDistribution = _
      rw [hc, hhist]
      rfl)
  rw [collect_append, collect_server exampleClient "GET /users" _ exampleState hname hne, hrun]
  simp only [Option.map_some', Option.some_bind, collect, collectStep]
  rw [clearTask_known _ "GET /users" 7 d2 (by simp [mapGet, exampleState]),
    if_pos (Or.inl (by rw [hsc]; exact hnz)),
    resetReportData_some d2 (by rw [hc]; decide)]
  simp only [Option.map_some', Option.some_bind, exampleState, List.nil_append, List.head?_cons,
    ho, Option.some.injEq, Prod.mk.injEq]
  refine ⟨by rw [ho2]; exact hsc, ?_⟩
  rw [ho1]
  simp [labeledTotal]

/-! ## Configurations the code can hold -/

theorem defaultEntryConfig_valid : ValidConfig defaultEntryConfig := by
  refine ⟨by decide, by decide, by decide, by norm_num [u32, defaultEntryConfig], by decide⟩

theorem normalizeEntryConfig_fields (e cfg : EntryConfig)
    (h : normalizeEntryConfig e = some cfg) :
    cfg.TimeConsumingDistributionSplit =
        (if e.TimeConsumingDistributionSplit < 3 ∨ e.TimeConsumingDistributionSplit > 20
          then 10 else e.TimeConsumingDistributionSplit) ∧
      cfg.TimeConsumingDistributionMax =
        (if e.TimeConsumingDistributionMax ≤ 0 then 500 else e.TimeConsumingDistributionMax) ∧
      cfg.TimeConsumingDistributionMin =
        (if e.TimeConsumingDistributionMin ≤ 0 then 50 else e.TimeConsumingDistributionMin) ∧
      cfg.FastLessThan = (if e.FastLessThan ≤ 0 then 500 else e.FastLessThan) ∧
      cfg.TimeConsumingDistributionMin < cfg.TimeConsumingDistributionMax ∧
      cfg.timeConsumingRange =
        (cfg.TimeConsumingDistributionMax - cfg.TimeConsumingDistributionMin) /
          toU32 (cfg.TimeConsumingDistributionSplit - 2) := by
  by_cases c1 : e.FastLessThan ≤ 0 <;>
  by_cases c2 : e.TimeConsumingDistributionSplit < 3 ∨ e.TimeConsumingDistributionSplit > 20 <;>
  by_cases c3 : e.TimeConsumingDistributionMax ≤ 0 <;>
  by_cases c4 : e.TimeConsumingDistributionMin ≤ 0 <;>
  simp only [normalizeEntryConfig, c1, c2, c3, c4, if_true, if_false] at h ⊢ <;>
  split_ifs at h with h5 <;>
  simp only [Option.some.injEq] at h <;>
  subst h <;>
  exact ⟨rfl, rfl, rfl, rfl, Nat.lt_of_not_le h5, rfl⟩

theorem normalizeEntryConfig_valid (e cfg : EntryConfig)
    (hmax : e.TimeConsumingDistributionMax < u32)
    (h : normalizeEntryConfig e = some cfg) : ValidConfig cfg := by
  have hu : u32 = 4294967296 := by norm_num [u32]
  obtain ⟨f1, f2, _, _, f5, f6⟩ := normalizeEntryConfig_fields e cfg h
  have s1 : 3 ≤ cfg.TimeConsumingDistributionSplit ∧
      cfg.TimeConsumingDistributionSplit ≤ 20 := by
    rw [f1]; split_ifs <;> omega
  have s2 : cfg.TimeConsumingDistributionMax < u32 := by
    rw [f2]; split_ifs <;> omega
  refine ⟨s1.1, s1.2, f5, s2, ?_⟩
  rw [f6]
  congr 1
  unfold toU32
  rw [hu]
  obtain ⟨a, b⟩ := s1
  omega

theorem newReportData_isReset (s : ClientState) (name : String) :
    IsReset (newReportData s name) :=
  ⟨rfl, rfl, rfl, rfl, rfl, rfl, rfl, Or.inl rfl⟩

/-! ## The stored entry configuration in closed form -/

theorem toU32_small (i : Int) (h0 : 0 ≤ i) (h1 : i < 4294967296) : toU32 i = i.toNat := by
  unfold toU32
  have hu : u32 = 4294967296 := by norm_num [u32]
  rw [hu]
  omega

theorem normalizeEntryConfig_eq (e : EntryConfig) :
    normalizeEntryConfig e =
      (if (if e.TimeConsumingDistributionMax = 0 then 500 else e.TimeConsumingDistributionMax) ≤
          (if e.TimeConsumingDistributionMin = 0 then 50 else e.TimeConsumingDistributionMin)
        then none
        else some
          ⟨if e.FastLessThan = 0 then 500 else e.FastLessThan,
            if 3 ≤ e.TimeConsumingDistributionSplit ∧ e.TimeConsumingDistributionSplit ≤ 20
              then e.TimeConsumingDistributionSplit else 10,
            if e.TimeConsumingDistributionMax = 0 then 500 else e.TimeConsumingDistributionMax,
            if e.TimeConsumingDistributionMin = 0 then 50 else e.TimeConsumingDistributionMin,
            ((if e.TimeConsumingDistributionMax = 0 then 500
                else e.TimeConsumingDistributionMax) -
              (if e.TimeConsumingDistributionMin = 0 then 50
                else e.TimeConsumingDistributionMin)) /
              ((if 3 ≤ e.TimeConsumingDistributionSplit ∧
                  e.TimeConsumingDistributionSplit ≤ 20
                then e.TimeConsumingDistributionSplit else 10) - 2).toNat⟩) := by
  cases hn : normalizeEntryConfig e with
  | none =>
    by_cases c3 : e.TimeConsumingDistributionMax ≤ 0 <;>
    by_cases c4 : e.TimeConsumingDistributionMin ≤ 0 <;>
    by_cases c1 : e.FastLessThan ≤ 0 <;>
    by_cases c2 : e.TimeConsumingDistributionSplit < 3 ∨ e.TimeConsumingDistributionSplit > 20 <;>
    simp only [normalizeEntryConfig, c1, c2, c3, c4, if_true, if_false] at hn <;>
    split_ifs at hn with h5 <;>
    simp only [Nat.le_zero] at c3 c4 <;>
    simp only [c3, c4, if_true, if_false] <;>
    rw [if_pos h5]
  | some cfg =>
    obtain ⟨f1, f2, f3, f4, f5, f6⟩ := normalizeEntryConfig_fields e cfg hn
    have hs : (if e.TimeConsumingDistributionSplit < 3 ∨ e.TimeConsumingDistributionSplit > 20
          then (10 : Int) else e.TimeConsumingDistributionSplit) =
        (if 3 ≤ e.TimeConsumingDistributionSplit ∧ e.TimeConsumingDistributionSplit ≤ 20
          then e.TimeConsumingDistributionSplit else 10) := by
      split_ifs <;> omega
    have hsb : 3 ≤ cfg.TimeConsumingDistributionSplit ∧
        cfg.TimeConsumingDistributionSplit ≤ 20 := by
      rw [f1]; split_ifs <;> omega
    have hu := toU32_small (cfg.TimeConsumingDistributionSplit - 2) (by omega) (by omega)
    simp only [Nat.le_zero] at f2 f3 f4
    rw [hs] at f1
    rw [hu] at f6
    rw [← f1, ← f2, ← f3, ← f4, if_neg (by omega), ← f6]

/-! ## Both metrics of the alert state machine -/

theorem alertAnalyze_kindStatus (c : ReportClientConfig) (s : ClientState) (e : String)
    (o : OutPutData) (kind : AlertType) (hk : kind ≠ AlertType.NONE) :
    kindStatus (alertAnalyze c s e o).1 kind e = (kindStep c e kind o (kindStatus s kind e)).1 := by
  cases kind with
  | NONE => exact absurd rfl hk
  | FAIL =>
    simp [alertAnalyze, kindStatus, successStatus, kindStep, alertTimes, recoverTimes,
      badWindow, mapGet_mapSet_self]
  | SLOW =>
    simp [alertAnalyze, kindStatus, fastStatus, kindStep, alertTimes, recoverTimes, badWindow,
      mapGet_mapSet_self]

theorem alertAnalyze_notes (c : ReportClientConfig) (s : ClientState) (e : String)
    (o : OutPutData) :
    (alertAnalyze c s e o).2 =
      (kindStep c e AlertType.SLOW o (kindStatus s AlertType.SLOW e)).2 ++
        (kindStep c e AlertType.FAIL o (kindStatus s AlertType.FAIL e)).2 := by
  simp [alertAnalyze, kindStatus, successStatus, fastStatus, kindStep, alertTimes,
    recoverTimes, badWindow]

theorem kindStep_alertType (c : ReportClientConfig) (e : String) (kind : AlertType)
    (o : OutPutData) (cur : alertStatus) :
    ∀ x ∈ (kindStep c e kind o cur).2, x.alertType = kind :=
  metricStep_alertType c e kind _ _ _ o cur

theorem alertAnalyze_notesOf_slow (c : ReportClientConfig) (s : ClientState) (e : String)
    (o : OutPutData) :
    notesOf AlertType.SLOW (alertAnalyze c s e o).2 =
      (kindStep c e AlertType.SLOW o (fastStatus s e)).2 := by
  rw [alertAnalyze_notes]
  unfold notesOf
  rw [List.filter_append]
  have h1 := notesOf_eq_self AlertType.SLOW _
    (kindStep_alertType c e AlertType.SLOW o (kindStatus s AlertType.SLOW e))
  have h2 := notesOf_eq_nil AlertType.SLOW AlertType.FAIL _
    (kindStep_alertType c e AlertType.FAIL o (kindStatus s AlertType.FAIL e)) (by decide)
  unfold notesOf at h1 h2
  rw [h1, h2]
  simp [kindStatus]


theorem suffix_snoc {α : Type} (a seen : List α) (o : α) (h : List.IsSuffix a seen) :
    List.IsSuffix (a ++ [o]) (seen ++ [o]) := by
  obtain ⟨t, ht⟩ := h
  exact ⟨t, by rw [← ht, List.append_assoc]⟩

theorem kindStep_tracks (c : ReportClientConfig) (e : String) (kind : AlertType)
    (o : OutPutData) (cur : alertStatus) (seen : List OutPutData)
    (hk : kind ≠ AlertType.NONE) (hn : 1 ≤ alertTimes c kind) (hm : 1 ≤ recoverTimes c kind)
    (h : Tracks c kind seen cur) :
    Tracks c kind (seen ++ [o]) (kindStep c e kind o cur).1 ∧
      ∀ x ∈ (kindStep c e kind o cur).2, x.alertType = kind ∧ Payload c (seen ++ [o]) x := by
  obtain ⟨hst, hsuf, hbad, hlt, hrec⟩ := h
  have hk2 : AlertType.NONE ≠ kind := fun h => hk h.symm
  unfold kindStep metricStep
  cases hb : badWindow c kind o
  · simp only [Bool.false_eq_true, if_false]
    by_cases hs : cur.curState = kind
    · obtain ⟨rsuf, rgood, rlt⟩ := hrec hs
      have hgood : ∀ w ∈ cur.recentRecoverOutput ++ [o], badWindow c kind w = false := by
        intro w hw
        rcases List.mem_append.mp hw with h1 | h1
        · exact rgood w h1
        · rw [List.mem_singleton.mp h1]; exact hb
      rw [if_pos hs]
      by_cases hfire : ((cur.recentRecoverOutput ++ [o]).length : Int) ≥ recoverTimes c kind
      · rw [if_pos hfire]
        refine ⟨⟨Or.inl rfl, List.nil_suffix, by simp, fun _ => by simpa using hn,
          fun h => absurd h hk2⟩, ?_⟩
        intro x hx
        rw [List.mem_singleton.mp hx]
        refine ⟨rfl, suffix_snoc _ _ _ rsuf, fun h => by simp at h, fun _ => ⟨?_, hgood⟩⟩
        simp only [List.length_append, List.length_singleton, Nat.cast_add, Nat.cast_one] at hfire ⊢
        omega
      · rw [if_neg hfire]
        refine ⟨⟨Or.inr hs, List.nil_suffix, by simp, fun _ => by simpa using hn,
          fun _ => ⟨suffix_snoc _ _ _ rsuf, hgood, by
            show ((cur.recentRecoverOutput ++ [o]).length : Int) < _
            omega⟩⟩, by simp⟩
    · rw [if_neg hs]
      have hnone : cur.curState = AlertType.NONE := hst.resolve_right hs
      refine ⟨⟨Or.inl hnone, List.nil_suffix, by simp, fun _ => by simpa using hn,
        fun h => absurd h hs⟩, by simp⟩
  · simp only [if_true]
    have hbad2 : ∀ w ∈ cur.recentAlertOutput ++ [o], badWindow c kind w = true := by
      intro w hw
      rcases List.mem_append.mp hw with h1 | h1
      · exact hbad w h1
      · rw [List.mem_singleton.mp h1]; exact hb
    have hrnil : (if cur.recentRecoverOutput.length > 0 then []
        else cur.recentRecoverOutput) = [] := by
      split_ifs with h1
      · rfl
      · exact List.length_eq_zero.mp (by omega)
    rw [hrnil]
    by_cases hfire : cur.curState = AlertType.NONE ∧
        ((cur.recentAlertOutput ++ [o]).length : Int) ≥ alertTimes c kind
    · rw [if_pos hfire]
      have hl := hlt hfire.1
      refine ⟨⟨Or.inr rfl, List.nil_suffix, by simp, fun h => absurd h.symm hk2,
        fun _ => ⟨List.nil_suffix, by simp, by simpa using hm⟩⟩, ?_⟩
      intro x hx
      rw [List.mem_singleton.mp hx]
      refine ⟨rfl, suffix_snoc _ _ _ hsuf, fun _ => ⟨?_, hbad2⟩, fun h => by simp at h⟩
      have := hfire.2
      simp only [List.length_append, List.length_singleton, Nat.cast_add, Nat.cast_one] at this ⊢
      omega
    · rw [if_neg hfire]
      refine ⟨⟨hst, suffix_snoc _ _ _ hsuf, hbad2, ?_, ?_⟩, by simp⟩
      · intro h1
        have : ¬ ((cur.recentAlertOutput ++ [o]).length : Int) ≥ alertTimes c kind :=
          fun h2 => hfire ⟨h1, h2⟩
        show ((cur.recentAlertOutput ++ [o]).length : Int) < _
        omega
      · intro h1
        exact ⟨List.nil_suffix, by simp, by simpa using hm⟩

theorem kindRun_payload (c : ReportClientConfig) (e : String) (kind : AlertType)
    (hk : kind ≠ AlertType.NONE) (hn : 1 ≤ alertTimes c kind) (hm : 1 ≤ recoverTimes c kind)
    (ws : List OutPutData) :
    ∀ (seen : List OutPutData) (cur : alertStatus), Tracks c kind seen cur →
      ∀ (i : Nat) (l : List Notification), (kindRun c e kind cur ws).2[i]? = some l →
        ∀ x ∈ l, x.alertType = kind ∧ Payload c (seen ++ ws.take (i + 1)) x := by
  induction ws with
  | nil => intro seen cur _ i l hl; simp [kindRun] at hl
  | cons w ws ih =>
    intro seen cur ht i l hl x hx
    obtain ⟨ht1, hnote⟩ := kindStep_tracks c e kind w cur seen hk hn hm ht
    cases i with
    | zero =>
      simp only [kindRun, List.getElem?_cons_zero, Option.some.injEq] at hl
      subst hl
      simpa using hnote x hx
    | succ j =>
      simp only [kindRun, List.getElem?_cons_succ] at hl
      have := ih (seen ++ [w]) _ ht1 j l hl x hx
      simpa using this

theorem newAlertStatus_tracks (c : ReportClientConfig) (kind : AlertType)
    (hk : kind ≠ AlertType.NONE) (hn : 1 ≤ alertTimes c kind) :
    Tracks c kind [] newAlertStatus :=
  ⟨Or.inl rfl, List.nil_suffix, by simp [newAlertStatus],
    fun _ => by simp only [newAlertStatus, List.length_nil, Nat.cast_zero]; omega,
    fun h => absurd h.symm hk⟩

theorem alertAnalyzeAll_notes (c : ReportClientConfig) (e : String) (ws : List OutPutData) :
    ∀ (s : ClientState) (i : Nat) (l : List Notification),
      (alertAnalyzeAll c e s ws).2[i]? = some l →
      ∃ a b, (kindRun c e AlertType.SLOW (kindStatus s AlertType.SLOW e) ws).2[i]? = some a ∧
        (kindRun c e AlertType.FAIL (kindStatus s AlertType.FAIL e) ws).2[i]? = some b ∧
        l = a ++ b := by
  induction ws with
  | nil => intro s i l hl; simp [alertAnalyzeAll] at hl
  | cons w ws ih =>
    intro s i l hl
    cases i with
    | zero =>
      simp only [alertAnalyzeAll, List.getElem?_cons_zero, Option.some.injEq] at hl
      refine ⟨(kindStep c e AlertType.SLOW w (kindStatus s AlertType.SLOW e)).2,
        (kindStep c e AlertType.FAIL w (kindStatus s AlertType.FAIL e)).2, ?_, ?_, ?_⟩
      · simp only [kindRun, List.getElem?_cons_zero]
      · simp only [kindRun, List.getElem?_cons_zero]
      · rw [← hl, alertAnalyze_notes]
    | succ j =>
      simp only [alertAnalyzeAll, List.getElem?_cons_succ] at hl
      obtain ⟨a, b, ha, hb, hab⟩ := ih _ j l hl
      rw [alertAnalyze_kindStatus c s e w AlertType.SLOW (by decide)] at ha
      rw [alertAnalyze_kindStatus c s e w AlertType.FAIL (by decide)] at hb
      exact ⟨a, b, by simpa [kindRun] using ha, by simpa [kindRun] using hb, hab⟩

theorem example_window_bad (t : Nat) (kind : AlertType) :
    badWindow exampleClient kind (exampleWindow t 1 1) = true := by
  cases kind <;>
    (simp [badWindow, exampleWindow, floatDiv, floatLt, exampleClient, u32]; norm_num)

theorem example_window_good (t : Nat) (kind : AlertType) :
    badWindow exampleClient kind (exampleWindow t 1 0) = false := by
  cases kind <;>
    (simp [badWindow, exampleWindow, floatDiv, floatLt, exampleClient, u32]; norm_num)

theorem alertAnalyze_eq (c : ReportClientConfig) (s : ClientState) (e : String)
    (o : OutPutData) :
    alertAnalyze c s e o =
      ({ s with
          recentFastRateStatus := mapSet s.recentFastRateStatus e
            (kindStep c e AlertType.SLOW o (fastStatus s e)).1
          recentSuccessRateStatus := mapSet s.recentSuccessRateStatus e
            (kindStep c e AlertType.FAIL o (successStatus s e)).1 },
        (kindStep c e AlertType.SLOW o (fastStatus s e)).2 ++
          (kindStep c e AlertType.FAIL o (successStatus s e)).2) := by
  rfl

theorem example_alert_run :
    (alertAnalyzeAll exampleClient "GET /users" exampleState
        [exampleWindow 1 1 1, exampleWindow 2 1 1, exampleWindow 3 1 1]).2[2]? =
      some [⟨false, false, "client", "GET /users", AlertType.SLOW,
          [exampleWindow 1 1 1, exampleWindow 2 1 1, exampleWindow 3 1 1]⟩,
        ⟨false, false, "client", "GET /users", AlertType.FAIL,
          [exampleWindow 1 1 1, exampleWindow 2 1 1, exampleWindow 3 1 1]⟩] := by
  simp only [alertAnalyzeAll, alertAnalyze_eq, kindStep, example_window_bad, metricStep]
  rfl

/-! ## Calls of `AddEntryConfig` after the first report -/

theorem entryStart_frame (s : ClientState) (name : String)
    (m : List (String × EntryConfig)) (k : String)
    (hacc : (mapGet s.collectDataMap name).isSome = true)
    (hm : ∀ k, k ≠ name → mapGet m k = mapGet s.entryConfigMap k) :
    entryStart { s with entryConfigMap := m } k = entryStart s k := by
  unfold entryStart
  cases hr : mapGet s.collectDataMap k with
  | some d => simp only [hr, Option.getD_some]
  | none =>
    have hne : k ≠ name := by
      intro h
      rw [h] at hr
      rw [hr] at hacc
      simp at hacc
    simp only [hr, Option.getD_none, newReportData, getEntryConfig, hm k hne]

theorem serverTask_frame (c : ReportClientConfig) (s : ClientState) (name : String)
    (m : List (String × EntryConfig)) (r : reportServer)
    (hacc : (mapGet s.collectDataMap name).isSome = true)
    (hm : ∀ k, k ≠ name → mapGet m k = mapGet s.entryConfigMap k) :
    serverTask c { s with entryConfigMap := m } r =
      (serverTask c s r).map (fun s1 => { s1 with entryConfigMap := m }) := by
  rw [serverTask_eq, serverTask_eq, entryStart_frame s name m r.Name hacc hm]
  cases recordReport c (entryStart s r.Name) r <;> rfl

theorem clearTask_frame (s : ClientState) (m : List (String × EntryConfig)) (d : clearData) :
    clearTask { s with entryConfigMap := m } d =
      (clearTask s d).map (fun s1 => { s1 with entryConfigMap := m }) := by
  simp only [clearTask]
  cases mapGet s.collectDataMap d.Name with
  | none => rfl
  | some cur =>
    simp only
    split_ifs
    · cases resetReportData cur <;> rfl
    · rfl

theorem collectStep_frame (c : ReportClientConfig) (s : ClientState) (name : String)
    (m : List (String × EntryConfig)) (t : taskQueue)
    (hacc : (mapGet s.collectDataMap name).isSome = true)
    (hm : ∀ k, k ≠ name → mapGet m k = mapGet s.entryConfigMap k) :
    collectStep c { s with entryConfigMap := m } t =
      (collectStep c s t).map (fun s1 => { s1 with entryConfigMap := m }) := by
  cases t with
  | SERVER r => exact serverTask_frame c s name m r hacc hm
  | CLEAR d => exact clearTask_frame s m d

theorem recordReport_Config (c : ReportClientConfig) (cur d : reportData) (r : reportServer)
    (h : recordReport c cur r = some d) : d.Config = cur.Config := by
  cases hs : codeSuccess c r.Code with
  | true =>
    obtain ⟨_, _, _, _, _, _, hd⟩ := recordReport_success c cur d r hs h
    rw [hd]
  | false =>
    obtain ⟨_, _, hd⟩ := recordReport_failure c cur d r hs h
    rw [hd]

theorem collectStep_keeps (c : ReportClientConfig) (s s1 : ClientState) (name : String)
    (t : taskQueue) (d : reportData) (hd : mapGet s.collectDataMap name = some d)
    (h : collectStep c s t = some s1) :
    s1.entryConfigMap = s.entryConfigMap ∧
      ∃ d1, mapGet s1.collectDataMap name = some d1 ∧ d1.Config = d.Config := by
  cases t with
  | SERVER r =>
    simp only [collectStep, serverTask_eq] at h
    cases hr : recordReport c (entryStart s r.Name) r with
    | none => rw [hr] at h; simp at h
    | some d1 =>
      rw [hr] at h
      simp only [Option.map_some', Option.some.injEq] at h
      subst h
      refine ⟨rfl, ?_⟩
      by_cases hn : r.Name = name
      · refine ⟨d1, by simp only [hn, mapGet_mapSet_self], ?_⟩
        have hes : entryStart s r.Name = d := by
          unfold entryStart
          rw [hn, hd]; rfl
        rw [hes] at hr
        exact recordReport_Config c d d1 r hr
      · exact ⟨d, by simp only [mapGet_mapSet_ne _ _ _ _ hn, hd], rfl⟩
  | CLEAR x =>
    simp only [collectStep, clearTask] at h
    cases hx : mapGet s.collectDataMap x.Name with
    | none => rw [hx] at h; simp at h
    | some cur =>
      rw [hx] at h
      simp only at h
      split_ifs at h with hnz
      · cases hres : resetReportData cur with
        | none => rw [hres] at h; simp at h
        | some d1 =>
          rw [hres] at h
          simp only [Option.some.injEq] at h
          subst h
          refine ⟨rfl, ?_⟩
          by_cases hn : x.Name = name
          · refine ⟨d1, by simp only [hn, mapGet_mapSet_self], ?_⟩
            rw [hn, hd] at hx
            simp only [Option.some.injEq] at hx
            subst hx
            unfold resetReportData at hres
            cases hmk : makeSlice d.Config.TimeConsumingDistributionSplit with
            | none => rw [hmk] at hres; simp at hres
            | some hist =>
              rw [hmk] at hres
              simp only [Option.some.injEq] at hres
              rw [← hres]
          · exact ⟨d, by simp only [mapGet_mapSet_ne _ _ _ _ hn, hd], rfl⟩
      · simp only [Option.some.injEq] at h
        subst h
        exact ⟨rfl, d, hd, rfl⟩

theorem runCalls_frame (c : ReportClientConfig) (name : String) (calls : List clientCall) :
    ∀ (s : ClientState) (m : List (String × EntryConfig)) (d : reportData) (s2 : ClientState),
      mapGet s.collectDataMap name = some d →
      (∀ k, k ≠ name → mapGet m k = mapGet s.entryConfigMap k) →
      runCalls c { s with entryConfigMap := m } calls = some s2 →
      ∃ s3, runCalls c s (withoutConfig name calls) = some s3 ∧
        s2.collectDataMap = s3.collectDataMap ∧
        s2.statisticsChannel = s3.statisticsChannel ∧
        ∃ d2, mapGet s2.collectDataMap name = some d2 ∧ d2.Config = d.Config := by
  induction calls with
  | nil =>
    intro s m d s2 hd _ h
    simp only [runCalls, Option.some.injEq] at h
    subst h
    exact ⟨s, rfl, rfl, rfl, d, hd, rfl⟩
  | cons x xs ih =>
    intro s m d s2 hd hm h
    cases x with
    | TASK t =>
      have hacc : (mapGet s.collectDataMap name).isSome = true := by rw [hd]; rfl
      simp only [runCalls, callStep, collectStep_frame c s name m t hacc hm] at h
      cases ht : collectStep c s t with
      | none => rw [ht] at h; simp at h
      | some s1 =>
        rw [ht] at h
        simp only [Option.map_some'] at h
        obtain ⟨hcfg, d1, hd1, hc1⟩ := collectStep_keeps c s s1 name t d hd ht
        obtain ⟨s3, h3, e1, e2, d2, hd2, hc2⟩ := ih s1 m d1 s2 hd1
          (fun k hk => by rw [hcfg]; exact hm k hk) h
        refine ⟨s3, ?_, e1, e2, d2, hd2, by rw [hc2, hc1]⟩
        simp only [withoutConfig, List.filter_cons, if_true, runCalls, callStep, ht]
        exact h3
    | CONFIG n cfg =>
      simp only [runCalls, callStep, AddEntryConfig] at h
      cases hc : normalizeEntryConfig cfg with
      | none => rw [hc] at h; simp at h
      | some e =>
        rw [hc] at h
        simp only at h
        by_cases hn : n = name
        · subst hn
          obtain ⟨s3, h3, rest⟩ := ih s (mapSet m n e) d s2 hd
            (fun k hk => by rw [mapGet_mapSet_ne _ _ _ _ (Ne.symm hk)]; exact hm k hk) h
          refine ⟨s3, ?_, rest⟩
          simpa [withoutConfig] using h3
        · obtain ⟨s3, h3, rest⟩ := ih { s with entryConfigMap := mapSet s.entryConfigMap n e }
            (mapSet m n e) d s2 hd
            (fun k hk => by
              by_cases hkn : n = k
              · subst hkn; simp only [mapGet_mapSet_self]
              · rw [mapGet_mapSet_ne _ _ _ _ hkn, mapGet_mapSet_ne _ _ _ _ hkn]
                exact hm k hk) h
          refine ⟨s3, ?_, rest⟩
          simp only [withoutConfig, List.filter_cons, hn, ne_eq, not_false_eq_true,
            decide_True, if_true, runCalls, callStep, AddEntryConfig, hc]
          exact h3

/-! ## The reference hysteresis machine -/

theorem notesOf_append (kind : AlertType) (a b : List Notification) :
    notesOf kind (a ++ b) = notesOf kind a ++ notesOf kind b := by
  unfold notesOf
  rw [List.filter_append]

theorem alertAnalyze_notesOf_kind (c : ReportClientConfig) (s : ClientState) (e : String)
    (o : OutPutData) (kind : AlertType) (hk : kind ≠ AlertType.NONE) :
    notesOf kind (alertAnalyze c s e o).2 = (kindStep c e kind o (kindStatus s kind e)).2 := by
  rw [alertAnalyze_notes, notesOf_append]
  cases kind with
  | NONE => exact absurd rfl hk
  | FAIL =>
    rw [notesOf_eq_nil AlertType.FAIL AlertType.SLOW _
        (kindStep_alertType c e AlertType.SLOW o _) (by decide),
      notesOf_eq_self AlertType.FAIL _ (kindStep_alertType c e AlertType.FAIL o _)]
    rfl
  | SLOW =>
    rw [notesOf_eq_self AlertType.SLOW _ (kindStep_alertType c e AlertType.SLOW o _),
      notesOf_eq_nil AlertType.SLOW AlertType.FAIL _
        (kindStep_alertType c e AlertType.FAIL o _) (by decide)]
    simp

theorem alertAnalyzeAll_kind (c : ReportClientConfig) (e : String) (kind : AlertType)
    (hk : kind ≠ AlertType.NONE) (ws : List OutPutData) :
    ∀ s : ClientState,
      kindStatus (alertAnalyzeAll c e s ws).1 kind e =
          (kindRun c e kind (kindStatus s kind e) ws).1 ∧
        (alertAnalyzeAll c e s ws).2.map (notesOf kind) =
          (kindRun c e kind (kindStatus s kind e) ws).2 := by
  induction ws with
  | nil => intro s; simp [alertAnalyzeAll, kindRun]
  | cons o os ih =>
    intro s
    have h := ih (alertAnalyze c s e o).1
    simp only [alertAnalyzeAll, kindRun, List.map_cons]
    rw [alertAnalyze_kindStatus c s e o kind hk] at h
    rw [alertAnalyze_notesOf_kind c s e o kind hk]
    exact ⟨h.1, by rw [h.2]⟩

theorem kindStep_matches (c : ReportClientConfig) (e : String) (kind : AlertType)
    (hk : kind ≠ AlertType.NONE) (o : OutPutData) (cur : alertStatus) (r : referenceState)
    (h : Matches kind cur r) :
    Matches kind (kindStep c e kind o cur).1
        (referenceStep (alertTimes c kind) (recoverTimes c kind) (badWindow c kind o) o r).1 ∧
      (kindStep c e kind o cur).2.map eventOf =
        (referenceStep (alertTimes c kind) (recoverTimes c kind) (badWindow c kind o) o r).2 := by
  obtain ⟨hst, hal, hbad, hgood⟩ := h
  have hk2 : AlertType.NONE ≠ kind := fun h => hk h.symm
  obtain ⟨ra, rb, rg⟩ := r
  simp only at hal hbad hgood
  subst hbad
  unfold kindStep metricStep referenceStep
  cases hb : badWindow c kind o
  · simp only [Bool.false_eq_true, if_false]
    by_cases hs : cur.curState = kind
    · have hg := hgood hs
      subst hg
      simp only [hs, decide_True] at hal
      subst hal
      simp only [hs, if_true]
      by_cases hfire : ((cur.recentRecoverOutput ++ [o]).length : Int) ≥ recoverTimes c kind
      · simp only [if_pos hfire]
        refine ⟨⟨Or.inl rfl, ?_, rfl, fun h => absurd h hk2⟩, ?_⟩
        · simp [hk2]
        · simp [eventOf]
      · simp only [if_neg hfire]
        refine ⟨⟨Or.inr rfl, ?_, rfl, fun _ => rfl⟩, ?_⟩
        · simp
        · simp
    · have hnone : cur.curState = AlertType.NONE := hst.resolve_right hs
      simp only [hs, decide_False] at hal
      subst hal
      simp only [hs, if_false, Bool.false_eq_true]
      refine ⟨⟨Or.inl hnone, ?_, rfl, fun h => absurd h hs⟩, ?_⟩
      · simp [hs]
      · simp
  · simp only [if_true]
    have hrnil : (if cur.recentRecoverOutput.length > 0 then []
        else cur.recentRecoverOutput) = [] := by
      split_ifs with h1
      · rfl
      · exact List.length_eq_zero.mp (by omega)
    rw [hrnil]
    by_cases hs : cur.curState = kind
    · simp only [hs, decide_True] at hal
      subst hal
      have hnn : ¬ (cur.curState = AlertType.NONE ∧
          ((cur.recentAlertOutput ++ [o]).length : Int) ≥ alertTimes c kind) := by
        intro h; rw [hs] at h; exact hk h.1
      rw [if_neg hnn, if_neg (by simp)]
      refine ⟨⟨Or.inr hs, ?_, rfl, fun _ => rfl⟩, ?_⟩
      · simp [hs]
      · simp
    · have hnone : cur.curState = AlertType.NONE := hst.resolve_right hs
      simp only [hs, decide_False] at hal
      subst hal
      by_cases hfire : ((cur.recentAlertOutput ++ [o]).length : Int) ≥ alertTimes c kind
      · rw [if_pos ⟨hnone, hfire⟩, if_pos ⟨rfl, hfire⟩]
        refine ⟨⟨Or.inr rfl, ?_, rfl, fun _ => rfl⟩, ?_⟩
        · simp
        · simp [eventOf]
      · rw [if_neg (fun h => hfire h.2), if_neg (fun h => hfire h.2)]
        refine ⟨⟨Or.inl hnone, ?_, rfl, fun h => absurd h hs⟩, ?_⟩
        · simp [hs]
        · simp

theorem kindRun_matches (c : ReportClientConfig) (e : String) (kind : AlertType)
    (hk : kind ≠ AlertType.NONE) (ws : List OutPutData) :
    ∀ (cur : alertStatus) (r : referenceState), Matches kind cur r →
      (kindRun c e kind cur ws).2.map (fun l => l.map eventOf) =
        referenceRun (alertTimes c kind) (recoverTimes c kind) (badWindow c kind) r ws := by
  induction ws with
  | nil => intro cur r _; simp [kindRun, referenceRun]
  | cons w ws ih =>
    intro cur r h
    obtain ⟨h1, h2⟩ := kindStep_matches c e kind hk w cur r h
    simp only [kindRun, referenceRun, List.map_cons]
    rw [h2, ih _ _ h1]

theorem newAlertStatus_matches (kind : AlertType) (hk : kind ≠ AlertType.NONE) :
    Matches kind newAlertStatus referenceInit := by
  refine ⟨Or.inl rfl, ?_, rfl, fun h => absurd h.symm hk⟩
  have : ¬ newAlertStatus.curState = kind := fun h => hk h.symm
  simp [referenceInit, this]

theorem kindRun_bad_alerting (c : ReportClientConfig) (e : String) (kind : AlertType)
    (hk : kind ≠ AlertType.NONE) (ws : List OutPutData) :
    ∀ cur : alertStatus, cur.curState = kind →
      (∀ w ∈ ws, badWindow c kind w = true) →
      (kindRun c e kind cur ws).1.recentAlertOutput = cur.recentAlertOutput ++ ws ∧
        (kindRun c e kind cur ws).1.curState = kind := by
  induction ws with
  | nil => intro cur hs _; simp [kindRun, hs]
  | cons w ws ih =>
    intro cur hs hb
    have hw := hb w (List.mem_cons_self _ _)
    have hstep : kindStep c e kind w cur = (⟨cur.recentAlertOutput ++ [w], [], kind⟩, []) := by
      have hnn : ¬ cur.curState = AlertType.NONE := by rw [hs]; exact hk
      simp only [kindStep, metricStep, hw, if_true]
      rw [if_neg (fun h => hnn h.1), hs]
      cases h : cur.recentRecoverOutput <;> simp
    have h := ih ⟨cur.recentAlertOutput ++ [w], [], kind⟩ rfl
      (fun x hx => hb x (List.mem_cons_of_mem _ hx))
    simp only [kindRun, hstep]
    exact ⟨by rw [h.1]; simp, h.2⟩

theorem example_bad_buffer (k : Nat) (kind : AlertType) (hk : kind ≠ AlertType.NONE) :
    (kindRun exampleClient "GET /users" kind newAlertStatus
        (List.replicate (3 + k) (exampleWindow 1 1 1))).1.recentAlertOutput =
      List.replicate k (exampleWindow 1 1 1) := by
  have hrep : List.replicate (3 + k) (exampleWindow 1 1 1) =
      exampleWindow 1 1 1 :: exampleWindow 1 1 1 :: exampleWindow 1 1 1 ::
        List.replicate k (exampleWindow 1 1 1) := by
    rw [List.replicate_add]; rfl
  have hall : ∀ w ∈ List.replicate k (exampleWindow 1 1 1),
      badWindow exampleClient kind w = true := by
    intro w hw
    rw [List.eq_of_mem_replicate hw]
    exact example_window_bad 1 kind
  rw [hrep]
  cases kind with
  | NONE => exact absurd rfl hk
  | FAIL =>
    have h := (kindRun_bad_alerting exampleClient "GET /users" AlertType.FAIL (by decide)
      (List.replicate k (exampleWindow 1 1 1)) ⟨[], [], AlertType.FAIL⟩ rfl hall).1
    simp only [kindRun, kindStep, example_window_bad, metricStep]
    simpa using h
  | SLOW =>
    have h := (kindRun_bad_alerting exampleClient "GET /users" AlertType.SLOW (by decide)
      (List.replicate k (exampleWindow 1 1 1)) ⟨[], [], AlertType.SLOW⟩ rfl hall).1
    simp only [kindRun, kindStep, example_window_bad, metricStep]
    simpa using h

/-! ## Relabeling keeps every bucket -/

theorem mapSet_length_fresh {κ α : Type} [DecidableEq κ] (m : List (κ × α)) (k : κ) (v : α)
    (h : mapGet m k = none) : (mapSet m k v).length = m.length + 1 := by
  induction m with
  | nil => simp [mapSet]
  | cons p m ih =>
    obtain ⟨a, b⟩ := p
    by_cases e : a = k
    · simp [mapGet, e] at h
    · simp only [mapGet, e, if_false] at h
      simp [mapSet, e, ih h]

theorem labelLoop_buckets (cfg : EntryConfig) (scope : Nat) (h : List Nat) :
    ∀ (is : List Nat) (m : List (String × Nat)), (∀ i ∈ is, i < h.length) →
      (∀ i ∈ is, mapGet m (rangeLabel cfg scope i) = none) →
      is.Pairwise (fun i j => rangeLabel cfg scope i ≠ rangeLabel cfg scope j) →
      ∃ m1, labelLoop cfg scope h is m = some m1 ∧
        m1.length = m.length + is.length ∧
        (∀ i ∈ is, mapGet m1 (rangeLabel cfg scope i) = some (h.getD i 0)) ∧
        (∀ k, (∀ i ∈ is, rangeLabel cfg scope i ≠ k) → mapGet m1 k = mapGet m k) := by
  intro is
  induction is with
  | nil => intro m _ _ _; exact ⟨m, rfl, by simp, by simp, fun _ _ => rfl⟩
  | cons i rest ih =>
    intro m hlt hfresh hpair
    have hi := hlt i (List.mem_cons_self _ _)
    rw [List.pairwise_cons] at hpair
    obtain ⟨m1, h1, h2, h3, h4⟩ := ih (mapSet m (rangeLabel cfg scope i) (h.getD i 0))
      (fun j hj => hlt j (List.mem_cons_of_mem _ hj))
      (by
        intro j hj
        rw [mapGet_mapSet_ne _ _ _ _ (hpair.1 j hj)]
        exact hfresh j (List.mem_cons_of_mem _ hj))
      hpair.2
    refine ⟨m1, ?_, ?_, ?_, ?_⟩
    · simp only [labelLoop, sliceGet_nat h i hi]
      exact h1
    · rw [h2, mapSet_length_fresh m _ _ (hfresh i (List.mem_cons_self _ _))]
      simp only [List.length_cons]
      omega
    · intro j hj
      rcases List.mem_cons.mp hj with e | e
      · subst e
        rw [h4 _ (fun x hx => Ne.symm (hpair.1 x hx)), mapGet_mapSet_self]
      · exact h3 j e
    · intro k hk
      rw [h4 k (fun x hx => hk x (List.mem_cons_of_mem _ hx)),
        mapGet_mapSet_ne _ _ _ _ (hk i (List.mem_cons_self _ _))]

theorem labelDistribution_buckets (cfg : EntryConfig) (h : List Nat) (hv : ValidConfig cfg)
    (hlen : h.length = cfg.TimeConsumingDistributionSplit.toNat)
    (hpos : 0 < cfg.timeConsumingRange) :
    ∃ dist, labelDistribution cfg (some h) = some dist ∧ dist.length = h.length ∧
      ∀ i, i < h.length → mapGet dist (bucketLabel cfg i) = some (h.getD i 0) := by
  obtain ⟨v1, v2, v3, v4, v5⟩ := hv
  obtain ⟨n, hn⟩ : ∃ n : Nat, cfg.TimeConsumingDistributionSplit = (n : Int) :=
    ⟨cfg.TimeConsumingDistributionSplit.toNat, (Int.toNat_of_nonneg (by omega)).symm⟩
  rw [hn] at v1 v2 v5 hlen
  simp only [Int.toNat_ofNat] at hlen
  have hn3 : 3 ≤ n := by omega
  have hn20 : n ≤ 20 := by omega
  have hu : u32 = 4294967296 := by norm_num [u32]
  have hd : toU32 ((n : Int) - 2) = n - 2 := by
    unfold toU32
    rw [hu]
    omega
  have hsub : subU32 cfg.TimeConsumingDistributionMax cfg.TimeConsumingDistributionMin =
      cfg.TimeConsumingDistributionMax - cfg.TimeConsumingDistributionMin := by
    unfold subU32
    rw [hu] at v4 ⊢
    omega
  have hr : ((n : Int) - 2).toNat = n - 2 := by omega
  rw [hr] at v5
  have hlast : ((n : Int) - 1) = ((n - 1 : Nat) : Int) := by omega
  have hcnt : ((n : Int) - 1).toNat - 1 = n - 2 := by omega
  have hmul : cfg.timeConsumingRange * (n - 2) ≤
      cfg.TimeConsumingDistributionMax - cfg.TimeConsumingDistributionMin := by
    rw [v5]; exact Nat.div_mul_le_self _ _
  have e1 : String.singleton '<' = "<" := rfl
  have e2 : String.singleton '>' = ">" := rfl
  have hb1 : ∀ i, rangeLabel cfg cfg.timeConsumingRange i ≠
      "<" ++ FormatUint cfg.TimeConsumingDistributionMin := by
    intro i
    have := rangeLabel_ne_bound cfg cfg.timeConsumingRange i
      cfg.TimeConsumingDistributionMin '<' (by decide)
    rwa [e1] at this
  have hb2 : ∀ i, rangeLabel cfg cfg.timeConsumingRange i ≠
      ">" ++ FormatUint cfg.TimeConsumingDistributionMax := by
    intro i
    have := rangeLabel_ne_bound cfg cfg.timeConsumingRange i
      cfg.TimeConsumingDistributionMax '>' (by decide)
    rwa [e2] at this
  have hne : ¬ ("<" ++ FormatUint cfg.TimeConsumingDistributionMin =
      ">" ++ FormatUint cfg.TimeConsumingDistributionMax) := by
    intro e
    have := congrArg String.data e
    simp only [String.data_append] at this
    have h2 := congrArg List.head? this
    simp at h2
  have hloop := labelLoop_buckets cfg cfg.timeConsumingRange h (List.range' 1 (n - 2))
    [("<" ++ FormatUint cfg.TimeConsumingDistributionMin, h.getD 0 0),
      (">" ++ FormatUint cfg.TimeConsumingDistributionMax, h.getD (n - 1) 0)]
    (by
      intro i hi
      rw [List.mem_range'_1] at hi
      omega)
    (by
      intro i _
      simp [mapGet, Ne.symm (hb1 i), Ne.symm (hb2 i)])
    (by
      refine List.Pairwise.imp_of_mem ?_ (List.pairwise_lt_range' 1 (n - 2))
      intro i j hi hj hij he
      rw [List.mem_range'_1] at hi hj
      have hs := rangeLabel_start_eq cfg cfg.timeConsumingRange i j he
      have b1 : (i - 1) * cfg.timeConsumingRange ≤ cfg.timeConsumingRange * (n - 2) := by
        rw [Nat.mul_comm]; exact Nat.mul_le_mul_left _ (by omega)
      have b2 : (j - 1) * cfg.timeConsumingRange ≤ cfg.timeConsumingRange * (n - 2) := by
        rw [Nat.mul_comm]; exact Nat.mul_le_mul_left _ (by omega)
      rw [hu] at hs v4
      rw [Nat.mod_eq_of_lt (show i - 1 < 4294967296 by omega),
        Nat.mod_eq_of_lt (show j - 1 < 4294967296 by omega),
        Nat.mod_eq_of_lt (show (i - 1) * cfg.timeConsumingRange < 4294967296 by omega),
        Nat.mod_eq_of_lt (show (j - 1) * cfg.timeConsumingRange < 4294967296 by omega),
        Nat.mod_eq_of_lt (by omega), Nat.mod_eq_of_lt (by omega)] at hs
      have : (i - 1) * cfg.timeConsumingRange < (j - 1) * cfg.timeConsumingRange :=
        Nat.mul_lt_mul_of_pos_right (by omega) hpos
      omega)
  obtain ⟨m1, hm1, hm2, hm3, hm4⟩ := hloop
  refine ⟨m1, ?_, ?_, ?_⟩
  · unfold labelDistribution
    simp only [hn, hd, hsub, ← v5, hcnt]
    rw [if_neg (by omega)]
    have g0 : sliceGet h 0 = some (h.getD 0 0) := sliceGet_nat h 0 (by omega)
    have g1 : sliceGet h ((n : Int) - 1) = some (h.getD (n - 1) 0) := by
      rw [hlast]; exact sliceGet_nat h (n - 1) (by omega)
    simp only [Option.bind_eq_bind, Option.some_bind, g0, g1, mapSet, hne, if_false]
    exact hm1
  · rw [hm2]
    simp only [List.length_cons, List.length_nil, List.length_range']
    omega
  · intro i hi
    unfold bucketLabel
    simp only [hn, hd, hsub, ← v5]
    by_cases h0 : i = 0
    · subst h0
      rw [if_pos rfl, hm4 _ (fun x _ => hb1 x)]
      simp [mapGet]
    · rw [if_neg h0]
      by_cases hl : (i : Int) = (n : Int) - 1
      · rw [if_pos hl, hm4 _ (fun x _ => hb2 x)]
        have : i = n - 1 := by omega
        subst this
        simp [mapGet, hne]
      · rw [if_neg hl]
        exact hm3 i (by rw [List.mem_range'_1]; omega)

/-! ## Bounds of the alert buffers -/

theorem kindStep_recover_le (c : ReportClientConfig) (e : String) (kind : AlertType)
    (o : OutPutData) (cur : alertStatus) (seen : List OutPutData)
    (hm : 1 ≤ recoverTimes c kind) (h : Tracks c kind seen cur)
    (hle : (cur.recentRecoverOutput.length : Int) ≤ recoverTimes c kind) :
    ((kindStep c e kind o cur).1.recentRecoverOutput.length : Int) ≤ recoverTimes c kind := by
  obtain ⟨_, _, _, _, hrec⟩ := h
  unfold kindStep metricStep
  cases hb : badWindow c kind o
  · simp only [Bool.false_eq_true, if_false]
    by_cases hs : cur.curState = kind
    · have hlt := (hrec hs).2.2
      rw [if_pos hs]
      split_ifs <;>
        (simp only [List.length_append, List.length_singleton, Nat.cast_add, Nat.cast_one]
         omega)
    · rw [if_neg hs]
      exact hle
  · simp only [if_true]
    have hrnil : (if cur.recentRecoverOutput.length > 0 then []
        else cur.recentRecoverOutput) = [] := by
      split_ifs with h1
      · rfl
      · exact List.length_eq_zero.mp (by omega)
    rw [hrnil]
    split_ifs <;> (simp only [List.length_nil, Nat.cast_zero]; omega)

theorem kindRun_tracks (c : ReportClientConfig) (e : String) (kind : AlertType)
    (hk : kind ≠ AlertType.NONE) (hn : 1 ≤ alertTimes c kind) (hm : 1 ≤ recoverTimes c kind)
    (ws : List OutPutData) :
    ∀ (seen : List OutPutData) (cur : alertStatus), Tracks c kind seen cur →
      (cur.recentRecoverOutput.length : Int) ≤ recoverTimes c kind →
      Tracks c kind (seen ++ ws) (kindRun c e kind cur ws).1 ∧
        ((kindRun c e kind cur ws).1.recentRecoverOutput.length : Int) ≤
          recoverTimes c kind := by
  induction ws with
  | nil => intro seen cur ht hle; simpa [kindRun] using And.intro ht hle
  | cons w ws ih =>
    intro seen cur ht hle
    have h1 := (kindStep_tracks c e kind w cur seen hk hn hm ht).1
    have h2 := kindStep_recover_le c e kind w cur seen hm ht hle
    have := ih (seen ++ [w]) _ h1 h2
    simpa [kindRun] using this

theorem example_bad_run (k : Nat) :
    (successStatus (alertAnalyzeAll exampleClient "GET /users" exampleState
        (List.replicate (3 + k) (exampleWindow 1 1 1))).1 "GET /users").recentAlertOutput =
      List.replicate k (exampleWindow 1 1 1) ∧
    (fastStatus (alertAnalyzeAll exampleClient "GET /users" exampleState
        (List.replicate (3 + k) (exampleWindow 1 1 1))).1 "GET /users").recentAlertOutput =
      List.replicate k (exampleWindow 1 1 1) := by
  have h1 := (alertAnalyzeAll_kind exampleClient "GET /users" AlertType.FAIL (by decide)
    (List.replicate (3 + k) (exampleWindow 1 1 1)) exampleState).1
  have h2 := (alertAnalyzeAll_kind exampleClient "GET /users" AlertType.SLOW (by decide)
    (List.replicate (3 + k) (exampleWindow 1 1 1)) exampleState).1
  have e1 : kindStatus exampleState AlertType.FAIL "GET /users" = newAlertStatus := rfl
  have e2 : kindStatus exampleState AlertType.SLOW "GET /users" = newAlertStatus := rfl
  rw [e1] at h1
  rw [e2] at h2
  simp only [kindStatus, if_true] at h2
  have h1' : successStatus (alertAnalyzeAll exampleClient "GET /users" exampleState
      (List.replicate (3 + k) (exampleWindow 1 1 1))).1 "GET /users" =
      (kindRun exampleClient "GET /users" AlertType.FAIL newAlertStatus
        (List.replicate (3 + k) (exampleWindow 1 1 1))).1 := by
    simpa [kindStatus] using h1
  rw [h1', h2]
  exact ⟨example_bad_buffer k AlertType.FAIL (by decide),
    example_bad_buffer k AlertType.SLOW (by decide)⟩

/-! ## Claims -/

/-- C1. Alert hysteresis of the success-rate metric: with alert threshold `n ≥ 3`, an
entry whose success-rate state is Healthy with an empty bad-window buffer, fed
`k ≥ n` consecutive windows whose success rate is below the threshold, fires exactly
one FAIL notification, the Alert of window `n` carrying the first `n` windows; the state
is still Healthy after `n - 1` windows, Alerting after `n`, and Alerting at the end. -/
theorem alert_hysteresis_success_rate (c : ReportClientConfig) (s : ClientState)
    (e : String) (n : Nat) (ws : List OutPutData)
    (hn : c.AlertForBadSuccessRateReachedTimes = (n : Int)) (h3 : 3 ≤ n)
    (hs : (successStatus s e).curState = AlertType.NONE)
    (hbuf : (successStatus s e).recentAlertOutput = [])
    (hbad : ∀ w ∈ ws, floatLt w.SuccessRate c.SuccessRate = true)
    (hk : n ≤ ws.length) :
    (alertAnalyzeAll c e s ws).2.map (notesOf AlertType.FAIL) =
      List.replicate (n - 1) [] ++
        [[⟨false, c.AlertCaller, c.Name, e, AlertType.FAIL, ws.take n⟩]] ++
        List.replicate (ws.length - n) [] ∧
    (successStatus (alertAnalyzeAll c e s (ws.take (n - 1))).1 e).curState = AlertType.NONE ∧
    (successStatus (alertAnalyzeAll c e s (ws.take n)).1 e).curState = AlertType.FAIL ∧
    (successStatus (alertAnalyzeAll c e s ws).1 e).curState = AlertType.FAIL := by
  have hlen : (successStatus s e).recentAlertOutput.length = 0 := by rw [hbuf]; rfl
  have main := successRun_bad_healthy c e n hn ws (successStatus s e) hs (by omega) hbad
    (by omega)
  have hpre := successRun_bad_below c e n hn (ws.take (n - 1)) (successStatus s e) hs
    (fun w hw => hbad w (List.mem_of_mem_take hw)) (by rw [hlen, List.length_take]; omega)
  have hat := successRun_bad_healthy c e n hn (ws.take n) (successStatus s e) hs (by omega)
    (fun w hw => hbad w (List.mem_of_mem_take hw)) (by rw [hlen, List.length_take]; omega)
  rw [hbuf] at main
  simp only [List.length_nil, Nat.sub_zero, List.nil_append, Nat.zero_add] at main
  refine ⟨?_, ?_, ?_, ?_⟩
  · rw [(alertAnalyzeAll_success c e ws s).2]; exact main.1
  · rw [(alertAnalyzeAll_success c e _ s).1]; exact hpre.2
  · rw [(alertAnalyzeAll_success c e _ s).1]; exact hat.2
  · rw [(alertAnalyzeAll_success c e ws s).1]; exact main.2

/-- Witness of C1: four windows with success rate 1/2 against the threshold 19/20 and
three windows to alert; the one FAIL notification is the Alert of the third window. -/
theorem alert_hysteresis_success_rate_witness :
    (alertAnalyzeAll exampleClient "GET /users" exampleState
        [exampleWindow 1 1 1, exampleWindow 2 1 1, exampleWindow 3 1 1,
          exampleWindow 4 1 1]).2.map (notesOf AlertType.FAIL) =
      [[], [], [⟨false, false, "client", "GET /users", AlertType.FAIL,
          [exampleWindow 1 1 1, exampleWindow 2 1 1, exampleWindow 3 1 1]⟩], []] :=
  (alert_hysteresis_success_rate exampleClient exampleState "GET /users" 3
    [exampleWindow 1 1 1, exampleWindow 2 1 1, exampleWindow 3 1 1, exampleWindow 4 1 1]
    rfl (by decide) rfl rfl
    (by
      intro w hw
      simp only [List.mem_cons, List.mem_singleton, List.not_mem_nil, or_false] at hw
      rcases hw with h | h | h | h <;> subst h <;>
        (simp [exampleWindow, floatDiv, floatLt, exampleClient, u32]; norm_num))
    (by decide)).1

/-- C2. Recovery hysteresis of the success-rate metric: with recovery threshold `m ≥ 3`,
from the state a step of `alertAnalyze` leaves when it has just fired a FAIL Alert,
`m` consecutive windows at or above the threshold fire exactly one FAIL notification, the
Recovery of window `m` carrying those windows, and the state is Healthy again. If a bad
window arrives after fewer than `m` good ones, no notification has fired, the good-window
buffer is empty and the state is still Alerting; from there fewer than `m` good windows
fire nothing and `m` good windows fire the Recovery at the last of them. -/
theorem recovery_hysteresis_success_rate (c : ReportClientConfig) (s0 : ClientState)
    (e : String) (w0 : OutPutData) (m : Nat) (good pre : List OutPutData) (b : OutPutData)
    (hm : c.AlertForGreatSuccessRateReachedTimes = (m : Int)) (h3 : 3 ≤ m)
    (hfire : ∃ x ∈ notesOf AlertType.FAIL (alertAnalyze c s0 e w0).2, x.recovery = false)
    (hgood : ∀ w ∈ good, floatLt w.SuccessRate c.SuccessRate = false)
    (hlen : good.length = m)
    (hpre : ∀ w ∈ pre, floatLt w.SuccessRate c.SuccessRate = false)
    (hj : pre.length < m)
    (hb : floatLt b.SuccessRate c.SuccessRate = true) :
    ((alertAnalyzeAll c e (alertAnalyze c s0 e w0).1 good).2.map (notesOf AlertType.FAIL) =
        List.replicate (m - 1) [] ++
          [[⟨true, c.RecoverCaller, c.Name, e, AlertType.FAIL, good⟩]] ∧
      (successStatus (alertAnalyzeAll c e (alertAnalyze c s0 e w0).1 good).1 e).curState =
        AlertType.NONE) ∧
    ((alertAnalyzeAll c e (alertAnalyze c s0 e w0).1 (pre ++ [b])).2.map
          (notesOf AlertType.FAIL) = List.replicate (pre.length + 1) [] ∧
      (successStatus (alertAnalyzeAll c e (alertAnalyze c s0 e w0).1 (pre ++ [b])).1
          e).recentRecoverOutput = [] ∧
      (successStatus (alertAnalyzeAll c e (alertAnalyze c s0 e w0).1 (pre ++ [b])).1
          e).curState = AlertType.FAIL) ∧
    (∀ more : List OutPutData,
      (∀ w ∈ more, floatLt w.SuccessRate c.SuccessRate = false) → more.length < m →
      (alertAnalyzeAll c e (alertAnalyze c s0 e w0).1 (pre ++ [b] ++ more)).2.map
          (notesOf AlertType.FAIL) = List.replicate (pre.length + 1 + more.length) []) ∧
    ((alertAnalyzeAll c e (alertAnalyze c s0 e w0).1 (pre ++ [b] ++ good)).2.map
          (notesOf AlertType.FAIL) =
        List.replicate (pre.length + 1 + (m - 1)) [] ++
          [[⟨true, c.RecoverCaller, c.Name, e, AlertType.FAIL, good⟩]] ∧
      (successStatus (alertAnalyzeAll c e (alertAnalyze c s0 e w0).1 (pre ++ [b] ++ good)).1
          e).curState = AlertType.NONE) := by
  have hst := alertAnalyze_fired_alert c s0 e w0 hfire
  have hne : good ≠ [] := by
    intro h; rw [h] at hlen; simp at hlen; omega
  have ha := successRun_good_reach c e m hm good ⟨[], [], AlertType.FAIL⟩ rfl hgood hne
    (by simp [hlen])
  have hbk := successRun_interrupted c e m hm pre b ⟨[], [], AlertType.FAIL⟩ rfl hpre
    (by simpa using hj) hb
  refine ⟨⟨?_, ?_⟩, ⟨?_, ?_, ?_⟩, ?_, ?_, ?_⟩
  · rw [(alertAnalyzeAll_success c e _ _).2, hst, ha.1, hlen]; rfl
  · rw [(alertAnalyzeAll_success c e _ _).1, hst, ha.2]
  · rw [(alertAnalyzeAll_success c e _ _).2, hst, hbk.1]
  · rw [(alertAnalyzeAll_success c e _ _).1, hst, hbk.2.2]
  · rw [(alertAnalyzeAll_success c e _ _).1, hst, hbk.2.1]
  · intro more hmore hlt
    have h := successRun_good_below c e m hm more _ hbk.2.1 hmore (by rw [hbk.2.2]; simpa using hlt)
    rw [(alertAnalyzeAll_success c e _ _).2, hst, successRun_append, hbk.1, h.1,
      ← List.replicate_add]
  · have h := successRun_good_reach c e m hm good _ hbk.2.1 hgood hne
      (by rw [hbk.2.2]; simp [hlen])
    rw [(alertAnalyzeAll_success c e _ _).2, hst, successRun_append, hbk.1, h.1, hbk.2.2,
      hlen]
    simp [List.replicate_add]
  · have h := successRun_good_reach c e m hm good _ hbk.2.1 hgood hne
      (by rw [hbk.2.2]; simp [hlen])
    rw [(alertAnalyzeAll_success c e _ _).1, hst, successRun_append]
    exact h.2

/-- Witness of C2: after the Alert fired by a third window with success rate 1/2, three
windows with success rate 1 fire the Recovery at the third of them. -/
theorem recovery_hysteresis_success_rate_witness :
    (alertAnalyzeAll exampleClient "GET /users"
        (alertAnalyze exampleClient exampleDegraded "GET /users" (exampleWindow 3 1 1)).1
        [exampleWindow 4 1 0, exampleWindow 5 1 0, exampleWindow 6 1 0]).2.map
        (notesOf AlertType.FAIL) =
      [[], [], [⟨true, false, "client", "GET /users", AlertType.FAIL,
          [exampleWindow 4 1 0, exampleWindow 5 1 0, exampleWindow 6 1 0]⟩]] :=
  (recovery_hysteresis_success_rate exampleClient exampleDegraded "GET /users"
    (exampleWindow 3 1 1) 3
    [exampleWindow 4 1 0, exampleWindow 5 1 0, exampleWindow 6 1 0]
    [exampleWindow 4 1 0] (exampleWindow 5 1 1)
    rfl (by decide)
    ⟨⟨false, false, "client", "GET /users", AlertType.FAIL,
        [exampleWindow 1 1 1, exampleWindow 2 1 1, exampleWindow 3 1 1]⟩,
      by
        have hb : floatLt (exampleWindow 3 1 1).SuccessRate exampleClient.SuccessRate = true := by
          simp [exampleWindow, floatDiv, floatLt, exampleClient, u32]; norm_num
        rw [alertAnalyze_notesOf_fail]
        simp only [successStep, metricStep, hb]
        simp [successStatus, exampleDegraded, mapGet, exampleClient],
      rfl⟩
    (by
      intro w hw
      simp only [List.mem_cons, List.mem_singleton, List.not_mem_nil, or_false] at hw
      rcases hw with h | h | h <;> subst h <;>
        (simp [exampleWindow, floatDiv, floatLt, exampleClient, u32]; norm_num))
    rfl
    (by
      intro w hw
      simp only [List.mem_singleton] at hw
      subst hw
      simp [exampleWindow, floatDiv, floatLt, exampleClient, u32]; norm_num)
    (by decide)
    (by simp [exampleWindow, floatDiv, floatLt, exampleClient, u32]; norm_num)).1.1

/-- C3. Histogram partition, evaluated where it fails: `AddEntryConfig` stores the
configuration with minimum 1, maximum 20 and 10 buckets with bucket width 2; a successful
report of latency 17, below the maximum, is then counted in the last bucket (index 9),
and a successful report of latency 19 makes `serverTask` panic on an index out of range. -/
theorem histogram_partition_violated :
    exampleNarrow.map (fun s => s.entryConfigMap) =
      some [("GET /users", ⟨500, 10, 20, 1, 2⟩)] ∧
    (exampleNarrow.bind (fun s => serverTask exampleClient s ⟨"GET /users", 17, 200⟩)).map
        (fun s => (mapGet s.collectDataMap "GET /users").map
          (fun d => (d.SuccessCount, d.TimeConsumingDistribution))) =
      some (some (1, some [0, 0, 0, 0, 0, 0, 0, 0, 0, 1])) ∧
    bucketIndex ⟨500, 10, 20, 1, 2⟩ 19 = some 10 ∧
    exampleNarrow.bind (fun s => serverTask exampleClient s ⟨"GET /users", 19, 200⟩) = none := by
  refine ⟨by decide, by decide, by decide, ?_⟩
  have h : (exampleNarrow.bind
      (fun s => serverTask exampleClient s ⟨"GET /users", 19, 200⟩)).isNone = true := by decide
  exact Option.isNone_iff_eq_none.mp h

/-- C4. Rates are fractions: when fewer than `2^32` reports of an entry, applied at the
start of a window, are followed by a flush that emits a snapshot, the statistics record of
that snapshot counts the window's successes, failures and fast successes exactly, its
`SuccessRate` and `FastRate` are the exact quotients of `SuccessCount` and `FastCount` by
`SuccessCount + FailCount`, and both rates lie between 0 and 1. -/
theorem rates_are_fractions (c : ReportClientConfig) (s s2 : ClientState) (name : String)
    (rs : List reportServer) (t : Nat) (snap : reportData) (o : OutPutData)
    (hstart : IsReset (entryStart s name))
    (hname : ∀ r ∈ rs, r.Name = name)
    (hlen : rs.length < 2 ^ 32)
    (hrun : collect c s (rs.map taskQueue.SERVER ++ [taskQueue.CLEAR ⟨name, t⟩]) = some s2)
    (hsnap : s2.statisticsChannel = s.statisticsChannel ++ [snap])
    (hrec : statisticsRecord c snap = some o) :
    o.SuccessCount = (successes c rs).length ∧
    o.FailCount = (failures c rs).length ∧
    o.FastCount = (fastSuccesses c snap.Config rs).length ∧
    ∃ sr fr : ℚ, o.SuccessRate = some sr ∧ o.FastRate = some fr ∧
      sr = (o.SuccessCount : ℚ) / ((o.SuccessCount : ℚ) + (o.FailCount : ℚ)) ∧
      fr = (o.FastCount : ℚ) / ((o.SuccessCount : ℚ) + (o.FailCount : ℚ)) ∧
      0 ≤ sr ∧ sr ≤ 1 ∧ 0 ≤ fr ∧ fr ≤ 1 := by
  obtain ⟨d, hd, hemit, hquiet⟩ := window_flush c s s2 name rs t hname hrun
  have hnz : d.SuccessCount ≠ 0 ∨ d.FailCount ≠ 0 := by
    by_contra hz
    have := (hquiet hz).1
    rw [hsnap] at this
    simp at this
  have hs : snap = { d with Time := t } := by
    have := (hemit hnz).1
    rw [hsnap] at this
    simpa using this
  obtain ⟨i1, i2, i3, _, _, i6, _, _⟩ := recordReports_counts c _ hstart rs d hd
  have hsum := successes_failures_length c rs
  have hfast := fastSuccesses_length_le c (entryStart s name).Config rs
  have hu : u32 = 2 ^ 32 := rfl
  rw [Nat.mod_eq_of_lt (by omega)] at i1 i2 i3
  obtain ⟨dist, _, ho⟩ := statisticsRecord_some c snap o hrec
  subst ho
  subst hs
  simp only [i1, i2, i3, i6]
  have hcount : ((failures c rs).length + (successes c rs).length) % u32 =
      (successes c rs).length + (failures c rs).length := by
    rw [Nat.mod_eq_of_lt (by omega)]; omega
  have hpos : 0 < (successes c rs).length + (failures c rs).length := by
    rcases hnz with h | h
    · rw [i1] at h; omega
    · rw [i2] at h; omega
  have hposq : (0 : ℚ) < ((successes c rs).length : ℚ) + ((failures c rs).length : ℚ) := by
    exact_mod_cast hpos
  refine ⟨trivial, trivial, trivial, _, _, ?_, ?_, rfl, rfl, ?_, ?_, ?_, ?_⟩
  · simp only [floatDiv, hcount]
    rw [if_neg (by omega)]
    push_cast
    rfl
  · simp only [floatDiv, hcount]
    rw [if_neg (by omega)]
    push_cast
    rfl
  · positivity
  · rw [div_le_one hposq]
    have : (0 : ℚ) ≤ ((failures c rs).length : ℚ) := by positivity
    linarith
  · positivity
  · rw [div_le_one hposq]
    have h1 : ((fastSuccesses c (entryStart s name).Config rs).length : ℚ) ≤
        ((successes c rs).length : ℚ) := by exact_mod_cast hfast
    have : (0 : ℚ) ≤ ((failures c rs).length : ℚ) := by positivity
    linarith

/-- Witness of C4: one success and one failure, then a flush; both rates are 1/2. -/
theorem rates_are_fractions_witness :
    exampleRecord.SuccessCount = (successes exampleClient exampleReports).length ∧
    exampleRecord.FailCount = (failures exampleClient exampleReports).length ∧
    exampleRecord.FastCount =
      (fastSuccesses exampleClient exampleSnapshot.Config exampleReports).length ∧
    ∃ sr fr : ℚ, exampleRecord.SuccessRate = some sr ∧ exampleRecord.FastRate = some fr ∧
      sr = (exampleRecord.SuccessCount : ℚ) /
        ((exampleRecord.SuccessCount : ℚ) + (exampleRecord.FailCount : ℚ)) ∧
      fr = (exampleRecord.FastCount : ℚ) /
        ((exampleRecord.SuccessCount : ℚ) + (exampleRecord.FailCount : ℚ)) ∧
      0 ≤ sr ∧ sr ≤ 1 ∧ 0 ≤ fr ∧ fr ≤ 1 :=
  rates_are_fractions exampleClient exampleState exampleFlushed "GET /users" exampleReports 7
    exampleSnapshot exampleRecord
    (by simp [IsReset, entryStart, exampleState, mapGet, newReportData])
    (by decide) (by simp [exampleReports]) rfl rfl rfl

/-- C5, amended. Histogram total: when the reports of an entry applied at the start of a
window contain fewer than `2^32` successes and the flush that follows emits a snapshot,
`statistics` returns a record whose labeled latency histogram sums to its
`SuccessCount`; after every report of the window the raw buckets of the accumulator
number the configured bucket count and sum to its `SuccessCount`, and so do the buckets
of the accumulator the flush leaves behind, which is again at the start of a window with
the same configuration. Relabeling loses no bucket when the stored bucket width is
positive: the labeled histogram then has as many labels as the snapshot has buckets, and
the count of every bucket stands under the label of that bucket. -/
theorem histogram_total (c : ReportClientConfig) (s s2 : ClientState) (name : String)
    (rs : List reportServer) (t : Nat) (snap : reportData)
    (hstart : IsReset (entryStart s name))
    (hvalid : ValidConfig (entryStart s name).Config)
    (hname : ∀ r ∈ rs, r.Name = name)
    (hsucc : (successes c rs).length < 2 ^ 32)
    (hrun : collect c s (rs.map taskQueue.SERVER ++ [taskQueue.CLEAR ⟨name, t⟩]) = some s2)
    (hsnap : s2.statisticsChannel = s.statisticsChannel ++ [snap]) :
    (∃ o hist, statisticsRecord c snap = some o ∧
      labeledTotal o.TimeConsumingDistribution = o.SuccessCount ∧
      snap.TimeConsumingDistribution = some hist ∧
      (0 < snap.Config.timeConsumingRange →
        o.TimeConsumingDistribution.length = hist.length ∧
        ∀ i, i < hist.length →
          mapGet o.TimeConsumingDistribution (bucketLabel snap.Config i) =
            some (hist.getD i 0))) ∧
    (∀ k, ∃ d h, recordReports c (entryStart s name) (rs.take k) = some d ∧
      histStart d = some h ∧
      h.length = d.Config.TimeConsumingDistributionSplit.toNat ∧
      h.sum = d.SuccessCount) ∧
    (∃ d1 h1, mapGet s2.collectDataMap name = some d1 ∧
      d1.TimeConsumingDistribution = some h1 ∧
      h1.length = d1.Config.TimeConsumingDistributionSplit.toNat ∧
      h1.sum = d1.SuccessCount ∧ IsReset d1 ∧ d1.Config = (entryStart s name).Config) := by
  obtain ⟨d, hd, hemit, hquiet⟩ := window_flush c s s2 name rs t hname hrun
  have hnz : d.SuccessCount ≠ 0 ∨ d.FailCount ≠ 0 := by
    by_contra hz
    have := (hquiet hz).1
    rw [hsnap] at this
    simp at this
  have hs : snap = { d with Time := t } := by
    have := (hemit hnz).1
    rw [hsnap] at this
    simpa using this
  have hu : u32 = 2 ^ 32 := rfl
  have hrs : rs ≠ [] := by
    intro e
    subst e
    simp only [recordReports, Option.some.injEq] at hd
    subst hd
    rcases hnz with h | h
    · exact h hstart.1
    · exact h hstart.2.1
  obtain ⟨i1, _, _, _, _, i6, _, _⟩ := recordReports_counts c _ hstart rs d hd
  obtain ⟨hist, hh⟩ := recordReports_hist_some c _ d rs hrs hd
  obtain ⟨hsplit, hlen, hsum⟩ := recordReports_hist c _ hstart rs d hd hist
    (histStart_of_some d hist hh)
  rw [Nat.mod_eq_of_lt (by omega)] at i1
  refine ⟨?_, ?_, ?_⟩
  · obtain ⟨dist, hdist, htot⟩ := labelDistribution_total d.Config hist (i6 ▸ hvalid)
      (by rw [hlen, i6])
      (by
        intro hz i hi1 hi2
        rw [i6] at hz
        refine recordReports_middle_zero c _ hstart hz rs d hd hist
          (histStart_of_some d hist hh) i hi1 ?_
        rw [hlen] at hi2
        omega)
    subst hs
    obtain ⟨o, ho, ho1, ho2⟩ := statisticsRecord_of_dist c { d with Time := t } dist
      (by rw [← hh] at hdist; exact hdist)
    refine ⟨o, hist, ho, ?_, hh, ?_⟩
    · rw [ho1, ho2, htot, hsum (by omega), i1]
    · intro hpos
      obtain ⟨dist2, hdist2, hl2, hg2⟩ := labelDistribution_buckets d.Config hist
        (i6 ▸ hvalid) (by rw [hlen, i6]) hpos
      rw [hdist] at hdist2
      simp only [Option.some.injEq] at hdist2
      subst hdist2
      rw [ho1]
      exact ⟨hl2, hg2⟩
  · intro k
    obtain ⟨dk, hk⟩ := recordReports_take c _ d rs k hd
    obtain ⟨j1, _, _, _, _, j6, _, _⟩ := recordReports_counts c _ hstart (rs.take k) dk hk
    have hle := successes_take_le c rs k
    rw [Nat.mod_eq_of_lt (by omega)] at j1
    cases hhk : histStart dk with
    | none =>
      by_cases hrk : rs.take k = []
      · rw [hrk] at hk
        simp only [recordReports, Option.some.injEq] at hk
        subst hk
        rcases hstart.2.2.2.2.2.2.2 with e | ⟨_, e⟩
        · simp only [histStart, e, makeSlice] at hhk
          rw [if_neg (by omega)] at hhk
          simp at hhk
        · simp [histStart, e] at hhk
      · obtain ⟨hk1, hk2⟩ := recordReports_hist_some c _ dk (rs.take k) hrk hk
        rw [histStart_of_some dk hk1 hk2] at hhk
        simp at hhk
    | some hk1 =>
      obtain ⟨_, l1, l2⟩ := recordReports_hist c _ hstart (rs.take k) dk hk hk1 hhk
      exact ⟨dk, hk1, hk, hhk, by rw [l1, j6], by rw [l2 (by omega), j1]⟩
  · obtain ⟨_, d1, hr, hg⟩ := hemit hnz
    rw [← i6] at hsplit
    rw [resetReportData_some d hsplit] at hr
    simp only [Option.some.injEq] at hr
    subst hr
    exact ⟨_, _, hg, rfl, by simp, by simp,
      ⟨rfl, rfl, rfl, rfl, rfl, rfl, rfl, Or.inr ⟨hsplit, rfl⟩⟩, i6⟩

/-- Witness of C5, amended: one success and one failure under the default configuration,
whose bucket width is 50, then a flush. -/
theorem histogram_total_witness :
    (∃ o hist, statisticsRecord exampleClient exampleSnapshot = some o ∧
      labeledTotal o.TimeConsumingDistribution = o.SuccessCount ∧
      exampleSnapshot.TimeConsumingDistribution = some hist ∧
      (0 < exampleSnapshot.Config.timeConsumingRange →
        o.TimeConsumingDistribution.length = hist.length ∧
        ∀ i, i < hist.length →
          mapGet o.TimeConsumingDistribution (bucketLabel exampleSnapshot.Config i) =
            some (hist.getD i 0))) ∧
    (∀ k, ∃ d h, recordReports exampleClient (entryStart exampleState "GET /users")
        (exampleReports.take k) = some d ∧
      histStart d = some h ∧
      h.length = d.Config.TimeConsumingDistributionSplit.toNat ∧
      h.sum = d.SuccessCount) ∧
    (∃ d1 h1, mapGet exampleFlushed.collectDataMap "GET /users" = some d1 ∧
      d1.TimeConsumingDistribution = some h1 ∧
      h1.length = d1.Config.TimeConsumingDistributionSplit.toNat ∧
      h1.sum = d1.SuccessCount ∧ IsReset d1 ∧
      d1.Config = (entryStart exampleState "GET /users").Config) :=
  histogram_total exampleClient exampleState exampleFlushed "GET /users" exampleReports 7
    exampleSnapshot
    (by simp [IsReset, entryStart, exampleState, mapGet, newReportData])
    (by
      simp only [ValidConfig, entryStart, exampleState, mapGet, newReportData, getEntryConfig,
        Option.getD_none, defaultEntryConfig]
      refine ⟨by decide, by decide, by decide, by norm_num [u32], by decide⟩)
    (by decide) (by decide) rfl rfl

/-- C5, as stated, fails: after `2^31` successes of 90 ms and `2^31 + 1` successes of
600 ms in one window, the record of the flushed snapshot has `SuccessCount` 1 (the
counter has wrapped) while its labeled histogram sums to `2^32 + 1`. -/
theorem histogram_total_wraps :
    ((collect exampleClient exampleState
        ((List.replicate (2 ^ 31) (⟨"GET /users", 90, 200⟩ : reportServer) ++
            List.replicate (2 ^ 31 + 1) (⟨"GET /users", 600, 200⟩ : reportServer)).map
            taskQueue.SERVER ++
          [taskQueue.CLEAR ⟨"GET /users", 7⟩])).bind
        (fun s => s.statisticsChannel.head?.bind (statisticsRecord exampleClient))).map
        (fun o => (o.SuccessCount, labeledTotal o.TimeConsumingDistribution)) =
      some (1, 2 ^ 32 + 1) := by
  have h := example_run_mixed (2 ^ 31) (2 ^ 31 + 1) (by positivity) (by norm_num [u32])
  have e1 : (2 ^ 31 % u32 + (2 ^ 31 + 1)) % u32 = 1 := by norm_num [u32]
  have e2 : 2 ^ 31 % u32 + (2 ^ 31 + 1) % u32 = 2 ^ 32 + 1 := by norm_num [u32]
  rw [e1, e2] at h
  exact h

/-- C6, amended. Empty windows are not emitted: after fewer than `2^32` reports of an
entry, applied at the start of a window, `clearTask` for the (known) entry does not panic;
it sends exactly one snapshot, the accumulator stamped with the flush time, when there
was at least one report, and leaves the whole state unchanged when there was none; a
second flush right after it sends nothing and changes nothing. -/
theorem empty_windows_not_emitted (c : ReportClientConfig) (s s1 : ClientState)
    (name : String) (rs : List reportServer) (t t2 : Nat)
    (hstart : IsReset (entryStart s name))
    (hname : ∀ r ∈ rs, r.Name = name)
    (hlen : rs.length < 2 ^ 32)
    (hrun : collect c s (rs.map taskQueue.SERVER) = some s1)
    (hknown : (mapGet s1.collectDataMap name).isSome = true) :
    ∃ s2, clearTask s1 ⟨name, t⟩ = some s2 ∧
      (rs ≠ [] → ∃ d, mapGet s1.collectDataMap name = some d ∧
        s2.statisticsChannel = s1.statisticsChannel ++ [{ d with Time := t }]) ∧
      (rs = [] → s2 = s1) ∧
      clearTask s2 ⟨name, t2⟩ = some s2 := by
  by_cases hrs : rs = []
  · subst hrs
    simp only [List.map_nil, collect, Option.some.injEq] at hrun
    subst hrun
    obtain ⟨d, hd⟩ := Option.isSome_iff_exists.mp hknown
    have he : entryStart s name = d := by simp [entryStart, hd]
    rw [he] at hstart
    have hz : ¬ (d.SuccessCount ≠ 0 ∨ d.FailCount ≠ 0) := by
      simp [hstart.1, hstart.2.1]
    have hc : ∀ u, clearTask s ⟨name, u⟩ = some s := by
      intro u; rw [clearTask_known s name u d hd, if_neg hz]
    exact ⟨s, hc t, fun h => absurd rfl h, fun _ => rfl, hc t2⟩
  · rw [collect_server c name rs s hname hrs] at hrun
    cases hd : recordReports c (entryStart s name) rs with
    | none => rw [hd] at hrun; simp at hrun
    | some d =>
      rw [hd] at hrun
      simp only [Option.map_some', Option.some.injEq] at hrun
      subst hrun
      obtain ⟨i1, i2, _, _, _, i6, _, _⟩ := recordReports_counts c _ hstart rs d hd
      have hsum := successes_failures_length c rs
      have hu : u32 = 2 ^ 32 := rfl
      rw [Nat.mod_eq_of_lt (by omega)] at i1 i2
      have hpos : 0 < rs.length := List.length_pos.mpr hrs
      have hnz : d.SuccessCount ≠ 0 ∨ d.FailCount ≠ 0 := by
        by_contra hz
        simp only [ne_eq, not_or, not_not] at hz
        omega
      obtain ⟨hist, hh⟩ := recordReports_hist_some c _ d rs hrs hd
      obtain ⟨hsplit, _, _⟩ := recordReports_hist c _ hstart rs d hd hist
        (histStart_of_some d hist hh)
      rw [← i6] at hsplit
      have hget : mapGet (mapSet s.collectDataMap name d) name = some d :=
        mapGet_mapSet_self _ _ _
      refine ⟨{ s with
          statisticsChannel := s.statisticsChannel ++ [{ d with Time := t }]
          collectDataMap := mapSet (mapSet s.collectDataMap name d) name { d with
            MinMs := 0, MaxMs := 0, FailCount := 0, SuccessCount := 0, SuccessMsCount := 0,
            FastCount := 0, FailDistribution := [],
            TimeConsumingDistribution :=
              some (List.replicate d.Config.TimeConsumingDistributionSplit.toNat 0) } },
        ?_, fun _ => ⟨d, hget, rfl⟩, fun h => absurd h hrs, ?_⟩
      · rw [clearTask_known _ name t d hget, if_pos hnz, resetReportData_some d hsplit]
        rfl
      · rw [clearTask_known _ name t2 _ (mapGet_mapSet_self _ _ _), if_neg (by simp)]

/-- Witness of C6, amended: one success and one failure, then two flushes. -/
theorem empty_windows_not_emitted_witness :
    ∃ s2, clearTask exampleCollected ⟨"GET /users", 7⟩ = some s2 ∧
      (exampleReports ≠ [] → ∃ d, mapGet exampleCollected.collectDataMap "GET /users" = some d ∧
        s2.statisticsChannel = exampleCollected.statisticsChannel ++ [{ d with Time := 7 }]) ∧
      (exampleReports = [] → s2 = exampleCollected) ∧
      clearTask s2 ⟨"GET /users", 8⟩ = some s2 :=
  empty_windows_not_emitted exampleClient exampleState exampleCollected "GET /users"
    exampleReports 7 8
    (by simp [IsReset, entryStart, exampleState, mapGet, newReportData])
    (by decide) (by simp [exampleReports]) rfl rfl

/-- C6, as stated, fails: `2^32` successful reports since the entry was created wrap its
`SuccessCount` to zero, so the flush that follows them sends no snapshot. -/
theorem flush_after_wraparound_emits_nothing :
    (List.replicate (2 ^ 32) (⟨"GET /users", 90, 200⟩ : reportServer)).length = 2 ^ 32 ∧
    (collect exampleClient exampleState
        ((List.replicate (2 ^ 32) (⟨"GET /users", 90, 200⟩ : reportServer)).map
            taskQueue.SERVER ++
          [taskQueue.CLEAR ⟨"GET /users", 7⟩])).map (fun s => s.statisticsChannel) =
      some [] :=
  ⟨List.length_replicate _ _, example_wraparound (2 ^ 32) (by positivity) (Nat.mod_self _)⟩

/-- C7. Flush snapshots and resets: for an accumulator with a non-zero success or failure
count (its bucket count being non-negative, as allocation requires), `clearTask` at time
`t` sends exactly one snapshot, equal to the accumulator with `Time` set to `t`; afterwards
the accumulator has all six counters zero, an empty failure distribution and an all-zero
histogram of the configured length, `Name` and `Config` are unchanged, and no other entry
or field of the state is touched. -/
theorem flush_snapshots_and_resets (s : ClientState) (name : String) (t : Nat)
    (d : reportData) (hd : mapGet s.collectDataMap name = some d)
    (hnz : d.SuccessCount ≠ 0 ∨ d.FailCount ≠ 0)
    (hsplit : 0 ≤ d.Config.TimeConsumingDistributionSplit) :
    ∃ s2 d1, clearTask s ⟨name, t⟩ = some s2 ∧
      s2.statisticsChannel = s.statisticsChannel ++ [{ d with Time := t }] ∧
      mapGet s2.collectDataMap name = some d1 ∧
      d1.SuccessCount = 0 ∧ d1.FailCount = 0 ∧ d1.FastCount = 0 ∧ d1.MinMs = 0 ∧
      d1.MaxMs = 0 ∧ d1.SuccessMsCount = 0 ∧ d1.FailDistribution = [] ∧
      d1.TimeConsumingDistribution =
        some (List.replicate d.Config.TimeConsumingDistributionSplit.toNat 0) ∧
      d1.Name = d.Name ∧ d1.Config = d.Config ∧
      (∀ other, other ≠ name → mapGet s2.collectDataMap other = mapGet s.collectDataMap other) ∧
      s2.entryConfigMap = s.entryConfigMap ∧
      s2.defaultEntryConfig = s.defaultEntryConfig := by
  have hr : resetReportData d = some { d with
      MinMs := 0, MaxMs := 0, FailCount := 0, SuccessCount := 0, SuccessMsCount := 0,
      FastCount := 0, FailDistribution := [],
      TimeConsumingDistribution :=
        some (List.replicate d.Config.TimeConsumingDistributionSplit.toNat 0) } := by
    simp [resetReportData, makeSlice, not_lt.mpr hsplit]
  refine ⟨{ s with
      statisticsChannel := s.statisticsChannel ++ [{ d with Time := t }]
      collectDataMap := mapSet s.collectDataMap name { d with
        MinMs := 0, MaxMs := 0, FailCount := 0, SuccessCount := 0, SuccessMsCount := 0,
        FastCount := 0, FailDistribution := [],
        TimeConsumingDistribution :=
          some (List.replicate d.Config.TimeConsumingDistributionSplit.toNat 0) } },
    { d with
      MinMs := 0, MaxMs := 0, FailCount := 0, SuccessCount := 0, SuccessMsCount := 0,
      FastCount := 0, FailDistribution := [],
      TimeConsumingDistribution :=
        some (List.replicate d.Config.TimeConsumingDistributionSplit.toNat 0) },
    ?_, rfl, mapGet_mapSet_self _ _ _, rfl, rfl, rfl, rfl, rfl, rfl, rfl, rfl, rfl,
    rfl, ?_, rfl, rfl⟩
  · rw [clearTask_known s name t d hd, if_pos hnz, hr]
    rfl
  · intro other ho
    exact mapGet_mapSet_ne _ _ _ _ (Ne.symm ho)

/-- Witness of C7: the accumulator holding one success and one failure, flushed at 7. -/
theorem flush_snapshots_and_resets_witness :
    ∃ s2 d1, clearTask exampleCollected ⟨"GET /users", 7⟩ = some s2 ∧
      s2.statisticsChannel =
        exampleCollected.statisticsChannel ++
          [{ ({ exampleSnapshot with Time := 0 } : reportData) with Time := 7 }] ∧
      mapGet s2.collectDataMap "GET /users" = some d1 ∧
      d1.SuccessCount = 0 ∧ d1.FailCount = 0 ∧ d1.FastCount = 0 ∧ d1.MinMs = 0 ∧
      d1.MaxMs = 0 ∧ d1.SuccessMsCount = 0 ∧ d1.FailDistribution = [] ∧
      d1.TimeConsumingDistribution =
        some (List.replicate
          ({ exampleSnapshot with Time := 0 } : reportData).Config.TimeConsumingDistributionSplit.toNat
          0) ∧
      d1.Name = ({ exampleSnapshot with Time := 0 } : reportData).Name ∧
      d1.Config = ({ exampleSnapshot with Time := 0 } : reportData).Config ∧
      (∀ other, other ≠ "GET /users" →
        mapGet s2.collectDataMap other = mapGet exampleCollected.collectDataMap other) ∧
      s2.entryConfigMap = exampleCollected.entryConfigMap ∧
      s2.defaultEntryConfig = exampleCollected.defaultEntryConfig :=
  flush_snapshots_and_resets exampleCollected "GET /users" 7 { exampleSnapshot with Time := 0 }
    rfl (by decide) (by decide)

/-- C8. Failure labels, evaluated where the merge fails: with a table naming both 500 and
502 `server error`, two failures with code 500 and three with code 502 are flushed as a
snapshot with `FailCount` 5; the record gives the label `server error` the count 3 (the
count of the code visited last, 2 in the other order of the map) and not the sum 5. -/
theorem failure_labels_overwritten :
    (collect exampleNamedClient exampleState exampleFailureCommands).map
        (fun s => s.statisticsChannel.map (fun d => (d.FailCount, d.FailDistribution))) =
      some [(5, [(500, 2), (502, 3)])] ∧
    ((collect exampleNamedClient exampleState exampleFailureCommands).bind
        (fun s => s.statisticsChannel.head?.bind (statisticsRecord exampleNamedClient))).map
        (fun o => (o.FailCount, o.FailDistribution)) =
      some (5, [("server error", 3)]) ∧
    labelFailures exampleNamedClient [(500, 2), (502, 3)] [] = [("server error", 3)] ∧
    labelFailures exampleNamedClient [(502, 3), (500, 2)] [] = [("server error", 2)] := by
  refine ⟨by rfl, by rfl, by rfl, by rfl⟩

/-- C9. Minimum latency, evaluated where it fails: after successful reports of 0 ms and
then 5 ms, the accumulator and the snapshot of the next flush hold `MinMs` 5, while the
minimum latency of the window's successful reports is 0. -/
theorem min_latency_zero_lost :
    (collect exampleClient exampleState exampleZeroCommands).map
        (fun s => s.statisticsChannel.map (fun d => (d.SuccessCount, d.MinMs, d.MaxMs))) =
      some [(2, 5, 5)] ∧
    (recordReports exampleClient (entryStart exampleState "GET /users")
        [⟨"GET /users", 0, 200⟩, ⟨"GET /users", 5, 200⟩]).map (fun d => d.MinMs) = some 5 ∧
    successMs exampleClient [⟨"GET /users", 0, 200⟩, ⟨"GET /users", 5, 200⟩] = [0, 5] := by
  refine ⟨by rfl, by rfl, by rfl⟩

/-- C10. Maximum success latency: when the reports of an entry applied at the start of a
window contain at least one success, `MaxMs` of the resulting accumulator is the maximum
of the latencies of the window's successful reports (it bounds them all and is one of
them), and a snapshot emitted by the next flush carries the same `MaxMs`. -/
theorem max_latency_is_maximum (c : ReportClientConfig) (s s2 : ClientState) (name : String)
    (rs : List reportServer) (t : Nat)
    (hstart : IsReset (entryStart s name))
    (hname : ∀ r ∈ rs, r.Name = name)
    (hsucc : successes c rs ≠ [])
    (hrun : collect c s (rs.map taskQueue.SERVER ++ [taskQueue.CLEAR ⟨name, t⟩]) = some s2) :
    ∃ d, (collect c s (rs.map taskQueue.SERVER)).bind
          (fun s1 => mapGet s1.collectDataMap name) = some d ∧
      (∀ m ∈ successMs c rs, m ≤ d.MaxMs) ∧
      d.MaxMs ∈ successMs c rs ∧
      (∀ snap, s2.statisticsChannel = s.statisticsChannel ++ [snap] →
        snap.MaxMs = d.MaxMs) := by
  obtain ⟨d, hd, hemit, hquiet⟩ := window_flush c s s2 name rs t hname hrun
  have hrs : rs ≠ [] := by
    intro h; subst h; exact hsucc rfl
  obtain ⟨_, _, _, i4, _, _, _, _⟩ := recordReports_counts c _ hstart rs d hd
  have hne : successMs c rs ≠ [] := by
    unfold successMs
    simpa using hsucc
  refine ⟨d, ?_, ?_, ?_, ?_⟩
  · rw [collect_server c name rs s hname hrs, hd]
    simp [mapGet_mapSet_self]
  · rw [i4]; exact (foldl_max_ge _ 0).2.1
  · rw [i4]; exact foldl_max_mem _ hne
  · intro snap hsnap
    by_cases hnz : d.SuccessCount ≠ 0 ∨ d.FailCount ≠ 0
    · have := (hemit hnz).1
      rw [hsnap] at this
      have hs : snap = { d with Time := t } := by simpa using this
      rw [hs]
    · have := (hquiet hnz).1
      rw [hsnap] at this
      simp at this

/-- Witness of C10: successes of 0 ms and 5 ms, then a flush; `MaxMs` is 5. -/
theorem max_latency_is_maximum_witness :
    ∃ d, (collect exampleClient exampleState
          (exampleZeroReports.map taskQueue.SERVER)).bind
          (fun s1 => mapGet s1.collectDataMap "GET /users") = some d ∧
      (∀ m ∈ successMs exampleClient exampleZeroReports, m ≤ d.MaxMs) ∧
      d.MaxMs ∈ successMs exampleClient exampleZeroReports ∧
      (∀ snap, exampleZeroFlushed.statisticsChannel = exampleState.statisticsChannel ++ [snap] →
        snap.MaxMs = d.MaxMs) :=
  max_latency_is_maximum exampleClient exampleState exampleZeroFlushed "GET /users"
    exampleZeroReports 7
    (by simp [IsReset, entryStart, exampleState, mapGet, newReportData])
    (by decide) (by decide) rfl

/-- C11. Average success latency, evaluated where it fails: one success of 90 ms and one
failure are flushed as one snapshot; its record has `SuccessCount` 1 and `SuccessMsAver`
45, the latency sum divided by the 2 calls of the window, while the sum of the success
latencies divided by the number of successes is 90. -/
theorem average_latency_divides_by_all_calls :
    (collect exampleClient exampleState
        (exampleReports.map taskQueue.SERVER ++ [taskQueue.CLEAR ⟨"GET /users", 7⟩])).map
        (fun s => s.statisticsChannel) = some [exampleSnapshot] ∧
    (statisticsRecord exampleClient exampleSnapshot).map
        (fun o => (o.Count, o.SuccessCount, o.SuccessMsAver)) = some (2, 1, 45) ∧
    successMs exampleClient exampleReports = [90] ∧
    (successMs exampleClient exampleReports).sum /
        (successes exampleClient exampleReports).length = 90 := by
  refine ⟨by rfl, by rfl, by rfl, by rfl⟩

/-- C12. Latency-compliance neutrality: for a window with `SuccessCount = 0`, whatever its
`FastRate` and whatever the latency alert state of the entry, `alertAnalyze` fires no SLOW
Alert and leaves the bad-window buffer of the latency metric empty; when the state is
Alerting (SLOW), the window is appended to the good-window buffer, and the Recovery
carrying that buffer fires, with the state back to Healthy, exactly when the lengthened
buffer reaches the recovery threshold. -/
theorem zero_success_window_is_neutral (c : ReportClientConfig) (s : ClientState)
    (e : String) (o : OutPutData) (h0 : o.SuccessCount = 0) :
    (∀ x ∈ notesOf AlertType.SLOW (alertAnalyze c s e o).2, x.recovery = true) ∧
    (fastStatus (alertAnalyze c s e o).1 e).recentAlertOutput = [] ∧
    ((fastStatus s e).curState = AlertType.SLOW →
      (fastStatus (alertAnalyze c s e o).1 e).recentRecoverOutput =
          (fastStatus s e).recentRecoverOutput ++ [o] ∧
      notesOf AlertType.SLOW (alertAnalyze c s e o).2 =
        (if c.AlertForGreatFastRateReachedTimes ≤
            ((fastStatus s e).recentRecoverOutput.length : Int) + 1
          then [⟨true, c.RecoverCaller, c.Name, e, AlertType.SLOW,
            (fastStatus s e).recentRecoverOutput ++ [o]⟩]
          else []) ∧
      (fastStatus (alertAnalyze c s e o).1 e).curState =
        (if c.AlertForGreatFastRateReachedTimes ≤
            ((fastStatus s e).recentRecoverOutput.length : Int) + 1
          then AlertType.NONE else AlertType.SLOW)) := by
  have hb : badWindow c AlertType.SLOW o = false := by simp [badWindow, h0]
  have hst := alertAnalyze_kindStatus c s e o AlertType.SLOW (by decide)
  have hno := alertAnalyze_notesOf_slow c s e o
  simp only [kindStatus, if_true] at hst
  rw [hst, hno]
  simp only [kindStep, metricStep, hb, Bool.false_eq_true, if_false]
  refine ⟨?_, ?_, ?_⟩
  · intro x hx
    split_ifs at hx <;> simp_all
  · split_ifs <;> rfl
  · intro hs
    simp only [hs, if_true, alertTimes, recoverTimes, List.length_append, List.length_singleton,
      Nat.cast_add, Nat.cast_one, ge_iff_le]
    split_ifs <;> simp

/-- Witness of C12: an entry Alerting for latency with two good windows receives a window
with no success and one failure; the window joins the good-window buffer. -/
theorem zero_success_window_is_neutral_witness :
    (fastStatus exampleSlow "GET /users").curState = AlertType.SLOW ∧
    (fastStatus (alertAnalyze exampleClient exampleSlow "GET /users"
        (exampleWindow 6 0 1)).1 "GET /users").recentRecoverOutput =
      (fastStatus exampleSlow "GET /users").recentRecoverOutput ++ [exampleWindow 6 0 1] :=
  ⟨rfl, ((zero_success_window_is_neutral exampleClient exampleSlow "GET /users"
    (exampleWindow 6 0 1) rfl).2.2 rfl).1⟩

/-- C13. Notification payload: in a run of `alertAnalyze` over the windows `ws` of an entry
whose two alert states are initial, with all four thresholds at least 1, every notification
fired at window `i` carries the most recent windows in arrival order (a suffix of the first
`i + 1` windows); an Alert carries exactly as many as the alert threshold of its metric,
all bad for that metric; a Recovery carries exactly as many as the recovery threshold of
its metric, none of them bad for that metric. -/
theorem notification_payload (c : ReportClientConfig) (s : ClientState) (e : String)
    (ws : List OutPutData)
    (hfast : fastStatus s e = newAlertStatus) (hsucc : successStatus s e = newAlertStatus)
    (hn1 : 1 ≤ c.AlertForBadFastRateReachedTimes)
    (hn2 : 1 ≤ c.AlertForBadSuccessRateReachedTimes)
    (hm1 : 1 ≤ c.AlertForGreatFastRateReachedTimes)
    (hm2 : 1 ≤ c.AlertForGreatSuccessRateReachedTimes)
    (i : Nat) (l : List Notification) (hl : (alertAnalyzeAll c e s ws).2[i]? = some l)
    (x : Notification) (hx : x ∈ l) :
    List.IsSuffix x.recentOutputData (ws.take (i + 1)) ∧
    (x.recovery = false →
      (x.recentOutputData.length : Int) = alertTimes c x.alertType ∧
      ∀ w ∈ x.recentOutputData, badWindow c x.alertType w = true) ∧
    (x.recovery = true →
      (x.recentOutputData.length : Int) = recoverTimes c x.alertType ∧
      ∀ w ∈ x.recentOutputData, badWindow c x.alertType w = false) := by
  have hn : ∀ kind, 1 ≤ alertTimes c kind := by
    intro kind; unfold alertTimes; split_ifs <;> assumption
  have hm : ∀ kind, 1 ≤ recoverTimes c kind := by
    intro kind; unfold recoverTimes; split_ifs <;> assumption
  obtain ⟨a, b, ha, hb, hab⟩ := alertAnalyzeAll_notes c e ws s i l hl
  simp only [kindStatus, if_true, hfast] at ha
  have hb2 : (kindRun c e AlertType.FAIL newAlertStatus ws).2[i]? = some b := by
    rw [← hsucc]; simpa [kindStatus] using hb
  rw [hab] at hx
  rcases List.mem_append.mp hx with h1 | h1
  · have := (kindRun_payload c e AlertType.SLOW (by decide) (hn _) (hm _) ws [] newAlertStatus
      (newAlertStatus_tracks c AlertType.SLOW (by decide) (hn _)) i a ha x h1).2
    simpa [Payload] using this
  · have := (kindRun_payload c e AlertType.FAIL (by decide) (hn _) (hm _) ws [] newAlertStatus
      (newAlertStatus_tracks c AlertType.FAIL (by decide) (hn _)) i b hb2 x h1).2
    simpa [Payload] using this

/-- Witness of C13: three windows with success rate 1/2 from the initial state; the FAIL
Alert of the third window carries the three windows, all of them bad. -/
theorem notification_payload_witness :
    List.IsSuffix [exampleWindow 1 1 1, exampleWindow 2 1 1, exampleWindow 3 1 1]
        ([exampleWindow 1 1 1, exampleWindow 2 1 1, exampleWindow 3 1 1].take (2 + 1)) ∧
      (([exampleWindow 1 1 1, exampleWindow 2 1 1, exampleWindow 3 1 1].length : Int) =
          alertTimes exampleClient AlertType.FAIL ∧
        ∀ w ∈ [exampleWindow 1 1 1, exampleWindow 2 1 1, exampleWindow 3 1 1],
          badWindow exampleClient AlertType.FAIL w = true) :=
  have h := notification_payload exampleClient exampleState "GET /users"
    [exampleWindow 1 1 1, exampleWindow 2 1 1, exampleWindow 3 1 1] rfl rfl
    (by decide) (by decide) (by decide) (by decide) 2 _ example_alert_run
    ⟨false, false, "client", "GET /users", AlertType.FAIL,
      [exampleWindow 1 1 1, exampleWindow 2 1 1, exampleWindow 3 1 1]⟩ (by simp)
  ⟨h.1, h.2.1 rfl⟩

/-- C14, amended. `AddEntryConfig` panics exactly when, after a zero maximum has been
replaced by 500 and a zero minimum by 50, the maximum is at most the minimum; otherwise it
stores the configuration with a zero fast threshold replaced by 500, a bucket count outside
3..20 replaced by 10, those two bounds, and the bucket width derived from them. -/
theorem AddEntryConfig_panics_iff (s : ClientState) (name : String) (e : EntryConfig) :
    (AddEntryConfig s name e = none ↔
      (if e.TimeConsumingDistributionMax = 0 then 500 else e.TimeConsumingDistributionMax) ≤
        (if e.TimeConsumingDistributionMin = 0 then 50 else e.TimeConsumingDistributionMin)) ∧
    AddEntryConfig s name e =
      (if (if e.TimeConsumingDistributionMax = 0 then 500 else e.TimeConsumingDistributionMax) ≤
          (if e.TimeConsumingDistributionMin = 0 then 50 else e.TimeConsumingDistributionMin)
        then none
        else some { s with
          entryConfigMap := mapSet s.entryConfigMap name
            ⟨if e.FastLessThan = 0 then 500 else e.FastLessThan,
              if 3 ≤ e.TimeConsumingDistributionSplit ∧ e.TimeConsumingDistributionSplit ≤ 20
                then e.TimeConsumingDistributionSplit else 10,
              if e.TimeConsumingDistributionMax = 0 then 500
                else e.TimeConsumingDistributionMax,
              if e.TimeConsumingDistributionMin = 0 then 50
                else e.TimeConsumingDistributionMin,
              ((if e.TimeConsumingDistributionMax = 0 then 500
                  else e.TimeConsumingDistributionMax) -
                (if e.TimeConsumingDistributionMin = 0 then 50
                  else e.TimeConsumingDistributionMin)) /
                ((if 3 ≤ e.TimeConsumingDistributionSplit ∧
                    e.TimeConsumingDistributionSplit ≤ 20
                  then e.TimeConsumingDistributionSplit else 10) - 2).toNat⟩ }) := by
  have key := normalizeEntryConfig_eq e
  by_cases h : (if e.TimeConsumingDistributionMax = 0 then 500
      else e.TimeConsumingDistributionMax) ≤
      (if e.TimeConsumingDistributionMin = 0 then 50 else e.TimeConsumingDistributionMin)
  · rw [if_pos h] at key
    rw [if_pos h]
    simp [AddEntryConfig, key, h]
  · rw [if_neg h] at key
    rw [if_neg h]
    simp [AddEntryConfig, key, h]

/-- C14, as stated, fails: with maximum 0 and minimum 0 supplied, the maximum is
at most the minimum and `AddEntryConfig` does not panic; with maximum 40 and minimum 0
supplied, the maximum is above the minimum and `AddEntryConfig` panics. -/
theorem AddEntryConfig_panic_not_on_supplied_bounds :
    ¬ (AddEntryConfig exampleState "GET /users" ⟨500, 10, 0, 0, 0⟩ = none ↔
        (⟨500, 10, 0, 0, 0⟩ : EntryConfig).TimeConsumingDistributionMax ≤
          (⟨500, 10, 0, 0, 0⟩ : EntryConfig).TimeConsumingDistributionMin) ∧
    ¬ (AddEntryConfig exampleState "GET /users" ⟨500, 10, 40, 0, 0⟩ = none ↔
        (⟨500, 10, 40, 0, 0⟩ : EntryConfig).TimeConsumingDistributionMax ≤
          (⟨500, 10, 40, 0, 0⟩ : EntryConfig).TimeConsumingDistributionMin) := by
  constructor
  · intro h
    have := h.mpr (by decide)
    simp [AddEntryConfig, normalizeEntryConfig] at this
  · intro h
    have h2 : AddEntryConfig exampleState "GET /users" ⟨500, 10, 40, 0, 0⟩ = none := by rfl
    exact absurd (h.mp h2) (by decide)

/-- C15. Fallback to the defaults, evaluated where it fails: `AddEntryConfig` called with
a configuration whose every field is zero stores fast threshold 500, bucket count 10 and
maximum 500, as in the default entry configuration, but minimum 50 and bucket width 56
where the default has 100 and 50; a success of 90 ms is counted in bucket 1 under the
stored configuration and in bucket 0 under the default. -/
theorem all_zero_config_differs_from_default :
    (AddEntryConfig exampleState "GET /users" ⟨0, 0, 0, 0, 0⟩).map (fun s => s.entryConfigMap) =
      some [("GET /users", ⟨500, 10, 500, 50, 56⟩)] ∧
    defaultEntryConfig = ⟨500, 10, 500, 100, 50⟩ ∧
    (⟨500, 10, 500, 50, 56⟩ : EntryConfig) ≠ defaultEntryConfig ∧
    bucketIndex ⟨500, 10, 500, 50, 56⟩ 90 = some 1 ∧
    bucketIndex defaultEntryConfig 90 = some 0 := by
  refine ⟨by rfl, by rfl, by decide, by rfl, by rfl⟩

/-- C16. Bucket-count clamping: when `AddEntryConfig` succeeds, the configuration it stores
for the entry has the supplied bucket count if that lies in 3..20 and 10 otherwise, so a
bucket count in 3..20, and its bucket width is the truncated quotient of the stored maximum
minus the stored minimum by the stored bucket count minus 2. -/
theorem bucket_count_clamped (s s2 : ClientState) (name : String) (e : EntryConfig)
    (h : AddEntryConfig s name e = some s2) :
    ∃ cfg, mapGet s2.entryConfigMap name = some cfg ∧
      cfg.TimeConsumingDistributionSplit =
        (if 3 ≤ e.TimeConsumingDistributionSplit ∧ e.TimeConsumingDistributionSplit ≤ 20
          then e.TimeConsumingDistributionSplit else 10) ∧
      3 ≤ cfg.TimeConsumingDistributionSplit ∧ cfg.TimeConsumingDistributionSplit ≤ 20 ∧
      cfg.timeConsumingRange =
        (cfg.TimeConsumingDistributionMax - cfg.TimeConsumingDistributionMin) /
          (cfg.TimeConsumingDistributionSplit - 2).toNat := by
  unfold AddEntryConfig at h
  rw [normalizeEntryConfig_eq] at h
  by_cases hg : (if e.TimeConsumingDistributionMax = 0 then 500
      else e.TimeConsumingDistributionMax) ≤
      (if e.TimeConsumingDistributionMin = 0 then 50 else e.TimeConsumingDistributionMin)
  · rw [if_pos hg] at h
    exact absurd h (by simp)
  · rw [if_neg hg] at h
    simp only [Option.some.injEq] at h
    subst h
    refine ⟨_, mapGet_mapSet_self _ _ _, rfl, ?_, ?_, rfl⟩
    · show (3 : Int) ≤ if _ then _ else _
      split_ifs <;> omega
    · show (if _ then _ else _ : Int) ≤ 20
      split_ifs <;> omega

/-- Witness of C16: the bucket count 25 is stored as 10, with bucket width 50 for the
bounds 100 and 500. -/
theorem bucket_count_clamped_witness :
    ∃ cfg, mapGet ({ exampleState with
          entryConfigMap := [("GET /users", ⟨500, 10, 500, 100, 50⟩)] } :
          ClientState).entryConfigMap "GET /users" = some cfg ∧
      cfg.TimeConsumingDistributionSplit =
        (if 3 ≤ (⟨500, 25, 500, 100, 0⟩ : EntryConfig).TimeConsumingDistributionSplit ∧
            (⟨500, 25, 500, 100, 0⟩ : EntryConfig).TimeConsumingDistributionSplit ≤ 20
          then (⟨500, 25, 500, 100, 0⟩ : EntryConfig).TimeConsumingDistributionSplit else 10) ∧
      3 ≤ cfg.TimeConsumingDistributionSplit ∧ cfg.TimeConsumingDistributionSplit ≤ 20 ∧
      cfg.timeConsumingRange =
        (cfg.TimeConsumingDistributionMax - cfg.TimeConsumingDistributionMin) /
          (cfg.TimeConsumingDistributionSplit - 2).toNat :=
  bucket_count_clamped exampleState _ "GET /users" ⟨500, 25, 500, 100, 0⟩ (by rfl)

/-- C17. The output sink, evaluated where it fails: with a custom `OutputCaller`
configured, `statistics` hands the record of a snapshot to the custom sink and to the
default output as well. -/
theorem default_output_always_emitted :
    statisticsRecord exampleCustomOutput exampleSnapshot = some exampleRecord ∧
    (statistics exampleCustomOutput exampleState exampleSnapshot).map (fun r => r.2.2) =
      some [⟨true, exampleRecord⟩, ⟨false, exampleRecord⟩] := by
  refine ⟨by rfl, by rfl⟩

/-- C18, amended. With minimum 100, maximum 500 and 10 buckets (bucket width 50),
successful reports of 90, 500 and 150 ms are counted in the buckets 0, 9 and 2, and the
record of the window counts them under the labels `<100`, `>500` and `150~200`. -/
theorem bucketing_example :
    ((collect exampleClient exampleState exampleBucketCommands).bind
        (fun s => s.statisticsChannel.head?.bind (statisticsRecord exampleClient))).map
        (fun o => o.TimeConsumingDistribution) =
      some [("<100", 1), (">500", 1), ("100~150", 0), ("150~200", 1), ("200~250", 0),
        ("250~300", 0), ("300~350", 0), ("350~400", 0), ("400~450", 0), ("450~500", 0)] ∧
    bucketIndex defaultEntryConfig 90 = some 0 ∧
    bucketIndex defaultEntryConfig 500 = some 9 ∧
    bucketIndex defaultEntryConfig 150 = some 2 := by
  refine ⟨by rfl, by rfl, by rfl, by rfl⟩

/-- C18, as stated, fails: in the record of the window with successes of 90, 500
and 150 ms there is no label `>=500`, and the bucket covering 100 to 150 counts nothing. -/
theorem bucketing_example_labels :
    ((collect exampleClient exampleState exampleBucketCommands).bind
        (fun s => s.statisticsChannel.head?.bind (statisticsRecord exampleClient))).map
        (fun o => (mapGet o.TimeConsumingDistribution ">=500",
          mapGet o.TimeConsumingDistribution "100~150")) =
      some (none, some 0) := by
  rfl

/-- C19. Entry configuration after first use: once an entry has an accumulator, a run of
calls that succeeds leaves every accumulator and every snapshot sent to the statistics
channel exactly as the same run without its `AddEntryConfig` calls for that entry does, and
the accumulator of the entry keeps the configuration it had: `AddEntryConfig` writes only
`entryConfigMap`, which `serverTask` reads only when it creates an accumulator. -/
theorem entry_config_fixed_after_first_report (c : ReportClientConfig) (s s2 : ClientState)
    (name : String) (calls : List clientCall) (d : reportData)
    (hd : mapGet s.collectDataMap name = some d)
    (hrun : runCalls c s calls = some s2) :
    ∃ s3, runCalls c s (withoutConfig name calls) = some s3 ∧
      s2.collectDataMap = s3.collectDataMap ∧
      s2.statisticsChannel = s3.statisticsChannel ∧
      ∃ d2, mapGet s2.collectDataMap name = some d2 ∧ d2.Config = d.Config :=
  runCalls_frame c name calls s s.entryConfigMap d s2 hd (fun _ _ => rfl) hrun

/-- Witness of C19: an entry with an accumulator under the default configuration gets
another configuration, then a success of 150 ms and a flush. -/
theorem entry_config_fixed_after_first_report_witness :
    ∃ s2, runCalls exampleClient exampleCollected exampleCalls = some s2 ∧
      ∃ s3, runCalls exampleClient exampleCollected (withoutConfig "GET /users" exampleCalls) =
          some s3 ∧
        s2.collectDataMap = s3.collectDataMap ∧
        s2.statisticsChannel = s3.statisticsChannel ∧
        ∃ d2, mapGet s2.collectDataMap "GET /users" = some d2 ∧
          d2.Config = ({ exampleSnapshot with Time := 0 } : reportData).Config := by
  obtain ⟨s2, h2⟩ := Option.isSome_iff_exists.mp
    (show (runCalls exampleClient exampleCollected exampleCalls).isSome = true from rfl)
  exact ⟨s2, h2, entry_config_fixed_after_first_report exampleClient exampleCollected s2
    "GET /users" exampleCalls { exampleSnapshot with Time := 0 } rfl h2⟩

/-- C20. Recovery, evaluated where the good-window buffer is kept: from the initial state,
three bad windows and then three good windows fire the Recovery of both metrics at the
sixth window; afterwards each metric is Healthy with an empty bad-window buffer, and its
good-window buffer still holds the three good windows. -/
theorem recovery_keeps_good_buffer :
    (alertAnalyzeAll exampleClient "GET /users" exampleState
        [exampleWindow 1 1 1, exampleWindow 2 1 1, exampleWindow 3 1 1, exampleWindow 4 1 0,
          exampleWindow 5 1 0, exampleWindow 6 1 0]).2[5]? =
      some [⟨true, false, "client", "GET /users", AlertType.SLOW,
          [exampleWindow 4 1 0, exampleWindow 5 1 0, exampleWindow 6 1 0]⟩,
        ⟨true, false, "client", "GET /users", AlertType.FAIL,
          [exampleWindow 4 1 0, exampleWindow 5 1 0, exampleWindow 6 1 0]⟩] ∧
    successStatus (alertAnalyzeAll exampleClient "GET /users" exampleState
        [exampleWindow 1 1 1, exampleWindow 2 1 1, exampleWindow 3 1 1, exampleWindow 4 1 0,
          exampleWindow 5 1 0, exampleWindow 6 1 0]).1 "GET /users" =
      ⟨[], [exampleWindow 4 1 0, exampleWindow 5 1 0, exampleWindow 6 1 0], AlertType.NONE⟩ ∧
    fastStatus (alertAnalyzeAll exampleClient "GET /users" exampleState
        [exampleWindow 1 1 1, exampleWindow 2 1 1, exampleWindow 3 1 1, exampleWindow 4 1 0,
          exampleWindow 5 1 0, exampleWindow 6 1 0]).1 "GET /users" =
      ⟨[], [exampleWindow 4 1 0, exampleWindow 5 1 0, exampleWindow 6 1 0], AlertType.NONE⟩ := by
  simp only [alertAnalyzeAll, alertAnalyze_eq, kindStep, example_window_bad,
    example_window_good, metricStep]
  refine ⟨by rfl, by rfl, by rfl⟩

/-- C21. Classifying a success, evaluated where it crashes: `AddEntryConfig` stores the
bounds 1 and 5 with 10 buckets as bucket width 0, and a successful report of 3 ms then
makes `serverTask` panic on a division by zero; it stores the bounds 1 and 100 with 20
buckets as bucket width 5, and a successful report of 99 ms then has bucket index 20 and
makes `serverTask` panic on an index out of range. -/
theorem classifying_success_can_crash :
    (AddEntryConfig exampleState "GET /users" ⟨500, 10, 5, 1, 0⟩).map
        (fun s => s.entryConfigMap) = some [("GET /users", ⟨500, 10, 5, 1, 0⟩)] ∧
    bucketIndex ⟨500, 10, 5, 1, 0⟩ 3 = none ∧
    (AddEntryConfig exampleState "GET /users" ⟨500, 10, 5, 1, 0⟩).bind
        (fun s => serverTask exampleClient s ⟨"GET /users", 3, 200⟩) = none ∧
    (AddEntryConfig exampleState "GET /users" ⟨500, 20, 100, 1, 0⟩).map
        (fun s => s.entryConfigMap) = some [("GET /users", ⟨500, 20, 100, 1, 5⟩)] ∧
    bucketIndex ⟨500, 20, 100, 1, 5⟩ 99 = some 20 ∧
    (AddEntryConfig exampleState "GET /users" ⟨500, 20, 100, 1, 0⟩).bind
        (fun s => serverTask exampleClient s ⟨"GET /users", 99, 200⟩) = none := by
  refine ⟨by rfl, by rfl, by rfl, by rfl, by rfl, by rfl⟩

/-- C22. Same notifications as the reference machine: for the windows `ws` of an entry
whose two alert states are initial, and thresholds of any value, the Alerts and Recoveries
that `alertAnalyze` fires for each metric, window by window and with the records they
carry, are those of the reference hysteresis machine run from its initial state with the
thresholds and the bad-window test of that metric. -/
theorem same_notifications_as_reference (c : ReportClientConfig) (s : ClientState)
    (e : String) (ws : List OutPutData)
    (hfast : fastStatus s e = newAlertStatus) (hsucc : successStatus s e = newAlertStatus) :
    (alertAnalyzeAll c e s ws).2.map (fun l => (notesOf AlertType.SLOW l).map eventOf) =
        referenceRun c.AlertForBadFastRateReachedTimes c.AlertForGreatFastRateReachedTimes
          (fun o => decide (o.SuccessCount > 0) && floatLt o.FastRate c.FastRate)
          referenceInit ws ∧
      (alertAnalyzeAll c e s ws).2.map (fun l => (notesOf AlertType.FAIL l).map eventOf) =
        referenceRun c.AlertForBadSuccessRateReachedTimes
          c.AlertForGreatSuccessRateReachedTimes
          (fun o => floatLt o.SuccessRate c.SuccessRate) referenceInit ws := by
  have h1 := (alertAnalyzeAll_kind c e AlertType.SLOW (by decide) ws s).2
  have h2 := (alertAnalyzeAll_kind c e AlertType.FAIL (by decide) ws s).2
  have m1 := kindRun_matches c e AlertType.SLOW (by decide) ws newAlertStatus referenceInit
    (newAlertStatus_matches AlertType.SLOW (by decide))
  have m2 := kindRun_matches c e AlertType.FAIL (by decide) ws newAlertStatus referenceInit
    (newAlertStatus_matches AlertType.FAIL (by decide))
  simp only [kindStatus, if_true, hfast] at h1
  have h2' : (alertAnalyzeAll c e s ws).2.map (notesOf AlertType.FAIL) =
      (kindRun c e AlertType.FAIL newAlertStatus ws).2 := by
    rw [← hsucc]; simpa [kindStatus] using h2
  constructor
  · have hmap : (alertAnalyzeAll c e s ws).2.map
          (fun l => (notesOf AlertType.SLOW l).map eventOf) =
        ((alertAnalyzeAll c e s ws).2.map (notesOf AlertType.SLOW)).map
          (fun l => l.map eventOf) := by
      rw [List.map_map]; rfl
    rw [hmap, h1, m1]
    rfl
  · have hmap : (alertAnalyzeAll c e s ws).2.map
          (fun l => (notesOf AlertType.FAIL l).map eventOf) =
        ((alertAnalyzeAll c e s ws).2.map (notesOf AlertType.FAIL)).map
          (fun l => l.map eventOf) := by
      rw [List.map_map]; rfl
    rw [hmap, h2', m2]
    rfl

/-- Witness of C22: four windows with success rate 1/2 from the initial state of the
examples, for the success-rate metric. -/
theorem same_notifications_as_reference_witness :
    (alertAnalyzeAll exampleClient "GET /users" exampleState
        [exampleWindow 1 1 1, exampleWindow 2 1 1, exampleWindow 3 1 1,
          exampleWindow 4 1 1]).2.map (fun l => (notesOf AlertType.FAIL l).map eventOf) =
      referenceRun exampleClient.AlertForBadSuccessRateReachedTimes
        exampleClient.AlertForGreatSuccessRateReachedTimes
        (fun o => floatLt o.SuccessRate exampleClient.SuccessRate) referenceInit
        [exampleWindow 1 1 1, exampleWindow 2 1 1, exampleWindow 3 1 1, exampleWindow 4 1 1] :=
  (same_notifications_as_reference exampleClient exampleState "GET /users"
    [exampleWindow 1 1 1, exampleWindow 2 1 1, exampleWindow 3 1 1, exampleWindow 4 1 1]
    rfl rfl).2

/-- C23, amended. Alert buffers: in a run of `alertAnalyze` over the windows `ws` of an
entry whose two alert states are initial, with all four thresholds at least 1, after each
step the good-window buffer of each metric holds at most as many records as the recovery
threshold, and the bad-window buffer holds fewer records than the alert threshold while
the metric is Healthy; in every state the bad-window buffer is a trailing run of the
windows seen, all of them bad for the metric. -/
theorem alert_buffers_bounded (c : ReportClientConfig) (s : ClientState) (e : String)
    (ws : List OutPutData) (k : Nat)
    (hfast : fastStatus s e = newAlertStatus) (hsucc : successStatus s e = newAlertStatus)
    (hn1 : 1 ≤ c.AlertForBadFastRateReachedTimes)
    (hn2 : 1 ≤ c.AlertForBadSuccessRateReachedTimes)
    (hm1 : 1 ≤ c.AlertForGreatFastRateReachedTimes)
    (hm2 : 1 ≤ c.AlertForGreatSuccessRateReachedTimes) :
    (((fastStatus (alertAnalyzeAll c e s (ws.take k)).1 e).recentRecoverOutput.length : Int) ≤
        c.AlertForGreatFastRateReachedTimes ∧
      ((fastStatus (alertAnalyzeAll c e s (ws.take k)).1 e).curState = AlertType.NONE →
        ((fastStatus (alertAnalyzeAll c e s (ws.take k)).1 e).recentAlertOutput.length : Int) <
          c.AlertForBadFastRateReachedTimes) ∧
      List.IsSuffix (fastStatus (alertAnalyzeAll c e s (ws.take k)).1 e).recentAlertOutput
        (ws.take k) ∧
      ∀ w ∈ (fastStatus (alertAnalyzeAll c e s (ws.take k)).1 e).recentAlertOutput,
        badWindow c AlertType.SLOW w = true) ∧
    (((successStatus (alertAnalyzeAll c e s (ws.take k)).1 e).recentRecoverOutput.length : Int) ≤
        c.AlertForGreatSuccessRateReachedTimes ∧
      ((successStatus (alertAnalyzeAll c e s (ws.take k)).1 e).curState = AlertType.NONE →
        ((successStatus (alertAnalyzeAll c e s (ws.take k)).1 e).recentAlertOutput.length : Int) <
          c.AlertForBadSuccessRateReachedTimes) ∧
      List.IsSuffix (successStatus (alertAnalyzeAll c e s (ws.take k)).1 e).recentAlertOutput
        (ws.take k) ∧
      ∀ w ∈ (successStatus (alertAnalyzeAll c e s (ws.take k)).1 e).recentAlertOutput,
        badWindow c AlertType.FAIL w = true) := by
  have a1 := (alertAnalyzeAll_kind c e AlertType.SLOW (by decide) (ws.take k) s).1
  have a2 := (alertAnalyzeAll_kind c e AlertType.FAIL (by decide) (ws.take k) s).1
  simp only [kindStatus, if_true, hfast] at a1
  have a2' : successStatus (alertAnalyzeAll c e s (ws.take k)).1 e =
      (kindRun c e AlertType.FAIL newAlertStatus (ws.take k)).1 := by
    rw [← hsucc]; simpa [kindStatus] using a2
  have t1 := kindRun_tracks c e AlertType.SLOW (by decide) hn1 hm1 (ws.take k) []
    newAlertStatus (newAlertStatus_tracks c AlertType.SLOW (by decide) hn1)
    (by simp only [newAlertStatus, List.length_nil, Nat.cast_zero]
        exact le_trans (by decide) hm1)
  have t2 := kindRun_tracks c e AlertType.FAIL (by decide) hn2 hm2 (ws.take k) []
    newAlertStatus (newAlertStatus_tracks c AlertType.FAIL (by decide) hn2)
    (by simp only [newAlertStatus, List.length_nil, Nat.cast_zero]
        exact le_trans (by decide) hm2)
  rw [a1, a2']
  simp only [List.nil_append] at t1 t2
  obtain ⟨⟨_, p2, p3, p4, _⟩, p6⟩ := t1
  obtain ⟨⟨_, q2, q3, q4, _⟩, q6⟩ := t2
  exact ⟨⟨p6, p4, p2, p3⟩, ⟨q6, q4, q2, q3⟩⟩

/-- Witness of C23, amended: seven windows with success rate 1/2 from the initial state of
the examples, for the success-rate metric. -/
theorem alert_buffers_bounded_witness :
    ((successStatus (alertAnalyzeAll exampleClient "GET /users" exampleState
          ((List.replicate 7 (exampleWindow 1 1 1)).take 7)).1
          "GET /users").recentRecoverOutput.length : Int) ≤
        exampleClient.AlertForGreatSuccessRateReachedTimes ∧
      ((successStatus (alertAnalyzeAll exampleClient "GET /users" exampleState
          ((List.replicate 7 (exampleWindow 1 1 1)).take 7)).1
          "GET /users").curState = AlertType.NONE →
        ((successStatus (alertAnalyzeAll exampleClient "GET /users" exampleState
          ((List.replicate 7 (exampleWindow 1 1 1)).take 7)).1
          "GET /users").recentAlertOutput.length : Int) <
          exampleClient.AlertForBadSuccessRateReachedTimes) ∧
      List.IsSuffix (successStatus (alertAnalyzeAll exampleClient "GET /users" exampleState
          ((List.replicate 7 (exampleWindow 1 1 1)).take 7)).1
          "GET /users").recentAlertOutput ((List.replicate 7 (exampleWindow 1 1 1)).take 7) ∧
      ∀ w ∈ (successStatus (alertAnalyzeAll exampleClient "GET /users" exampleState
          ((List.replicate 7 (exampleWindow 1 1 1)).take 7)).1
          "GET /users").recentAlertOutput,
        badWindow exampleClient AlertType.FAIL w = true :=
  (alert_buffers_bounded exampleClient exampleState "GET /users"
    (List.replicate 7 (exampleWindow 1 1 1)) 7 rfl rfl
    (by decide) (by decide) (by decide) (by decide)).2

/-- C23, as stated, fails: with alert threshold 3, seven consecutive bad windows from the
initial state leave 4 records in the bad-window buffer of the success-rate metric, the
windows that arrived while Alerting. -/
theorem bad_buffer_exceeds_threshold :
    exampleClient.AlertForBadSuccessRateReachedTimes = 3 ∧
    (successStatus (alertAnalyzeAll exampleClient "GET /users" exampleState
        (List.replicate 7 (exampleWindow 1 1 1))).1 "GET /users").recentAlertOutput.length = 4 ∧
    ¬ (((successStatus (alertAnalyzeAll exampleClient "GET /users" exampleState
        (List.replicate 7 (exampleWindow 1 1 1))).1 "GET /users").recentAlertOutput.length :
          Int) ≤ exampleClient.AlertForBadSuccessRateReachedTimes) := by
  have h := (example_bad_run 4).1
  have h7 : (7 : Nat) = 3 + 4 := rfl
  rw [h7, h]
  refine ⟨rfl, rfl, ?_⟩
  simp [exampleClient]

end MonitorTool
